import Mathlib

/-!
The mistral-go SDK: streaming decode loops and multipart retry loops.

A shallow embedding of the goroutine bodies of `ChatStream` (sdk/chat.go),
`FIMStream` (sdk/fim.go) and `AgentCompleteStream` (sdk/agents.go), and of the
retry loops of `UploadFile` (sdk/files.go) and `Transcribe` (sdk/audio.go).

Byte slices are lists of `UInt8`.  The Go standard library functions the loops
call (`bytes.HasPrefix`, `bytes.TrimPrefix`, `bytes.TrimSpace`,
`bufio.Reader.ReadBytes`) are written out below; `json.Unmarshal` into the
endpoint's chunk schema is a parameter `unmarshal : Bytes → Except String α` of
each loop, `α` standing for the decoded fields of the schema.
-/

namespace Mistral

/-- A Go byte slice. -/
abbrev Bytes := List UInt8

/-! ## The standard library functions used by the decode loops -/

/-- The literal `"data: "`. -/
def dataPrefix : Bytes := [100, 97, 116, 97, 58, 32]

/-- The literal `"[DONE]"`. -/
def doneSentinel : Bytes := [91, 68, 79, 78, 69, 93]

/-- Go `bytes.HasPrefix(s, p)`. -/
def bytesHasPrefix (s p : Bytes) : Bool := p.isPrefixOf s

/-- Go `bytes.TrimPrefix(s, p)`. -/
def bytesTrimPrefix (s p : Bytes) : Bytes :=
  if bytesHasPrefix s p then s.drop p.length else s

/-- Go `unicode.IsSpace` on a code point: the Latin-1 cases, then the
`White_Space` range table. -/
def unicodeIsSpace (r : Nat) : Bool :=
  if r ≤ 0xFF then
    r == 0x09 || r == 0x0A || r == 0x0B || r == 0x0C || r == 0x0D || r == 0x20 ||
      r == 0x85 || r == 0xA0
  else
    r == 0x1680 || (0x2000 ≤ r && r ≤ 0x200A) || r == 0x2028 || r == 0x2029 ||
      r == 0x202F || r == 0x205F || r == 0x3000

/-- The code point `utf8.RuneError`. -/
def runeError : Nat := 0xFFFD

/-- Go `utf8.DecodeRune`: the first rune of `p` and its width in bytes; an
invalid or truncated encoding yields `(RuneError, 1)`, the empty slice
`(RuneError, 0)`. -/
def utf8DecodeRune (p : Bytes) : Nat × Nat :=
  match p with
  | [] => (runeError, 0)
  | b0 :: t =>
    let p0 := b0.toNat
    if p0 < 0x80 then (p0, 1)
    else if p0 < 0xC2 ∨ 0xF4 < p0 then (runeError, 1)
    else
      let sz : Nat := if p0 < 0xE0 then 2 else if p0 < 0xF0 then 3 else 4
      let lo : Nat := if p0 = 0xE0 then 0xA0 else if p0 = 0xF0 then 0x90 else 0x80
      let hi : Nat := if p0 = 0xED then 0x9F else if p0 = 0xF4 then 0x8F else 0xBF
      if t.length + 1 < sz then (runeError, 1)
      else
        match t with
        | [] => (runeError, 1)
        | c1 :: t1 =>
          let b1 := c1.toNat
          if b1 < lo ∨ hi < b1 then (runeError, 1)
          else if sz ≤ 2 then ((p0 % 0x20) * 0x40 + b1 % 0x40, 2)
          else
            match t1 with
            | [] => (runeError, 1)
            | c2 :: t2 =>
              let b2 := c2.toNat
              if b2 < 0x80 ∨ 0xBF < b2 then (runeError, 1)
              else if sz ≤ 3 then
                ((p0 % 0x10) * 0x1000 + (b1 % 0x40) * 0x40 + b2 % 0x40, 3)
              else
                match t2 with
                | [] => (runeError, 1)
                | c3 :: _ =>
                  let b3 := c3.toNat
                  if b3 < 0x80 ∨ 0xBF < b3 then (runeError, 1)
                  else
                    ((p0 % 0x08) * 0x40000 + (b1 % 0x40) * 0x1000 + (b2 % 0x40) * 0x40
                      + b3 % 0x40, 4)

/-- Go `utf8.RuneStart`: the byte is not a continuation byte. -/
def utf8RuneStart (b : UInt8) : Bool := b.toNat / 0x40 != 2

/-- The backward scan of `utf8.DecodeLastRune`: starting below `start`, go down
to the first rune-start byte, not below `lim`; the result is the index the Go
loop leaves in `start`, shifted by one so that `0` stands for `lim - 1`. -/
def lastRuneScan (p : Bytes) (lim : Nat) : Nat → Nat
  | 0 => 0
  | start + 1 =>
    if start < lim then start + 1
    else if utf8RuneStart (p.getD start 0) then start + 1
    else lastRuneScan p lim start

/-- Go `utf8.DecodeLastRune`: the last rune of `p` and its width. -/
def utf8DecodeLastRune (p : Bytes) : Nat × Nat :=
  let stop := p.length
  if stop = 0 then (runeError, 0)
  else
    let last := (p.getD (stop - 1) 0).toNat
    if last < 0x80 then (last, 1)
    else
      let lim := stop - 4
      let start := lastRuneScan p lim (stop - 1) - 1
      let d := utf8DecodeRune ((p.drop start).take (stop - start))
      if start + d.2 ≠ stop then (runeError, 1) else d

/-- Go `bytes.TrimLeftFunc(s, unicode.IsSpace)`; `fuel` bounds the number of
runes looked at and is the length of the slice at the call. -/
def trimLeftSpace : Nat → Bytes → Bytes
  | 0, s => s
  | fuel + 1, s =>
    match s with
    | [] => []
    | _ :: _ =>
      let d := utf8DecodeRune s
      if unicodeIsSpace d.1 then trimLeftSpace fuel (s.drop d.2) else s

/-- Go `bytes.TrimRightFunc(s, unicode.IsSpace)`, with `fuel` as in
`trimLeftSpace`. -/
def trimRightSpace : Nat → Bytes → Bytes
  | 0, s => s
  | fuel + 1, s =>
    match s with
    | [] => []
    | _ :: _ =>
      let d := utf8DecodeLastRune s
      if unicodeIsSpace d.1 then trimRightSpace fuel (s.take (s.length - d.2)) else s

/-- Go `bytes.TrimSpace`: leading and trailing white space, as defined by
Unicode, is removed.  (The ASCII fast path of the Go implementation returns
what `TrimFunc(s, unicode.IsSpace)` returns.) -/
def bytesTrimSpace (s : Bytes) : Bytes :=
  let l := trimLeftSpace s.length s
  trimRightSpace l.length l

/-! ## The response body and `bufio.Reader.ReadBytes` -/

/-- The response body behind the `bufio.Reader`: the bytes not read yet, and
how the stream ends once they are used up (`none`: `io.EOF`; `some e`: a read
error with text `e`). -/
structure Reader where
  buf : Bytes
  err : Option String

/-- The part of `buf` up to and including the first `delim`, and the bytes
after it; `none` when `buf` holds no `delim`. -/
def splitDelim (delim : UInt8) : Bytes → Option (Bytes × Bytes)
  | [] => none
  | b :: bs =>
    if b = delim then some ([b], bs)
    else
      match splitDelim delim bs with
      | none => none
      | some (line, rest) => some (b :: line, rest)

/-- The error value returned by a read. -/
inductive ReadError where
  | EOF
  | other (msg : String)
  deriving DecidableEq, Repr

/-- Go `(*bufio.Reader).ReadBytes(delim)`: the data up to and including the
first `delim` with a nil error; without a `delim` before the stream ends, the
data read so far together with the error that ended the stream.  The third
component is the reader after the call. -/
def Reader.ReadBytes (r : Reader) (delim : UInt8) : Bytes × Option ReadError × Reader :=
  match splitDelim delim r.buf with
  | some (line, rest) => (line, none, ⟨rest, r.err⟩)
  | none =>
    (r.buf, some (match r.err with
      | none => ReadError.EOF
      | some e => ReadError.other e), ⟨[], r.err⟩)

theorem splitDelim_length {delim : UInt8} :
    ∀ {buf line rest : Bytes}, splitDelim delim buf = some (line, rest) →
      rest.length < buf.length
  | [], _, _, h => by simp [splitDelim] at h
  | b :: bs, line, rest, h => by
    unfold splitDelim at h
    split at h
    · simp only [Option.some.injEq, Prod.mk.injEq] at h
      rw [← h.2]; simp
    · split at h
      · simp at h
      · rename_i l r heq
        simp only [Option.some.injEq, Prod.mk.injEq] at h
        have := splitDelim_length heq
        rw [← h.2]; simp; omega

theorem ReadBytes_length {r r' : Reader} {delim : UInt8} {line : Bytes}
    (h : r.ReadBytes delim = (line, none, r')) : r'.buf.length < r.buf.length := by
  unfold Reader.ReadBytes at h
  split at h
  · rename_i l rest heq
    simp only [Prod.mk.injEq, true_and] at h
    rw [← h.2]
    exact splitDelim_length heq
  · simp at h

/-! ## The stream decoders -/

/-- A streamed chunk, `ChatCompletionStreamResponse` or
`FIMCompletionStreamResponse`: the fields filled by JSON decoding, and the
`Error` field set by the decoder goroutine (`none` is Go's nil).  A successful
`json.Unmarshal` leaves `Error` nil: in the FIM schema the field is tagged
`json:"-"`, in the chat schema it has the interface type `error`, into which
only JSON `null` decodes. -/
structure StreamResponse (α : Type) where
  fields : α
  Error : Option String
  deriving DecidableEq, Repr

/-- What the decoder goroutine does that its environment observes: a send on
the response channel, `respBody.Close()`, and `close` of the channel. -/
inductive Event (α : Type) where
  | send (chunk : StreamResponse α)
  | bodyClose
  | chanClose
  deriving DecidableEq, Repr

section Decoders

variable {α : Type} [Inhabited α]

/-- The `for` loop of the goroutine of `ChatStream` (chat.go 258-293): the
chunks sent on `responseChannel`, in order.  `default` is the zero value of the
chunk's fields. -/
def chatStreamLoop (unmarshal : Bytes → Except String α) (reader : Reader) :
    List (StreamResponse α) :=
  match h : reader.ReadBytes 10 with
  | (_, some ReadError.EOF, _) => []
  | (_, some (ReadError.other e), _) =>
    [{ fields := default, Error := some ("error reading stream response: " ++ e) }]
  | (line, none, reader') =>
    have : reader'.buf.length < reader.buf.length := ReadBytes_length h
    if line = [10] then chatStreamLoop unmarshal reader'
    else if bytesHasPrefix line dataPrefix then
      let jsonLine := bytesTrimSpace (bytesTrimPrefix line dataPrefix)
      if jsonLine = doneSentinel then []
      else
        match unmarshal jsonLine with
        | .error e =>
          { fields := default, Error := some ("error decoding stream response: " ++ e) }
            :: chatStreamLoop unmarshal reader'
        | .ok streamResponse =>
          { fields := streamResponse, Error := none } :: chatStreamLoop unmarshal reader'
    else chatStreamLoop unmarshal reader'
termination_by reader.buf.length

/-- The `for` loop of the goroutine of `FIMStream` (fim.go 184-212). -/
def fimStreamLoop (unmarshal : Bytes → Except String α) (reader : Reader) :
    List (StreamResponse α) :=
  match h : reader.ReadBytes 10 with
  | (_, some ReadError.EOF, _) => []
  | (_, some (ReadError.other e), _) =>
    [{ fields := default, Error := some ("error reading stream response: " ++ e) }]
  | (line, none, reader') =>
    have : reader'.buf.length < reader.buf.length := ReadBytes_length h
    if line = [10] then fimStreamLoop unmarshal reader'
    else if bytesHasPrefix line dataPrefix then
      let jsonLine := bytesTrimSpace (bytesTrimPrefix line dataPrefix)
      if jsonLine = doneSentinel then []
      else
        match unmarshal jsonLine with
        | .error e =>
          [{ fields := default, Error := some ("error unmarshaling stream response: " ++ e) }]
        | .ok streamResponse =>
          { fields := streamResponse, Error := none } :: fimStreamLoop unmarshal reader'
    else fimStreamLoop unmarshal reader'
termination_by reader.buf.length

/-- The `for` loop of the goroutine of `AgentCompleteStream` (agents.go
209-237). -/
def agentCompleteStreamLoop (unmarshal : Bytes → Except String α) (reader : Reader) :
    List (StreamResponse α) :=
  match h : reader.ReadBytes 10 with
  | (_, some ReadError.EOF, _) => []
  | (_, some (ReadError.other e), _) =>
    [{ fields := default, Error := some ("error reading stream response: " ++ e) }]
  | (line, none, reader') =>
    have : reader'.buf.length < reader.buf.length := ReadBytes_length h
    if line = [10] then agentCompleteStreamLoop unmarshal reader'
    else if bytesHasPrefix line dataPrefix then
      let jsonLine := bytesTrimSpace (bytesTrimPrefix line dataPrefix)
      if jsonLine = doneSentinel then []
      else
        match unmarshal jsonLine with
        | .error e =>
          [{ fields := default, Error := some ("error unmarshaling stream response: " ++ e) }]
        | .ok streamResponse =>
          { fields := streamResponse, Error := none } :: agentCompleteStreamLoop unmarshal reader'
    else agentCompleteStreamLoop unmarshal reader'
termination_by reader.buf.length

/-- The goroutine of a stream call: the sends of its loop, then the deferred
calls in the order Go runs them, `respBody.Close()` before `close` of the
channel. -/
def goroutineTrace (chunks : List (StreamResponse α)) : List (Event α) :=
  chunks.map Event.send ++ [Event.bodyClose, Event.chanClose]

/-- The goroutine started by `ChatStream` (chat.go 248-294). -/
def chatStreamGoroutine (unmarshal : Bytes → Except String α) (respBody : Reader) :
    List (Event α) :=
  goroutineTrace (chatStreamLoop unmarshal respBody)

/-- The goroutine started by `FIMStream` (fim.go 178-213). -/
def fimStreamGoroutine (unmarshal : Bytes → Except String α) (respBody : Reader) :
    List (Event α) :=
  goroutineTrace (fimStreamLoop unmarshal respBody)

/-- The goroutine started by `AgentCompleteStream` (agents.go 203-238). -/
def agentCompleteStreamGoroutine (unmarshal : Bytes → Except String α) (respBody : Reader) :
    List (Event α) :=
  goroutineTrace (agentCompleteStreamLoop unmarshal respBody)

end Decoders

/-! ## Lines of a response body -/

/-- The body made of the given lines, each followed by its `\n`. -/
def joinLines : List Bytes → Bytes
  | [] => []
  | l :: ls => l ++ 10 :: joinLines ls

/-- The line, as `ReadBytes` returns it, begins with the literal `data: `. -/
def isDataLine (line : Bytes) : Bool := bytesHasPrefix line dataPrefix

/-- The content of a line after stripping the `data: ` prefix and the
surrounding white space. -/
def payloadOf (line : Bytes) : Bytes := bytesTrimSpace (bytesTrimPrefix line dataPrefix)

/-- A `data: ` line whose content is the sentinel `[DONE]`. -/
def isDoneLine (line : Bytes) : Bool := isDataLine line && payloadOf line == doneSentinel

/-- The lines (given without their `\n`) that begin with `data: `. -/
def dataLines (ls : List Bytes) : List Bytes := ls.filter (fun l => isDataLine (l ++ [10]))

/-- The lines before the first `data: [DONE]` line. -/
def linesBeforeDone (ls : List Bytes) : List Bytes :=
  ls.takeWhile (fun l => !isDoneLine (l ++ [10]))

/-- What a decoder does with one line: nothing, end of stream, a decode error
or a decoded chunk. -/
inductive LineClass (α : Type) where
  | ignored
  | done
  | malformed (e : String)
  | chunk (v : α)

/-- The case analysis the three loops make on a line read with a nil error. -/
def classifyLine {α : Type} (unmarshal : Bytes → Except String α) (line : Bytes) :
    LineClass α :=
  if line = [10] then .ignored
  else if bytesHasPrefix line dataPrefix then
    if bytesTrimSpace (bytesTrimPrefix line dataPrefix) = doneSentinel then .done
    else
      match unmarshal (bytesTrimSpace (bytesTrimPrefix line dataPrefix)) with
      | .error e => .malformed e
      | .ok v => .chunk v
  else .ignored

/-- A loop `L` reads its body line by line, ends silently at `io.EOF`, sends one
error chunk on a read error, and handles a malformed payload with `onBad`
(applied to the error text and to what the loop does with the rest). -/
structure DecodesLike {α : Type} [Inhabited α] (unmarshal : Bytes → Except String α)
    (onBad : String → List (StreamResponse α) → List (StreamResponse α))
    (L : Reader → List (StreamResponse α)) : Prop where
  eof : ∀ t : Bytes, (10 : UInt8) ∉ t → L ⟨t, none⟩ = []
  readErr : ∀ (t : Bytes) (e : String), (10 : UInt8) ∉ t →
    L ⟨t, some e⟩ = [⟨default, some ("error reading stream response: " ++ e)⟩]
  line : ∀ (l rest : Bytes) (err : Option String), (10 : UInt8) ∉ l →
    L ⟨l ++ 10 :: rest, err⟩ =
      match classifyLine unmarshal (l ++ [10]) with
      | .ignored => L ⟨rest, err⟩
      | .done => []
      | .malformed e => onBad e (L ⟨rest, err⟩)
      | .chunk v => ⟨v, none⟩ :: L ⟨rest, err⟩

/-- How `ChatStream` handles a malformed payload: one error chunk, then the
loop goes on (`continue`). -/
def chatOnBad {α : Type} [Inhabited α] (e : String) (tl : List (StreamResponse α)) :
    List (StreamResponse α) :=
  ⟨default, some ("error decoding stream response: " ++ e)⟩ :: tl

/-- How `FIMStream` and `AgentCompleteStream` handle a malformed payload: one
error chunk, then `return`. -/
def fimOnBad {α : Type} [Inhabited α] (e : String) (_tl : List (StreamResponse α)) :
    List (StreamResponse α) :=
  [⟨default, some ("error unmarshaling stream response: " ++ e)⟩]

/-! ## The retry loops of the multipart endpoints -/

/-- Modelled from the spec: the table `retryStatusCodes`, declared in a file of
the package that is not among the sources; "Retryable status codes: {429, 500,
502, 503, 504}. All others pass through as-is."  A Go map lookup of an absent
key yields `false`. -/
def retryStatusCodes (code : Int) : Bool :=
  code == 429 || code == 500 || code == 502 || code == 503 || code == 504

/-- A completed HTTP exchange, `*http.Response`: `Body` is what
`io.ReadAll(resp.Body)` returns, the bytes or the text of a read error. -/
structure Response (H : Type) where
  StatusCode : Int
  Header : H
  Body : Except String Bytes

/-- Modelled from the spec: the error values a call returns.  The constructors
`NewMistralConnectionError` and `NewMistralAPIError` are declared in a file of
the package that is not among the sources; the spec gives "ConnectionError" and
"APIError carrying status, raw body text, and headers".  `plain` is an error
made with `fmt.Errorf`. -/
inductive CallError (H : Type) where
  | connection (message : String)
  | api (body : Bytes) (status : Int) (headers : H)
  | plain (message : String)

/-- What a call returns, `(*T, error)`, and the number of requests the
transport has been handed when it returns. -/
structure CallResult (α H : Type) where
  result : Option α
  err : Option (CallError H)
  requests : Nat

section Retry

variable {α H : Type}

/-- What the loops of `UploadFile` and `Transcribe` return for a response that
is not retried (files.go 175-192, audio.go 154-171), `sent` requests having
been sent: a read error, an API error for a status of 400 or more, a decode
error, or the decoded value. -/
def finalResult (unmarshal : Bytes → Except String α) (resp : Response H) (sent : Nat) :
    CallResult α H :=
  match resp.Body with
  | .error err => ⟨none, some (.plain ("failed to read response body: " ++ err)), sent⟩
  | .ok respBody =>
    if resp.StatusCode ≥ 400 then ⟨none, some (.api respBody resp.StatusCode resp.Header), sent⟩
    else
      match unmarshal respBody with
      | .error err => ⟨none, some (.plain ("failed to unmarshal response: " ++ err)), sent⟩
      | .ok result => ⟨some result, none, sent⟩

/-- The retry loop of `UploadFile` (files.go 157-195), from the iteration with
loop counter `attempt`.  `clientDo n` is what `client.Do(req)` returns for the
request sent after `n` earlier ones: the text of a transport error or a
response.  `sent` counts the requests sent so far, `lastErr` is the variable of
that name (`none` is nil). -/
def uploadFileRetryLoop (maxRetries : Int) (clientDo : Nat → Except String (Response H))
    (unmarshal : Bytes → Except String α) (attempt : Nat) (lastErr : Option String)
    (sent : Nat) : CallResult α H :=
  if _h : (attempt : Int) ≤ maxRetries then
    match clientDo sent with
    | .error err =>
      if (attempt : Int) < maxRetries then
        uploadFileRetryLoop maxRetries clientDo unmarshal (attempt + 1) (some err) (sent + 1)
      else ⟨none, some (.connection err), sent + 1⟩
    | .ok resp =>
      if retryStatusCodes resp.StatusCode && decide ((attempt : Int) < maxRetries) then
        uploadFileRetryLoop maxRetries clientDo unmarshal (attempt + 1)
          (some ("received retry status code: " ++ toString resp.StatusCode)) (sent + 1)
      else
        match resp.Body with
        | .error err =>
          ⟨none, some (.plain ("failed to read response body: " ++ err)), sent + 1⟩
        | .ok respBody =>
          if resp.StatusCode ≥ 400 then
            ⟨none, some (.api respBody resp.StatusCode resp.Header), sent + 1⟩
          else
            match unmarshal respBody with
            | .error err =>
              ⟨none, some (.plain ("failed to unmarshal response: " ++ err)), sent + 1⟩
            | .ok result => ⟨some result, none, sent + 1⟩
  else
    ⟨none, some (.plain ("max retries exceeded: " ++ lastErr.getD "%!w(<nil>)")), sent⟩
termination_by (maxRetries + 1 - attempt).toNat
decreasing_by all_goals omega

/-- The retry loop of `Transcribe` (audio.go 136-174), with the parameters of
`uploadFileRetryLoop`. -/
def transcribeRetryLoop (maxRetries : Int) (clientDo : Nat → Except String (Response H))
    (unmarshal : Bytes → Except String α) (attempt : Nat) (lastErr : Option String)
    (sent : Nat) : CallResult α H :=
  if _h : (attempt : Int) ≤ maxRetries then
    match clientDo sent with
    | .error err =>
      if (attempt : Int) < maxRetries then
        transcribeRetryLoop maxRetries clientDo unmarshal (attempt + 1) (some err) (sent + 1)
      else ⟨none, some (.connection err), sent + 1⟩
    | .ok resp =>
      if retryStatusCodes resp.StatusCode && decide ((attempt : Int) < maxRetries) then
        transcribeRetryLoop maxRetries clientDo unmarshal (attempt + 1)
          (some ("received retry status code: " ++ toString resp.StatusCode)) (sent + 1)
      else
        match resp.Body with
        | .error err =>
          ⟨none, some (.plain ("failed to read response body: " ++ err)), sent + 1⟩
        | .ok respBody =>
          if resp.StatusCode ≥ 400 then
            ⟨none, some (.api respBody resp.StatusCode resp.Header), sent + 1⟩
          else
            match unmarshal respBody with
            | .error err =>
              ⟨none, some (.plain ("failed to unmarshal response: " ++ err)), sent + 1⟩
            | .ok result => ⟨some result, none, sent + 1⟩
  else
    ⟨none, some (.plain ("max retries exceeded: " ++ lastErr.getD "%!w(<nil>)")), sent⟩
termination_by (maxRetries + 1 - attempt).toNat
decreasing_by all_goals omega

/-- The retry loop of `UploadFile` as the function enters it: `attempt := 0`,
`lastErr` nil, no request sent. -/
def uploadFileRetry (maxRetries : Int) (clientDo : Nat → Except String (Response H))
    (unmarshal : Bytes → Except String α) : CallResult α H :=
  uploadFileRetryLoop maxRetries clientDo unmarshal 0 none 0

/-- The retry loop of `Transcribe` as the function enters it. -/
def transcribeRetry (maxRetries : Int) (clientDo : Nat → Except String (Response H))
    (unmarshal : Bytes → Except String α) : CallResult α H :=
  transcribeRetryLoop maxRetries clientDo unmarshal 0 none 0

end Retry

/-! ## Sample inputs -/

/-- Go `[]byte(s)`: the UTF-8 encoding of a string literal. -/
def utf8 (s : String) : Bytes := (s.data.map String.utf8EncodeChar).foldr (· ++ ·) []

/-- A decoder on which the loops are evaluated on explicit bodies: it stands
for `json.Unmarshal` into a struct with the single field `A int` tagged
`json:"a"` on the payloads `{"a":d}`, `d` one decimal digit, which it decodes
to `d`; it rejects every other payload, as `json.Unmarshal` rejects
`{malformed`. -/
def sampleUnmarshal (p : Bytes) : Except String Nat :=
  match p with
  | [b0, b1, b2, b3, b4, d, b6] =>
    if [b0, b1, b2, b3, b4, b6] = [123, 34, 97, 34, 58, 125] ∧ 48 ≤ d ∧ d ≤ 57 then
      .ok (d.toNat - 48)
    else .error "invalid character"
  | _ => .error "invalid character"

/-- The lines of the spec's streaming example, without their `\n`. -/
def sampleLines : List Bytes :=
  [utf8 "data: \x7b\"a\":1\x7d", [], utf8 "data: \x7b\"a\":2\x7d", utf8 "data: [DONE]"]

/-- The body of the spec's streaming example. -/
def sampleBody : Bytes := utf8 "data: \x7b\"a\":1\x7d\n\ndata: \x7b\"a\":2\x7d\ndata: [DONE]\n"

/-- A body whose first `data: ` line is malformed and whose second is valid. -/
def malformedBody : Bytes := utf8 "data: \x7bmalformed\ndata: \x7b\"a\":2\x7d\n"

/-- The transport of the retry test: status 429 for the first two requests,
then status 200 with the body `{"a":7}`. -/
def sampleTransport (n : Nat) : Except String (Response Unit) :=
  if n < 2 then .ok ⟨429, (), .ok []⟩ else .ok ⟨200, (), .ok (utf8 "\x7b\"a\":7\x7d")⟩

/-- The answers of a server that is busy: to the first request status 503
without a body, to every later one status 503 with the body `busy`. -/
def busyAfterRetry (n : Nat) : Except String (Response Unit) :=
  if n = 0 then .ok ⟨503, (), .ok []⟩ else .ok ⟨503, (), .ok (utf8 "busy")⟩

/-! ## The single-attempt endpoints -/

section SingleAttempt

variable {α H : Type}

/-- A request outcome after which the retry loops go on while attempts remain:
a transport error, or a response whose status is in `retryStatusCodes`. -/
def isTransient (outcome : Except String (Response H)) : Bool :=
  match outcome with
  | .error _ => true
  | .ok resp => retryStatusCodes resp.StatusCode

/-- The send part of `UploadDocument` (documents.go 112-137): one
`client.Do(req)`, no loop; `clientDo` and the result are as in
`uploadFileRetryLoop`. -/
def uploadDocumentSend (clientDo : Nat → Except String (Response H))
    (unmarshal : Bytes → Except String α) : CallResult α H :=
  match clientDo 0 with
  | .error err => ⟨none, some (.connection err), 1⟩
  | .ok resp =>
    match resp.Body with
    | .error err => ⟨none, some (.plain ("failed to read response body: " ++ err)), 1⟩
    | .ok respBody =>
      if resp.StatusCode ≥ 400 then ⟨none, some (.api respBody resp.StatusCode resp.Header), 1⟩
      else
        match unmarshal respBody with
        | .error err => ⟨none, some (.plain ("failed to unmarshal response: " ++ err)), 1⟩
        | .ok result => ⟨some result, none, 1⟩

/-- A completed HTTP exchange as `DownloadFile` sees it: `io.ReadAll(resp.Body)`
returns `Data`, the bytes read, together with `ReadErr` (`none` is nil);
`DownloadFile` uses the bytes of a failed read. -/
structure RawResponse (H : Type) where
  StatusCode : Int
  Header : H
  Data : Bytes
  ReadErr : Option String

/-- The response as the upload loops see it: they drop the bytes of a failed
read. -/
def RawResponse.toResponse (resp : RawResponse H) : Response H :=
  { StatusCode := resp.StatusCode
    Header := resp.Header
    Body := match resp.ReadErr with
      | none => .ok resp.Data
      | some err => .error err }

/-- The send part of `DownloadFile` (files.go 302-319): one `client.Do(req)`; for
a status of 400 or more the error of `io.ReadAll` is discarded. -/
def downloadFileSend (clientDo : Nat → Except String (RawResponse H)) : CallResult Bytes H :=
  match clientDo 0 with
  | .error err => ⟨none, some (.connection err), 1⟩
  | .ok resp =>
    if resp.StatusCode ≥ 400 then
      ⟨none, some (.api resp.Data resp.StatusCode resp.Header), 1⟩
    else
      match resp.ReadErr with
      | some err => ⟨none, some (.plain ("failed to read file content: " ++ err)), 1⟩
      | none => ⟨some resp.Data, none, 1⟩

end SingleAttempt

/-! ## Go values and request bodies -/

/-- An IEEE-754 double, by its bits. -/
structure Float64 where
  bits : UInt64

/-- A Go value as it is stored in a request body of type
`map[string]interface{}`.  `nil` is a nil interface, pointer, slice or map;
`pointer` is a non-nil pointer; `object` is a struct or a map, by field or key. -/
inductive GoValue where
  | nil
  | bool (b : Bool)
  | int (n : Int)
  | float64 (x : Float64)
  | string (s : String)
  | slice (elems : List GoValue)
  | object (fields : List (String × GoValue))
  | pointer (target : GoValue)

/-- A Go `map[string]interface{}`, as its entries in the order they were set. -/
abbrev GoMap := List (String × GoValue)

/-- The assignment `m[key] = v`. -/
def GoMap.set (m : GoMap) (key : String) (v : GoValue) : GoMap :=
  if m.any (fun kv => kv.1 == key) then
    m.map (fun kv => if kv.1 == key then (key, v) else kv)
  else m ++ [(key, v)]

/-- The lookup `m[key]`; `none` when the key is absent. -/
def GoMap.get? : GoMap → String → Option GoValue
  | [], _ => none
  | (k, v) :: m, key => if k == key then some v else GoMap.get? m key

/-- The statement `if p != nil { m[key] = *p }`, `f` turning the pointee into a
value. -/
def GoMap.setDeref {α : Type} (m : GoMap) (key : String) (f : α → GoValue) (p : Option α) :
    GoMap :=
  match p with
  | some a => m.set key (f a)
  | none => m

/-- The statement `if p != nil { m[key] = p }`: the pointer itself is stored. -/
def GoMap.setPointer {α : Type} (m : GoMap) (key : String) (f : α → GoValue) (p : Option α) :
    GoMap :=
  match p with
  | some a => m.set key (.pointer (f a))
  | none => m

/-- The statement `if cond { m[key] = v }`. -/
def GoMap.setIf (m : GoMap) (cond : Bool) (key : String) (v : GoValue) : GoMap :=
  if cond then m.set key v else m

/-- A pointer as a value: nil, or a pointer to the pointee. -/
def pointerValue {α : Type} (f : α → GoValue) (p : Option α) : GoValue :=
  match p with
  | none => .nil
  | some a => .pointer (f a)

/-- A slice as a value; `none` is the nil slice. -/
def sliceValue {α : Type} (f : α → GoValue) (s : Option (List α)) : GoValue :=
  match s with
  | none => .nil
  | some xs => .slice (xs.map f)

/-- A map as a value; `none` is the nil map. -/
def mapValue (m : Option GoMap) : GoValue :=
  match m with
  | none => .nil
  | some fields => .object fields

/-- Go `len(s)` of a slice, `0` for the nil slice. -/
def sliceLen {α : Type} (s : Option (List α)) : Nat :=
  match s with
  | none => 0
  | some xs => xs.length

/-- The struct `ChatMessage` (types.go 101-107). -/
structure ChatMessage where
  Role : String
  Content : String
  ToolCalls : Option (List GoValue)
  ToolCallID : String
  Name : String

/-- A `ChatMessage` as a value stored in a request body. -/
def ChatMessage.toValue (m : ChatMessage) : GoValue :=
  .object [("Role", .string m.Role), ("Content", .string m.Content),
    ("ToolCalls", sliceValue id m.ToolCalls), ("ToolCallID", .string m.ToolCallID),
    ("Name", .string m.Name)]

/-! ## The dispatch routine and the resource operations -/

/-- The arguments of a call `c.request(method, data, path, stream, nil)`; the
fifth argument is nil at every call site of the operations below. -/
structure RequestDescriptor where
  method : String
  data : Option GoMap
  path : String
  stream : Bool

/-- The dynamic type of what `c.request` returns: a generic object map, a
response body to stream from (an `io.ReadCloser`), or a value of another type;
`typeName` is the name `%T` prints for the value. -/
inductive DispatchValue (M : Type) where
  | object (m : M)
  | body (typeName : String) (r : Reader)
  | other (typeName : String)

/-- How a call of an operation ends: it returns `(result, err)`, or the
goroutine panics. -/
inductive Outcome (T H : Type) where
  | returned (result : Option T) (err : Option (CallError H))
  | panicked (message : String)

/-- A run of an operation: how it ends, and the calls it made to the dispatch
routine, in order. -/
structure OpRun (T H : Type) where
  outcome : Outcome T H
  dispatched : List RequestDescriptor

/-- The text of the run-time panic of a nil pointer dereference. -/
def nilDereference : String := "runtime error: invalid memory address or nil pointer dereference"

section Operations

variable {M T H : Type}

/-- The helper `mapToStruct` (chat.go 301-307): `json.Marshal` of the map, then
`json.Unmarshal` into a zero value of the target struct; both are parameters. -/
def mapToStruct (marshal : M → Except String Bytes) (unmarshal : Bytes → Except String T)
    (m : M) : Except String T :=
  match marshal m with
  | .error err => .error err
  | .ok jsonData => unmarshal jsonData

/-- The part every non-streaming operation ends with: the call of `c.request`
with descriptor `d`, the type assertion to a map, and `mapToStruct`.
Modelled from the spec: the dispatch routine `c.request` is declared in a file
of the package that is not among the sources; it is the parameter `request`,
which yields a decoded value or a live body, or fails with a call error. -/
def dispatchAndProject (request : RequestDescriptor → Except (CallError H) (DispatchValue M))
    (marshal : M → Except String Bytes) (unmarshal : Bytes → Except String T)
    (d : RequestDescriptor) : OpRun T H :=
  match request d with
  | .error err => ⟨.returned none (some err), [d]⟩
  | .ok response =>
    match response with
    | .object respData =>
      match mapToStruct marshal unmarshal respData with
      | .error err => ⟨.returned none (some (.plain err)), [d]⟩
      | .ok value => ⟨.returned (some value) none, [d]⟩
    | .body typeName _ =>
      ⟨.returned none (some (.plain ("invalid response type: " ++ typeName))), [d]⟩
    | .other typeName =>
      ⟨.returned none (some (.plain ("invalid response type: " ++ typeName))), [d]⟩

/-- The struct `FIMRequestParams` (fim.go 13-24). -/
structure FIMRequestParams where
  Model : String
  Prompt : String
  Suffix : Option String
  MaxTokens : Option Int
  Temperature : Option Float64
  TopP : Option Float64
  MinTokens : Option Int
  RandomSeed : Option Int
  Stop : Option (List String)
  Stream : Option Bool

/-- The request body built by `FIM` and `FIMStream` (fim.go 70-97, 133-160) from
the params and the value of the `stream` key. -/
def fimRequestData (params : FIMRequestParams) (stream : Bool) : GoMap :=
  let requestData : GoMap :=
    [("model", .string params.Model), ("prompt", .string params.Prompt),
      ("stream", .bool stream)]
  let requestData := requestData.setDeref "suffix" .string params.Suffix
  let requestData := requestData.setDeref "max_tokens" .int params.MaxTokens
  let requestData := requestData.setDeref "temperature" .float64 params.Temperature
  let requestData := requestData.setDeref "top_p" .float64 params.TopP
  let requestData := requestData.setDeref "min_tokens" .int params.MinTokens
  let requestData := requestData.setDeref "random_seed" .int params.RandomSeed
  requestData.setIf (decide (sliceLen params.Stop > 0)) "stop" (sliceValue .string params.Stop)

/-- The operation `FIM` (fim.go 61-116); `params` is the pointer argument,
`none` for nil.  The second component is the struct `params` points to when the
call ends. -/
def FIM (request : RequestDescriptor → Except (CallError H) (DispatchValue M))
    (marshal : M → Except String Bytes) (unmarshal : Bytes → Except String T)
    (params : Option FIMRequestParams) : OpRun T H × Option FIMRequestParams :=
  match params with
  | none => (⟨.returned none (some (.plain "params cannot be nil")), []⟩, none)
  | some p =>
    let p := { p with Stream := some false }
    (dispatchAndProject request marshal unmarshal
      ⟨"POST", some (fimRequestData p false), "v1/fim/completions", false⟩, some p)

/-- The operation `FIMStream` (fim.go 124-216).  The result is the channel, given
by what the goroutine started at line 178 does with the response body;
`unmarshalChunk` is `json.Unmarshal` into the chunk schema. -/
def FIMStream {α : Type} [Inhabited α]
    (request : RequestDescriptor → Except (CallError H) (DispatchValue M))
    (unmarshalChunk : Bytes → Except String α) (params : Option FIMRequestParams) :
    OpRun (List (Event α)) H × Option FIMRequestParams :=
  match params with
  | none => (⟨.returned none (some (.plain "params cannot be nil")), []⟩, none)
  | some p =>
    let p := { p with Stream := some true }
    let d : RequestDescriptor :=
      ⟨"POST", some (fimRequestData p true), "v1/fim/completions", true⟩
    match request d with
    | .error err => (⟨.returned none (some err), [d]⟩, some p)
    | .ok response =>
      match response with
      | .body _ respBody =>
        (⟨.returned (some (fimStreamGoroutine unmarshalChunk respBody)) none, [d]⟩, some p)
      | .object _ =>
        (⟨.returned none (some (.plain "invalid response type: map[string]interface {}")),
          [d]⟩, some p)
      | .other typeName =>
        (⟨.returned none (some (.plain ("invalid response type: " ++ typeName))), [d]⟩, some p)

/-- The struct `CreateLibraryRequest` (libraries.go 25-28). -/
structure CreateLibraryRequest where
  Name : String
  Description : Option String

/-- The operation `CreateLibrary` (libraries.go 65-93). -/
def CreateLibrary (request : RequestDescriptor → Except (CallError H) (DispatchValue M))
    (marshal : M → Except String Bytes) (unmarshal : Bytes → Except String T)
    (req : Option CreateLibraryRequest) : OpRun T H :=
  match req with
  | none => ⟨.returned none (some (.plain "request cannot be nil")), []⟩
  | some req =>
    let reqMap : GoMap := [("name", .string req.Name)]
    let reqMap := reqMap.setDeref "description" .string req.Description
    dispatchAndProject request marshal unmarshal ⟨"POST", some reqMap, "v1/libraries", false⟩

/-- The struct `UpdateLibraryRequest` (libraries.go 31-34). -/
structure UpdateLibraryRequest where
  Name : Option String
  Description : Option String

/-- The operation `UpdateLibrary` (libraries.go 119-148). -/
def UpdateLibrary (request : RequestDescriptor → Except (CallError H) (DispatchValue M))
    (marshal : M → Except String Bytes) (unmarshal : Bytes → Except String T)
    (libraryID : String) (req : Option UpdateLibraryRequest) : OpRun T H :=
  match req with
  | none => ⟨.returned none (some (.plain "request cannot be nil")), []⟩
  | some req =>
    let reqMap : GoMap := []
    let reqMap := reqMap.setDeref "name" .string req.Name
    let reqMap := reqMap.setDeref "description" .string req.Description
    dispatchAndProject request marshal unmarshal
      ⟨"PATCH", some reqMap, "v1/libraries/" ++ libraryID, false⟩

/-- The struct `UpdateDocumentRequest` (documents.go 41-44). -/
structure UpdateDocumentRequest where
  Name : Option String
  Description : Option String

/-- The operation `UpdateDocument` (documents.go 162-192). -/
def UpdateDocument (request : RequestDescriptor → Except (CallError H) (DispatchValue M))
    (marshal : M → Except String Bytes) (unmarshal : Bytes → Except String T)
    (libraryID documentID : String) (req : Option UpdateDocumentRequest) : OpRun T H :=
  match req with
  | none => ⟨.returned none (some (.plain "request cannot be nil")), []⟩
  | some req =>
    let reqMap : GoMap := []
    let reqMap := reqMap.setDeref "name" .string req.Name
    let reqMap := reqMap.setDeref "description" .string req.Description
    dispatchAndProject request marshal unmarshal
      ⟨"PATCH", some reqMap, "v1/libraries/" ++ libraryID ++ "/documents/" ++ documentID, false⟩

/-- The struct `UpdateModelRequest` (models.go 147-150). -/
structure UpdateModelRequest where
  Name : Option String
  Description : Option String

/-- The operation `UpdateModel` (models.go 159-189); the map holds the pointers
`req.Name` and `req.Description` themselves. -/
def UpdateModel (request : RequestDescriptor → Except (CallError H) (DispatchValue M))
    (marshal : M → Except String Bytes) (unmarshal : Bytes → Except String T)
    (modelID : String) (req : Option UpdateModelRequest) : OpRun T H :=
  match req with
  | none => ⟨.returned none (some (.plain "update request cannot be nil")), []⟩
  | some req =>
    let reqMap : GoMap := []
    let reqMap := reqMap.setPointer "name" .string req.Name
    let reqMap := reqMap.setPointer "description" .string req.Description
    dispatchAndProject request marshal unmarshal
      ⟨"PATCH", some reqMap, "v1/fine_tuning/models/" ++ modelID, false⟩

/-- The struct `ConversationStartRequest` (conversations.go 15-22); the inputs
and the tools are given as values. -/
structure ConversationStartRequest where
  Inputs : Option (List GoValue)
  Instructions : Option String
  Tools : Option (List GoValue)
  CompletionArgs : Option GoMap
  Name : Option String
  Description : Option String

/-- The operation `StartConversation` (conversations.go 60-102). -/
def StartConversation (request : RequestDescriptor → Except (CallError H) (DispatchValue M))
    (marshal : M → Except String Bytes) (unmarshal : Bytes → Except String T)
    (req : Option ConversationStartRequest) : OpRun T H :=
  match req with
  | none => ⟨.returned none (some (.plain "request cannot be nil")), []⟩
  | some req =>
    let reqMap : GoMap := [("inputs", sliceValue id req.Inputs)]
    let reqMap := reqMap.setDeref "instructions" .string req.Instructions
    let reqMap := reqMap.setIf (decide (sliceLen req.Tools > 0)) "tools" (sliceValue id req.Tools)
    let reqMap := reqMap.setIf req.CompletionArgs.isSome "completion_args"
      (mapValue req.CompletionArgs)
    let reqMap := reqMap.setDeref "name" .string req.Name
    let reqMap := reqMap.setDeref "description" .string req.Description
    dispatchAndProject request marshal unmarshal
      ⟨"POST", some reqMap, "v1/conversations", false⟩

/-- The struct `CreateMistralAgentRequest` (mistral_agents.go 23-30). -/
structure CreateMistralAgentRequest where
  Model : String
  Name : Option String
  Description : Option String
  Instructions : Option String
  Tools : Option (List GoValue)
  Metadata : Option GoMap

/-- The operation `CreateMistralAgent` (mistral_agents.go 50-92). -/
def CreateMistralAgent (request : RequestDescriptor → Except (CallError H) (DispatchValue M))
    (marshal : M → Except String Bytes) (unmarshal : Bytes → Except String T)
    (req : Option CreateMistralAgentRequest) : OpRun T H :=
  match req with
  | none => ⟨.returned none (some (.plain "request cannot be nil")), []⟩
  | some req =>
    let reqMap : GoMap := [("model", .string req.Model)]
    let reqMap := reqMap.setDeref "name" .string req.Name
    let reqMap := reqMap.setDeref "description" .string req.Description
    let reqMap := reqMap.setDeref "instructions" .string req.Instructions
    let reqMap := reqMap.setIf (decide (sliceLen req.Tools > 0)) "tools" (sliceValue id req.Tools)
    let reqMap := reqMap.setIf req.Metadata.isSome "metadata" (mapValue req.Metadata)
    dispatchAndProject request marshal unmarshal ⟨"POST", some reqMap, "v1/agents", false⟩

/-- The struct `UpdateMistralAgentRequest` (mistral_agents.go 33-40). -/
structure UpdateMistralAgentRequest where
  Model : Option String
  Name : Option String
  Description : Option String
  Instructions : Option String
  Tools : Option (List GoValue)
  Metadata : Option GoMap

/-- The operation `UpdateMistralAgent` (mistral_agents.go 139-181). -/
def UpdateMistralAgent (request : RequestDescriptor → Except (CallError H) (DispatchValue M))
    (marshal : M → Except String Bytes) (unmarshal : Bytes → Except String T)
    (agentID : String) (req : Option UpdateMistralAgentRequest) : OpRun T H :=
  match req with
  | none => ⟨.returned none (some (.plain "request cannot be nil")), []⟩
  | some req =>
    let reqMap : GoMap := []
    let reqMap := reqMap.setDeref "model" .string req.Model
    let reqMap := reqMap.setDeref "name" .string req.Name
    let reqMap := reqMap.setDeref "description" .string req.Description
    let reqMap := reqMap.setDeref "instructions" .string req.Instructions
    let reqMap := reqMap.setIf (decide (sliceLen req.Tools > 0)) "tools" (sliceValue id req.Tools)
    let reqMap := reqMap.setIf req.Metadata.isSome "metadata" (mapValue req.Metadata)
    dispatchAndProject request marshal unmarshal
      ⟨"PATCH", some reqMap, "v1/agents/" ++ agentID, false⟩

/-- The struct `UpdateAccessRequest` (accesses.go 21-24). -/
structure UpdateAccessRequest where
  UserID : String
  Permissions : Option (List String)

/-- The operation `UpdateOrCreateLibraryAccess` (accesses.go 54-80). -/
def UpdateOrCreateLibraryAccess
    (request : RequestDescriptor → Except (CallError H) (DispatchValue M))
    (marshal : M → Except String Bytes) (unmarshal : Bytes → Except String T)
    (libraryID : String) (req : Option UpdateAccessRequest) : OpRun T H :=
  match req with
  | none => ⟨.returned none (some (.plain "request cannot be nil")), []⟩
  | some req =>
    let reqMap : GoMap :=
      [("user_id", .string req.UserID), ("permissions", sliceValue .string req.Permissions)]
    dispatchAndProject request marshal unmarshal
      ⟨"PUT", some reqMap, "v1/libraries/" ++ libraryID ++ "/accesses", false⟩

/-- The struct `CreateBatchJobRequest` (batch.go 65-71). -/
structure CreateBatchJobRequest where
  InputFiles : Option (List String)
  Endpoint : String
  Model : Option String
  Metadata : Option GoMap
  TimeoutHours : Option Int

/-- The operation `CreateBatchJob` (batch.go 84-104).  The arguments of
`c.request` are evaluated before the call: with a nil `req` the first field
access `req.InputFiles` panics. -/
def CreateBatchJob (request : RequestDescriptor → Except (CallError H) (DispatchValue M))
    (marshal : M → Except String Bytes) (unmarshal : Bytes → Except String T)
    (req : Option CreateBatchJobRequest) : OpRun T H :=
  match req with
  | none => ⟨.panicked nilDereference, []⟩
  | some req =>
    dispatchAndProject request marshal unmarshal
      ⟨"POST", some
        [("input_files", sliceValue .string req.InputFiles),
          ("endpoint", .string req.Endpoint),
          ("model", pointerValue .string req.Model),
          ("metadata", mapValue req.Metadata),
          ("timeout_hours", pointerValue .int req.TimeoutHours)],
        "v1/batch/jobs", false⟩

/-- The struct `CreateFineTuningJobRequest` (finetuning.go 94-104); the training
files, the hyperparameters and the integrations are given as values. -/
structure CreateFineTuningJobRequest where
  Model : String
  TrainingFiles : Option (List GoValue)
  ValidationFiles : Option (List String)
  Hyperparameters : GoValue
  Suffix : Option String
  Integrations : Option (List GoValue)
  AutoStart : Option Bool
  InvalidSampleSkipPercentage : Option Float64
  JobType : Option String

/-- The operation `CreateFineTuningJob` (finetuning.go 121-145); with a nil `req`
the first field access `req.Model` panics. -/
def CreateFineTuningJob (request : RequestDescriptor → Except (CallError H) (DispatchValue M))
    (marshal : M → Except String Bytes) (unmarshal : Bytes → Except String T)
    (req : Option CreateFineTuningJobRequest) : OpRun T H :=
  match req with
  | none => ⟨.panicked nilDereference, []⟩
  | some req =>
    dispatchAndProject request marshal unmarshal
      ⟨"POST", some
        [("model", .string req.Model),
          ("training_files", sliceValue id req.TrainingFiles),
          ("validation_files", sliceValue .string req.ValidationFiles),
          ("hyperparameters", req.Hyperparameters),
          ("suffix", pointerValue .string req.Suffix),
          ("integrations", sliceValue id req.Integrations),
          ("auto_start", pointerValue .bool req.AutoStart),
          ("invalid_sample_skip_percentage",
            pointerValue .float64 req.InvalidSampleSkipPercentage),
          ("job_type", pointerValue .string req.JobType)],
        "v1/fine_tuning/jobs", false⟩

/-- The struct `AgentCompletionRequest` (agents.go 13-29).  `Stop` and
`ToolChoice` have the type `interface{}`; `ResponseFormat` points to a
`ResponseFormatSpec`, given by its field `Type`; the tools and the prediction
are given as values. -/
structure AgentCompletionRequest where
  AgentID : String
  Messages : Option (List ChatMessage)
  MaxTokens : Option Int
  Stream : Option Bool
  Stop : GoValue
  RandomSeed : Option Int
  ResponseFormat : Option String
  Tools : Option (List GoValue)
  ToolChoice : GoValue
  PresencePenalty : Option Float64
  FrequencyPenalty : Option Float64
  N : Option Int
  Prediction : Option GoValue
  ParallelToolCalls : Option Bool
  PromptMode : Option String

/-- The zero value `AgentCompletionRequest{}`. -/
def AgentCompletionRequest.zero : AgentCompletionRequest :=
  { AgentID := "", Messages := none, MaxTokens := none, Stream := none, Stop := .nil,
    RandomSeed := none, ResponseFormat := none, Tools := none, ToolChoice := .nil,
    PresencePenalty := none, FrequencyPenalty := none, N := none, Prediction := none,
    ParallelToolCalls := none, PromptMode := none }

/-- A value of type `interface{}` is not nil. -/
def GoValue.notNil (v : GoValue) : Bool :=
  match v with
  | .nil => false
  | _ => true

/-- The request body built by `AgentComplete` and `AgentCompleteStream`
(agents.go 58-100, 143-185) from the params, after the required fields and
`Stream` have been set; the optional parameters are stored as the pointers
they are. -/
def agentRequestMap (params : AgentCompletionRequest) : GoMap :=
  let reqMap : GoMap :=
    [("agent_id", .string params.AgentID),
      ("messages", sliceValue ChatMessage.toValue params.Messages),
      ("stream", pointerValue .bool params.Stream)]
  let reqMap := reqMap.setPointer "max_tokens" .int params.MaxTokens
  let reqMap := reqMap.setIf params.Stop.notNil "stop" params.Stop
  let reqMap := reqMap.setPointer "random_seed" .int params.RandomSeed
  let reqMap := reqMap.setPointer "response_format"
    (fun t => .object [("Type", .string t)]) params.ResponseFormat
  let reqMap := reqMap.setIf (decide (sliceLen params.Tools > 0)) "tools"
    (sliceValue id params.Tools)
  let reqMap := reqMap.setIf params.ToolChoice.notNil "tool_choice" params.ToolChoice
  let reqMap := reqMap.setPointer "presence_penalty" .float64 params.PresencePenalty
  let reqMap := reqMap.setPointer "frequency_penalty" .float64 params.FrequencyPenalty
  let reqMap := reqMap.setPointer "n" .int params.N
  let reqMap := reqMap.setPointer "prediction" id params.Prediction
  let reqMap := reqMap.setPointer "parallel_tool_calls" .bool params.ParallelToolCalls
  reqMap.setPointer "prompt_mode" .string params.PromptMode

/-- The operation `AgentComplete` (agents.go 44-119).  A nil `params` is
replaced by a fresh zero struct; the second component is the struct the
caller's pointer points to when the call ends (`none` for a nil pointer). -/
def AgentComplete (request : RequestDescriptor → Except (CallError H) (DispatchValue M))
    (marshal : M → Except String Bytes) (unmarshal : Bytes → Except String T)
    (agentID : String) (messages : Option (List ChatMessage))
    (params : Option AgentCompletionRequest) : OpRun T H × Option AgentCompletionRequest :=
  let p := match params with
    | none => AgentCompletionRequest.zero
    | some p => p
  let p := { p with AgentID := agentID, Messages := messages, Stream := some false }
  (dispatchAndProject request marshal unmarshal
    ⟨"POST", some (agentRequestMap p), "v1/agents/completions", false⟩,
    params.map (fun _ => p))

/-- The struct `ChatRequestParams` (chat.go 13-45); the tools and the prediction
are given as values. -/
structure ChatRequestParams where
  Temperature : Option Float64
  TopP : Option Float64
  RandomSeed : Option Int
  MaxTokens : Option Int
  MinTokens : Option Int
  Stop : Option (List String)
  ResponseFormat : String
  Tools : Option (List GoValue)
  ToolChoice : String
  ParallelToolCalls : Option Bool
  PresencePenalty : Option Float64
  FrequencyPenalty : Option Float64
  N : Option Int
  Prediction : Option GoValue
  PromptMode : Option String
  SafePrompt : Option Bool

/-- The constructor `NewChatRequestParams` (chat.go 48-50): the zero struct. -/
def NewChatRequestParams : ChatRequestParams :=
  { Temperature := none, TopP := none, RandomSeed := none, MaxTokens := none,
    MinTokens := none, Stop := none, ResponseFormat := "", Tools := none, ToolChoice := "",
    ParallelToolCalls := none, PresencePenalty := none, FrequencyPenalty := none, N := none,
    Prediction := none, PromptMode := none, SafePrompt := none }

/-- The optional parameters `Chat` and `ChatStream` add to the request body,
"only if set" (chat.go 104-152, 187-235). -/
def chatOptionalParams (requestData : GoMap) (params : ChatRequestParams) : GoMap :=
  let requestData := requestData.setDeref "temperature" .float64 params.Temperature
  let requestData := requestData.setDeref "top_p" .float64 params.TopP
  let requestData := requestData.setDeref "random_seed" .int params.RandomSeed
  let requestData := requestData.setDeref "max_tokens" .int params.MaxTokens
  let requestData := requestData.setDeref "min_tokens" .int params.MinTokens
  let requestData := requestData.setIf params.Stop.isSome "stop" (sliceValue .string params.Stop)
  let requestData := requestData.setDeref "safe_prompt" .bool params.SafePrompt
  let requestData := requestData.setDeref "presence_penalty" .float64 params.PresencePenalty
  let requestData := requestData.setDeref "frequency_penalty" .float64 params.FrequencyPenalty
  let requestData := requestData.setDeref "n" .int params.N
  let requestData := requestData.setPointer "prediction" id params.Prediction
  let requestData := requestData.setDeref "prompt_mode" .string params.PromptMode
  let requestData := requestData.setDeref "parallel_tool_calls" .bool params.ParallelToolCalls
  let requestData := requestData.setIf params.Tools.isSome "tools" (sliceValue id params.Tools)
  let requestData := requestData.setIf (params.ToolChoice != "") "tool_choice"
    (.string params.ToolChoice)
  requestData.setIf (params.ResponseFormat != "") "response_format"
    (.object [("type", .string params.ResponseFormat)])

/-- The operation `Chat` (chat.go 94-171). -/
def Chat (request : RequestDescriptor → Except (CallError H) (DispatchValue M))
    (marshal : M → Except String Bytes) (unmarshal : Bytes → Except String T)
    (model : String) (messages : Option (List ChatMessage)) (params : Option ChatRequestParams) :
    OpRun T H :=
  let params := match params with
    | none => NewChatRequestParams
    | some p => p
  let requestData : GoMap :=
    [("model", .string model), ("messages", sliceValue ChatMessage.toValue messages)]
  let requestData := chatOptionalParams requestData params
  dispatchAndProject request marshal unmarshal
    ⟨"POST", some requestData, "v1/chat/completions", false⟩

end Operations

/-- The descriptor `AgentComplete` hands to the dispatch routine when it is
called with nil messages and nil params: the three required keys, `messages`
holding the nil slice and `stream` a pointer to `false`. -/
def agentCompleteNilDescriptor (agentID : String) : RequestDescriptor :=
  ⟨"POST", some [("agent_id", .string agentID), ("messages", .nil),
    ("stream", .pointer (.bool false))], "v1/agents/completions", false⟩

/-! ## Sample dispatch -/

/-- A dispatch routine that answers every request with an object; the object
is given by its JSON text `{"a":7}`, so that `Except.ok` serves as
`json.Marshal`. -/
def sampleDispatch (_d : RequestDescriptor) : Except (CallError Unit) (DispatchValue Bytes) :=
  .ok (.object (utf8 "\x7b\"a\":7\x7d"))

/-- The params of a FIM call with an empty `Model`. -/
def sampleFIMParams : FIMRequestParams :=
  { Model := "", Prompt := "def add(a, b):", Suffix := none, MaxTokens := none,
    Temperature := none, TopP := none, MinTokens := none, RandomSeed := none, Stop := none,
    Stream := none }

/-! ## The streaming operations -/

section StreamOperations

variable {M H α : Type} [Inhabited α]

/-- The operation `ChatStream` (chat.go 174-298).  The result is the channel,
given by what the goroutine started at line 248 does with the response body;
`unmarshalChunk` is `json.Unmarshal` into `ChatCompletionStreamResponse`. -/
def ChatStream (request : RequestDescriptor → Except (CallError H) (DispatchValue M))
    (unmarshalChunk : Bytes → Except String α) (model : String)
    (messages : Option (List ChatMessage)) (params : Option ChatRequestParams) :
    OpRun (List (Event α)) H :=
  let params := match params with
    | none => NewChatRequestParams
    | some p => p
  let requestData : GoMap :=
    [("model", .string model), ("messages", sliceValue ChatMessage.toValue messages),
      ("stream", .bool true)]
  let requestData := chatOptionalParams requestData params
  let d : RequestDescriptor := ⟨"POST", some requestData, "v1/chat/completions", true⟩
  match request d with
  | .error err => ⟨.returned none (some err), [d]⟩
  | .ok response =>
    match response with
    | .body _ respBody =>
      ⟨.returned (some (chatStreamGoroutine unmarshalChunk respBody)) none, [d]⟩
    | .object _ =>
      ⟨.returned none (some (.plain "invalid response type: map[string]interface {}")), [d]⟩
    | .other typeName =>
      ⟨.returned none (some (.plain ("invalid response type: " ++ typeName))), [d]⟩

/-- The operation `AgentCompleteStream` (agents.go 129-241); the second
component is the struct the caller's pointer points to when the call ends
(`none` for a nil pointer). -/
def AgentCompleteStream (request : RequestDescriptor → Except (CallError H) (DispatchValue M))
    (unmarshalChunk : Bytes → Except String α) (agentID : String)
    (messages : Option (List ChatMessage)) (params : Option AgentCompletionRequest) :
    OpRun (List (Event α)) H × Option AgentCompletionRequest :=
  let p := match params with
    | none => AgentCompletionRequest.zero
    | some p => p
  let p := { p with AgentID := agentID, Messages := messages, Stream := some true }
  let d : RequestDescriptor :=
    ⟨"POST", some (agentRequestMap p), "v1/agents/completions", true⟩
  let run : OpRun (List (Event α)) H :=
    match request d with
    | .error err => ⟨.returned none (some err), [d]⟩
    | .ok response =>
      match response with
      | .body _ respBody =>
        ⟨.returned (some (agentCompleteStreamGoroutine unmarshalChunk respBody)) none, [d]⟩
      | .object _ =>
        ⟨.returned none (some (.plain "invalid response type: map[string]interface {}")), [d]⟩
      | .other typeName =>
        ⟨.returned none (some (.plain ("invalid response type: " ++ typeName))), [d]⟩
  (run, params.map (fun _ => p))

end StreamOperations

/-- A call ends in exactly one terminal outcome: a non-nil result with a nil
error, or a nil result with a non-nil error. -/
def Outcome.exactlyOne {T H : Type} (o : Outcome T H) : Prop :=
  (∃ value, o = .returned (some value) none) ∨ (∃ err, o = .returned none (some err))

/-- The value `json.Marshal` encodes: a pointer is encoded as what it points
to. -/
def GoValue.deref : GoValue → GoValue
  | .pointer target => GoValue.deref target
  | v => v

/-- The event is `respBody.Close()`. -/
def Event.isBodyClose {α : Type} : Event α → Bool
  | .bodyClose => true
  | _ => false

/-- The event is `close` of the channel. -/
def Event.isChanClose {α : Type} : Event α → Bool
  | .chanClose => true
  | _ => false

/-- The event is a send on the channel. -/
def Event.isSend {α : Type} : Event α → Bool
  | .send _ => true
  | _ => false

/-- The trace of a decoder goroutine closes the body exactly once and the
channel exactly once, after every send: it is a run of sends followed by
`respBody.Close()` and `close` of the channel, in this order. -/
def closesExactlyOnce {α : Type} (trace : List (Event α)) : Prop :=
  (trace.filter Event.isBodyClose).length = 1
  ∧ (trace.filter Event.isChanClose).length = 1
  ∧ ∃ sends : List (Event α), (∀ e ∈ sends, e.isSend = true)
      ∧ trace = sends ++ [Event.bodyClose, Event.chanClose]

/-! ## The client constructor -/

/-- Modelled from the spec: the client configuration, "{API key, base endpoint
URL, maximum retry count, per-attempt timeout}"; the struct `MistralClient` is
declared in a file of the package that is not among the sources.  The timeout
is a `time.Duration`, a number of nanoseconds. -/
structure MistralClient where
  apiKey : String
  endpoint : String
  maxRetries : Int
  timeout : Int

/-- Go `os.Getenv`: the value of the variable, the empty string when the
variable is unset; `env` is the environment of the process. -/
def osGetenv (env : String → Option String) (key : String) : String :=
  match env key with
  | some value => value
  | none => ""

/-- Modelled from the spec: the constructor `NewMistralClient`, declared in a
file of the package that is not among the sources.  "API key resolution order =
explicit argument > environment variable > empty string"; "base endpoint
defaults per client variant; retry count and timeout default to fixed constants
when zero/unset is passed".  The constants `Endpoint`, `DefaultMaxRetries` and
`DefaultTimeout` are parameters. -/
def NewMistralClient (env : String → Option String) (Endpoint : String)
    (DefaultMaxRetries DefaultTimeout : Int) (apiKey endpoint : String)
    (maxRetries timeout : Int) : MistralClient :=
  { apiKey := if apiKey = "" then osGetenv env "MISTRAL_API_KEY" else apiKey
    endpoint := if endpoint = "" then Endpoint else endpoint
    maxRetries := if maxRetries = 0 then DefaultMaxRetries else maxRetries
    timeout := if timeout = 0 then DefaultTimeout else timeout }

/-- The environment of `TestClientAPIKeyPrecedence`: `MISTRAL_API_KEY` is set
to `env-key`, nothing else is set. -/
def sampleEnv (key : String) : Option String :=
  if key = "MISTRAL_API_KEY" then some "env-key" else none

/-- A multipart payload: one part `file` with the content `x`. -/
def samplePayload : Bytes :=
  utf8 "--b\r\nContent-Disposition: form-data; name=\"file\"; filename=\"f\"\r\n\r\nx\r\n--b--\r\n"

/-! ## The list operations -/

/-- Byte-wise lexicographic order on byte strings, the order of Go's string
comparison. -/
def bytesLE (x y : Bytes) : Bool :=
  match x, y with
  | [], _ => true
  | a :: x', b :: y' => if a < b then true else if b < a then false else bytesLE x' y'
  | _ :: _, [] => false

/-- Insertion of a key into a list of keys sorted by `bytesLE` on their
UTF-8 encodings. -/
def insertKey (key : String) : List String → List String
  | [] => [key]
  | k :: ks => if bytesLE (utf8 key) (utf8 k) then key :: k :: ks else k :: insertKey key ks

/-- Go `slices.Sort` on strings. -/
def sortKeys (keys : List String) : List String := keys.foldr insertKey []

/-- Go `url.Values`, a `map[string][]string`, as its entries in the order the
keys were first added. -/
abbrev UrlValues := List (String × List String)

/-- Go `url.Values.Add`: the value is appended to the values of the key. -/
def UrlValues.Add (v : UrlValues) (key value : String) : UrlValues :=
  if v.any (fun kv => kv.1 == key) then
    v.map (fun kv => if kv.1 == key then (kv.1, kv.2 ++ [value]) else kv)
  else v ++ [(key, [value])]

/-- The statement `if p != nil { v.Add(key, f(*p)) }`. -/
def UrlValues.addDeref {α : Type} (v : UrlValues) (key : String) (f : α → String)
    (p : Option α) : UrlValues :=
  match p with
  | some a => v.Add key (f a)
  | none => v

/-- The statement `for _, x := range s { v.Add(key, string(x)) }`; the nil slice
has no element. -/
def UrlValues.addEach (v : UrlValues) (key : String) (s : Option (List String)) : UrlValues :=
  match s with
  | some xs => xs.foldl (fun acc x => acc.Add key x) v
  | none => v

/-- The values stored under a key. -/
def UrlValues.values (v : UrlValues) (key : String) : List String :=
  match v with
  | [] => []
  | (k, vs) :: rest => if k == key then vs else UrlValues.values rest key

/-- Go `url.Values.Encode`: the pairs `key=value`, escaped with
`url.QueryEscape` (the parameter `queryEscape`), sorted by key, joined with
`&`; the empty string for no key. -/
def UrlValues.Encode (queryEscape : String → String) (v : UrlValues) : String :=
  let keys := sortKeys (v.map (fun kv => kv.1))
  let pairs := keys.map (fun k =>
    (v.values k).map (fun value => queryEscape k ++ "=" ++ queryEscape value))
  "&".intercalate (pairs.foldr (· ++ ·) [])

/-- Go `fmt.Sprintf("%t", b)`. -/
def formatBool (b : Bool) : String := if b then "true" else "false"

/-- The struct `ListFilesParams` (files.go 103-110). -/
structure ListFilesParams where
  Page : Option Int
  PageSize : Option Int
  SampleType : Option (List String)
  Source : Option (List String)
  Search : Option String
  Purpose : Option String

/-- The struct `ListBatchJobsParams` (batch.go 74-82); a time is given by its
RFC 3339 text, `Metadata` is not used by `ListBatchJobs`. -/
structure ListBatchJobsParams where
  Page : Option Int
  PageSize : Option Int
  Model : Option String
  Metadata : Option GoMap
  CreatedAfter : Option String
  CreatedByMe : Option Bool
  Status : Option (List String)

/-- The struct `ListFineTuningJobsParams` (finetuning.go 107-118); a time is
given by its RFC 3339 text. -/
structure ListFineTuningJobsParams where
  Page : Option Int
  PageSize : Option Int
  Model : Option String
  CreatedAfter : Option String
  CreatedBefore : Option String
  CreatedByMe : Option Bool
  Status : Option String
  WandbProject : Option String
  WandbName : Option String
  Suffix : Option String

section ListOperations

variable {M T H : Type}

/-- The operation `ListFiles` (files.go 199-247); `endpoint` is `c.endpoint`.
The string `urlStr` of lines 225-228 is built and not used: the path handed
to `c.request` at line 230 is `"v1/files?"` followed by the encoded query. -/
def ListFiles (request : RequestDescriptor → Except (CallError H) (DispatchValue M))
    (marshal : M → Except String Bytes) (unmarshal : Bytes → Except String T)
    (queryEscape : String → String) (endpoint : String) (params : Option ListFilesParams) :
    OpRun T H :=
  let params := match params with
    | none => (⟨none, none, none, none, none, none⟩ : ListFilesParams)
    | some p => p
  let queryParams : UrlValues := []
  let queryParams := queryParams.addDeref "page" (fun (n : Int) => toString n) params.Page
  let queryParams := queryParams.addDeref "page_size" (fun (n : Int) => toString n)
    params.PageSize
  let queryParams := queryParams.addDeref "search" id params.Search
  let queryParams := queryParams.addDeref "purpose" id params.Purpose
  let queryParams := queryParams.addEach "sample_type" params.SampleType
  let queryParams := queryParams.addEach "source" params.Source
  let urlStr := endpoint ++ "/v1/files"
  let _urlStr :=
    if queryParams.length > 0 then urlStr ++ "?" ++ queryParams.Encode queryEscape else urlStr
  dispatchAndProject request marshal unmarshal
    ⟨"GET", none, "v1/files?" ++ queryParams.Encode queryEscape, false⟩

/-- The operation `ListBatchJobs` (batch.go 111-158). -/
def ListBatchJobs (request : RequestDescriptor → Except (CallError H) (DispatchValue M))
    (marshal : M → Except String Bytes) (unmarshal : Bytes → Except String T)
    (queryEscape : String → String) (params : Option ListBatchJobsParams) : OpRun T H :=
  let params := match params with
    | none => (⟨none, none, none, none, none, none, none⟩ : ListBatchJobsParams)
    | some p => p
  let queryParams : UrlValues := []
  let queryParams := queryParams.addDeref "page" (fun (n : Int) => toString n) params.Page
  let queryParams := queryParams.addDeref "page_size" (fun (n : Int) => toString n)
    params.PageSize
  let queryParams := queryParams.addDeref "model" id params.Model
  let queryParams := queryParams.addDeref "created_after" id params.CreatedAfter
  let queryParams := queryParams.addDeref "created_by_me" formatBool params.CreatedByMe
  let queryParams := queryParams.addEach "status" params.Status
  let path := "v1/batch/jobs"
  let path :=
    if queryParams.length > 0 then path ++ "?" ++ queryParams.Encode queryEscape else path
  dispatchAndProject request marshal unmarshal ⟨"GET", none, path, false⟩

/-- The operation `ListFineTuningJobs` (finetuning.go 151-210). -/
def ListFineTuningJobs (request : RequestDescriptor → Except (CallError H) (DispatchValue M))
    (marshal : M → Except String Bytes) (unmarshal : Bytes → Except String T)
    (queryEscape : String → String) (params : Option ListFineTuningJobsParams) : OpRun T H :=
  let params := match params with
    | none =>
      (⟨none, none, none, none, none, none, none, none, none, none⟩ : ListFineTuningJobsParams)
    | some p => p
  let queryParams : UrlValues := []
  let queryParams := queryParams.addDeref "page" (fun (n : Int) => toString n) params.Page
  let queryParams := queryParams.addDeref "page_size" (fun (n : Int) => toString n)
    params.PageSize
  let queryParams := queryParams.addDeref "model" id params.Model
  let queryParams := queryParams.addDeref "created_after" id params.CreatedAfter
  let queryParams := queryParams.addDeref "created_before" id params.CreatedBefore
  let queryParams := queryParams.addDeref "created_by_me" formatBool params.CreatedByMe
  let queryParams := queryParams.addDeref "status" id params.Status
  let queryParams := queryParams.addDeref "wandb_project" id params.WandbProject
  let queryParams := queryParams.addDeref "wandb_name" id params.WandbName
  let queryParams := queryParams.addDeref "suffix" id params.Suffix
  let path := "v1/fine_tuning/jobs"
  let path :=
    if queryParams.length > 0 then path ++ "?" ++ queryParams.Encode queryEscape else path
  dispatchAndProject request marshal unmarshal ⟨"GET", none, path, false⟩

end ListOperations
/-! ## The decoder goroutines against a consumer -/

/-- How the run of a goroutine ends: it returns, its deferred calls having
run, or it is left waiting in a send that no receive meets. -/
inductive RunEnd where
  | returned
  | blockedInSend
  deriving DecidableEq, Repr

/-- The run of a decoder goroutine: what its environment observes, in order,
and how the run ends. -/
structure Run (α : Type) where
  events : List (Event α)
  ending : RunEnd
  deriving DecidableEq, Repr

section Runs

variable {α : Type} [Inhabited α]

/-- The goroutine function returns: its deferred calls run, the one deferred
last first.  `deferred` is the stack of the `defer` statements executed so far,
the latest on top. -/
def Run.exit (deferred : List (Event α)) : Run α := ⟨deferred, .returned⟩

/-- A send on the response channel with no receive to meet it.  The channel is
unbuffered (`make(chan ...)` without a capacity, chat.go 179, fim.go 163,
agents.go 188) and the send stands alone, without `select`, context or
timeout: the goroutine goes no further. -/
def Run.blocked : Run α := ⟨[], .blockedInSend⟩

/-- A send on the response channel that a receive meets, followed by the run
`rest`. -/
def Run.afterSend (chunk : StreamResponse α) (rest : Run α) : Run α :=
  ⟨Event.send chunk :: rest.events, rest.ending⟩

/-- The `for` loop of the goroutine of `ChatStream` (chat.go 258-293) run to
the end of the goroutine, against a consumer that receives `receives` more
chunks and then stops receiving.  `break` and `return` both end the function,
nothing following the loop. -/
def chatStreamRun (unmarshal : Bytes → Except String α) (deferred : List (Event α))
    (receives : Nat) (reader : Reader) : Run α :=
  match h : reader.ReadBytes 10 with
  | (_, some ReadError.EOF, _) => Run.exit deferred
  | (_, some (ReadError.other e), _) =>
    match receives with
    | 0 => Run.blocked
    | _ + 1 =>
      Run.afterSend { fields := default, Error := some ("error reading stream response: " ++ e) }
        (Run.exit deferred)
  | (line, none, reader') =>
    have : reader'.buf.length < reader.buf.length := ReadBytes_length h
    if line = [10] then chatStreamRun unmarshal deferred receives reader'
    else if bytesHasPrefix line dataPrefix then
      let jsonLine := bytesTrimSpace (bytesTrimPrefix line dataPrefix)
      if jsonLine = doneSentinel then Run.exit deferred
      else
        match unmarshal jsonLine with
        | .error e =>
          match receives with
          | 0 => Run.blocked
          | n + 1 =>
            Run.afterSend
              { fields := default, Error := some ("error decoding stream response: " ++ e) }
              (chatStreamRun unmarshal deferred n reader')
        | .ok streamResponse =>
          match receives with
          | 0 => Run.blocked
          | n + 1 =>
            Run.afterSend { fields := streamResponse, Error := none }
              (chatStreamRun unmarshal deferred n reader')
    else chatStreamRun unmarshal deferred receives reader'
termination_by reader.buf.length

/-- The `for` loop of the goroutine of `FIMStream` (fim.go 184-212) run to the
end of the goroutine, with the parameters of `chatStreamRun`. -/
def fimStreamRun (unmarshal : Bytes → Except String α) (deferred : List (Event α))
    (receives : Nat) (reader : Reader) : Run α :=
  match h : reader.ReadBytes 10 with
  | (_, some ReadError.EOF, _) => Run.exit deferred
  | (_, some (ReadError.other e), _) =>
    match receives with
    | 0 => Run.blocked
    | _ + 1 =>
      Run.afterSend { fields := default, Error := some ("error reading stream response: " ++ e) }
        (Run.exit deferred)
  | (line, none, reader') =>
    have : reader'.buf.length < reader.buf.length := ReadBytes_length h
    if line = [10] then fimStreamRun unmarshal deferred receives reader'
    else if bytesHasPrefix line dataPrefix then
      let jsonLine := bytesTrimSpace (bytesTrimPrefix line dataPrefix)
      if jsonLine = doneSentinel then Run.exit deferred
      else
        match unmarshal jsonLine with
        | .error e =>
          match receives with
          | 0 => Run.blocked
          | _ + 1 =>
            Run.afterSend
              { fields := default, Error := some ("error unmarshaling stream response: " ++ e) }
              (Run.exit deferred)
        | .ok streamResponse =>
          match receives with
          | 0 => Run.blocked
          | n + 1 =>
            Run.afterSend { fields := streamResponse, Error := none }
              (fimStreamRun unmarshal deferred n reader')
    else fimStreamRun unmarshal deferred receives reader'
termination_by reader.buf.length

/-- The `for` loop of the goroutine of `AgentCompleteStream` (agents.go
209-237) run to the end of the goroutine, with the parameters of
`chatStreamRun`. -/
def agentCompleteStreamRun (unmarshal : Bytes → Except String α) (deferred : List (Event α))
    (receives : Nat) (reader : Reader) : Run α :=
  match h : reader.ReadBytes 10 with
  | (_, some ReadError.EOF, _) => Run.exit deferred
  | (_, some (ReadError.other e), _) =>
    match receives with
    | 0 => Run.blocked
    | _ + 1 =>
      Run.afterSend { fields := default, Error := some ("error reading stream response: " ++ e) }
        (Run.exit deferred)
  | (line, none, reader') =>
    have : reader'.buf.length < reader.buf.length := ReadBytes_length h
    if line = [10] then agentCompleteStreamRun unmarshal deferred receives reader'
    else if bytesHasPrefix line dataPrefix then
      let jsonLine := bytesTrimSpace (bytesTrimPrefix line dataPrefix)
      if jsonLine = doneSentinel then Run.exit deferred
      else
        match unmarshal jsonLine with
        | .error e =>
          match receives with
          | 0 => Run.blocked
          | _ + 1 =>
            Run.afterSend
              { fields := default, Error := some ("error unmarshaling stream response: " ++ e) }
              (Run.exit deferred)
        | .ok streamResponse =>
          match receives with
          | 0 => Run.blocked
          | n + 1 =>
            Run.afterSend { fields := streamResponse, Error := none }
              (agentCompleteStreamRun unmarshal deferred n reader')
    else agentCompleteStreamRun unmarshal deferred receives reader'
termination_by reader.buf.length

/-- The stack of deferred calls when the loop of a decoder goroutine starts:
`defer close(responseChannel)` is executed first and
`defer respBody.Close()` second (chat.go 249-250, fim.go 179-180, agents.go
204-205), so the body's close is on top. -/
def decoderDeferred : List (Event α) :=
  let deferred : List (Event α) := []
  let deferred := Event.chanClose :: deferred
  let deferred := Event.bodyClose :: deferred
  deferred

/-- The goroutine started by `ChatStream` (chat.go 248-294) against a consumer
that receives `receives` chunks and then stops receiving. -/
def chatStreamGoroutineRun (unmarshal : Bytes → Except String α) (receives : Nat)
    (respBody : Reader) : Run α :=
  chatStreamRun unmarshal decoderDeferred receives respBody

/-- The goroutine started by `FIMStream` (fim.go 178-213) against a consumer
that receives `receives` chunks and then stops receiving. -/
def fimStreamGoroutineRun (unmarshal : Bytes → Except String α) (receives : Nat)
    (respBody : Reader) : Run α :=
  fimStreamRun unmarshal decoderDeferred receives respBody

/-- The goroutine started by `AgentCompleteStream` (agents.go 203-238) against
a consumer that receives `receives` chunks and then stops receiving. -/
def agentCompleteStreamGoroutineRun (unmarshal : Bytes → Except String α) (receives : Nat)
    (respBody : Reader) : Run α :=
  agentCompleteStreamRun unmarshal decoderDeferred receives respBody

/-- What a consumer that receives `receives` chunks sees of a goroutine that
has the chunks `chunks` to send, one after the other, before it returns. -/
def consumed (deferred : List (Event α)) : Nat → List (StreamResponse α) → Run α
  | _, [] => Run.exit deferred
  | 0, _ :: _ => Run.blocked
  | n + 1, chunk :: chunks => Run.afterSend chunk (consumed deferred n chunks)

end Runs

/-! ## The request body across the attempts of a retry loop -/

/-- The fields of the `*http.Request` that `http.NewRequest` fills from a body
of type `*bytes.Buffer` (net/http, `NewRequestWithContext`).  `Body` reads from
the buffer itself and is given by the bytes still unread in it;
`ContentLength` is the length of the buffer when the request is made; `GetBody`
makes a new reader over the bytes the buffer held then. -/
structure HttpRequest where
  Body : Bytes
  ContentLength : Nat
  GetBody : Bytes
  deriving DecidableEq, Repr

/-- Go `http.NewRequest(method, url, body)` with `body` a `*bytes.Buffer` that
holds `payload` (files.go 147, audio.go 126). -/
def httpNewRequest (payload : Bytes) : HttpRequest :=
  { Body := payload, ContentLength := payload.length, GetBody := payload }

/-- The text of the error of net/http's `transferWriter.writeBody` for a body
that gave `n` bytes against a declared length `declared`. -/
def contentLengthError (declared n : Nat) : String :=
  "http: ContentLength=" ++ toString declared ++ " with Body length " ++ toString n

/-- The transport writes a request body (net/http, `transferWriter.writeBody`
with a declared length): it reads the body to its end and the bytes go out when
their number is the declared length; otherwise the write fails before anything
has reached the connection. -/
def writeBody (body : Bytes) (declared : Nat) : Except String Bytes :=
  if body.length = declared then .ok body else .error (contentLengthError declared body.length)

section Http

variable {α H : Type}

/-- What the server answers to one request: the response, and whether the
server keeps the connection open after it. -/
structure ServerReply (H : Type) where
  resp : Response H
  keepAlive : Bool

/-- Whether the connection is back in the idle pool of the transport when the
loop makes its next attempt (net/http, `persistConn.readLoop`).  A connection
kept open goes back at once when the response has no body.  When the response
has a body the connection goes back only once that body has been read to its
end, and the loops read no body before they retry: their `resp.Body.Close()` is
deferred to the return of the function (files.go 167, audio.go 146). -/
def ServerReply.leavesIdle (reply : ServerReply H) : Bool :=
  reply.keepAlive &&
    (match reply.resp.Body with
      | .ok [] => true
      | _ => false)

/-- What the attempts of one call share: the request, made once before the
loop; whether an idle connection to the host waits in the pool of the
transport; the request bodies the server has received, oldest first. -/
structure HttpState where
  req : HttpRequest
  idle : Bool
  received : List Bytes
  deriving DecidableEq, Repr

/-- Go `client.Do(req)` over net/http's own transport and HTTP/1.1.  The
transport takes the idle connection when there is one and dials otherwise, and
writes the request, which drains `req.Body`.  When the write fails with nothing
written and the connection was a reused one, the transport rewinds the body
through `GetBody` and sends the request on another connection
(`persistConn.shouldRetryRequest`, `rewindBody`); on a new connection the error
is returned, wrapped in a `*url.Error` whose text begins with `Post` and
`quotedURL`, the URL in quotes.  `server n body` is the answer to the request
with the body `body` that the server receives after `n` earlier ones. -/
def httpClientDo (server : Nat → Bytes → ServerReply H) (quotedURL : String) (st : HttpState) :
    Except String (Response H) × HttpState :=
  let req : HttpRequest := { st.req with Body := [] }
  match writeBody st.req.Body st.req.ContentLength with
  | .ok sent =>
    let reply := server st.received.length sent
    (.ok reply.resp, ⟨req, reply.leavesIdle, st.received ++ [sent]⟩)
  | .error err =>
    if st.idle then
      match writeBody st.req.GetBody st.req.ContentLength with
      | .ok sent =>
        let reply := server st.received.length sent
        (.ok reply.resp, ⟨req, reply.leavesIdle, st.received ++ [sent]⟩)
      | .error err' => (.error ("Post " ++ quotedURL ++ ": " ++ err'), ⟨req, false, st.received⟩)
    else (.error ("Post " ++ quotedURL ++ ": " ++ err), ⟨req, false, st.received⟩)

/-- The state before the call `client.Do(req)` that follows `n` earlier ones
with the same request `req`; no idle connection waits before the first. -/
def httpStateBefore (server : Nat → Bytes → ServerReply H) (quotedURL : String)
    (req : HttpRequest) : Nat → HttpState
  | 0 => ⟨req, false, []⟩
  | n + 1 => (httpClientDo server quotedURL (httpStateBefore server quotedURL req n)).2

/-- What the call `client.Do(req)` returns that follows `n` earlier ones with
the same request. -/
def httpClientDoAt (server : Nat → Bytes → ServerReply H) (quotedURL : String)
    (req : HttpRequest) (n : Nat) : Except String (Response H) :=
  (httpClientDo server quotedURL (httpStateBefore server quotedURL req n)).1

/-- `UploadFile` from the making of the request on (files.go 147-195): the
request is made once, over the buffer that holds the multipart payload, and
every attempt of the loop calls `client.Do` with it. -/
def uploadFileOverHttp (maxRetries : Int) (server : Nat → Bytes → ServerReply H)
    (quotedURL : String) (payload : Bytes) (unmarshal : Bytes → Except String α) :
    CallResult α H :=
  let req := httpNewRequest payload
  uploadFileRetry maxRetries (httpClientDoAt server quotedURL req) unmarshal

/-- `Transcribe` from the making of the request on (audio.go 126-174). -/
def transcribeOverHttp (maxRetries : Int) (server : Nat → Bytes → ServerReply H)
    (quotedURL : String) (payload : Bytes) (unmarshal : Bytes → Except String α) :
    CallResult α H :=
  let req := httpNewRequest payload
  transcribeRetry maxRetries (httpClientDoAt server quotedURL req) unmarshal

/-- The request bodies the server has received when the call, having made
`calls` calls of `client.Do`, returns. -/
def serverReceived (server : Nat → Bytes → ServerReply H) (quotedURL : String)
    (payload : Bytes) (calls : Nat) : List Bytes :=
  (httpStateBefore server quotedURL (httpNewRequest payload) calls).received

end Http

/-- A server that answers every request with status 503 and the body `busy`,
and keeps the connection open. -/
def busyServer (_n : Nat) (_body : Bytes) : ServerReply Unit :=
  ⟨⟨503, (), .ok (utf8 "busy")⟩, true⟩

/-- A server that answers every request with status 503 and no body, and
keeps the connection open. -/
def bodylessServer (_n : Nat) (_body : Bytes) : ServerReply Unit :=
  ⟨⟨503, (), .ok []⟩, true⟩

/-- The URL of the upload request, in quotes. -/
def sampleQuotedURL : String := "\"http://127.0.0.1:8080/v1/files\""

/-! ## Lemmas on reading lines -/

theorem splitDelim_line {delim : UInt8} :
    ∀ (l rest : Bytes), delim ∉ l → splitDelim delim (l ++ delim :: rest) = some (l ++ [delim], rest)
  | [], rest, _ => by simp [splitDelim]
  | b :: l, rest, h => by
    have hb : b ≠ delim := fun hb => h (by simp [hb])
    have hl : delim ∉ l := fun hl => h (List.mem_cons_of_mem _ hl)
    simp [splitDelim, hb, splitDelim_line l rest hl]

theorem splitDelim_none {delim : UInt8} :
    ∀ (t : Bytes), delim ∉ t → splitDelim delim t = none
  | [], _ => by simp [splitDelim]
  | b :: t, h => by
    have hb : b ≠ delim := fun hb => h (by simp [hb])
    have ht : delim ∉ t := fun ht => h (List.mem_cons_of_mem _ ht)
    simp [splitDelim, hb, splitDelim_none t ht]

theorem ReadBytes_line {delim : UInt8} (l rest : Bytes) (err : Option String) (h : delim ∉ l) :
    (Reader.mk (l ++ delim :: rest) err).ReadBytes delim = (l ++ [delim], none, ⟨rest, err⟩) := by
  simp [Reader.ReadBytes, splitDelim_line l rest h]

theorem ReadBytes_eof {delim : UInt8} (t : Bytes) (h : delim ∉ t) :
    (Reader.mk t none).ReadBytes delim = (t, some ReadError.EOF, ⟨[], none⟩) := by
  simp [Reader.ReadBytes, splitDelim_none t h]

theorem ReadBytes_err {delim : UInt8} (t : Bytes) (e : String) (h : delim ∉ t) :
    (Reader.mk t (some e)).ReadBytes delim = (t, some (ReadError.other e), ⟨[], some e⟩) := by
  simp [Reader.ReadBytes, splitDelim_none t h]

theorem classifyLine_not_data {α : Type} (unmarshal : Bytes → Except String α) {line : Bytes}
    (h : isDataLine line = false) : classifyLine unmarshal line = .ignored := by
  unfold isDataLine at h
  simp [classifyLine, h]

theorem newline_not_data : isDataLine [10] = false := by decide

theorem classifyLine_done {α : Type} (unmarshal : Bytes → Except String α) {line : Bytes}
    (h : isDoneLine line = true) : classifyLine unmarshal line = .done := by
  simp only [isDoneLine, Bool.and_eq_true, beq_iff_eq] at h
  have hne : line ≠ [10] := fun hl => by
    rw [hl, newline_not_data] at h; exact Bool.noConfusion h.1
  have h1 : bytesHasPrefix line dataPrefix = true := h.1
  have h2 : bytesTrimSpace (bytesTrimPrefix line dataPrefix) = doneSentinel := h.2
  simp [classifyLine, hne, h1, h2]

theorem classifyLine_data {α : Type} (unmarshal : Bytes → Except String α) {line : Bytes}
    (hd : isDataLine line = true) (hnd : isDoneLine line = false) :
    classifyLine unmarshal line =
      match unmarshal (payloadOf line) with
      | .error e => .malformed e
      | .ok v => .chunk v := by
  have hne : line ≠ [10] := fun hl => by
    rw [hl, newline_not_data] at hd; exact Bool.noConfusion hd
  have h1 : bytesHasPrefix line dataPrefix = true := hd
  have h2 : bytesTrimSpace (bytesTrimPrefix line dataPrefix) ≠ doneSentinel := fun h => by
    simp [isDoneLine, hd, payloadOf, h] at hnd
  simp [classifyLine, hne, h1, h2, payloadOf]

section StepLemmas

variable {α : Type} [Inhabited α]

theorem chatStreamLoop_decodes (unmarshal : Bytes → Except String α) :
    DecodesLike unmarshal chatOnBad (chatStreamLoop unmarshal) where
  eof t ht := by
    rw [chatStreamLoop]
    split <;> rename_i h <;> rw [ReadBytes_eof t ht] at h <;> simp at h
  readErr t e ht := by
    rw [chatStreamLoop]
    split <;> rename_i h <;> rw [ReadBytes_err t e ht] at h <;> simp at h
    obtain ⟨-, rfl, -⟩ := h
    rfl
  line l rest err hl := by
    rw [chatStreamLoop]
    split <;> rename_i h <;> rw [ReadBytes_line l rest err hl] at h <;> simp at h
    obtain ⟨rfl, rfl⟩ := h
    simp only [classifyLine]
    split
    · rfl
    · split
      · split
        · rfl
        · split <;> rename_i hu <;> simp [hu, chatOnBad]
      · rfl

theorem fimStreamLoop_decodes (unmarshal : Bytes → Except String α) :
    DecodesLike unmarshal fimOnBad (fimStreamLoop unmarshal) where
  eof t ht := by
    rw [fimStreamLoop]
    split <;> rename_i h <;> rw [ReadBytes_eof t ht] at h <;> simp at h
  readErr t e ht := by
    rw [fimStreamLoop]
    split <;> rename_i h <;> rw [ReadBytes_err t e ht] at h <;> simp at h
    obtain ⟨-, rfl, -⟩ := h
    rfl
  line l rest err hl := by
    rw [fimStreamLoop]
    split <;> rename_i h <;> rw [ReadBytes_line l rest err hl] at h <;> simp at h
    obtain ⟨rfl, rfl⟩ := h
    simp only [classifyLine]
    split
    · rfl
    · split
      · split
        · rfl
        · split <;> rename_i hu <;> simp [hu, fimOnBad]
      · rfl

theorem agentCompleteStreamLoop_decodes (unmarshal : Bytes → Except String α) :
    DecodesLike unmarshal fimOnBad (agentCompleteStreamLoop unmarshal) where
  eof t ht := by
    rw [agentCompleteStreamLoop]
    split <;> rename_i h <;> rw [ReadBytes_eof t ht] at h <;> simp at h
  readErr t e ht := by
    rw [agentCompleteStreamLoop]
    split <;> rename_i h <;> rw [ReadBytes_err t e ht] at h <;> simp at h
    obtain ⟨-, rfl, -⟩ := h
    rfl
  line l rest err hl := by
    rw [agentCompleteStreamLoop]
    split <;> rename_i h <;> rw [ReadBytes_line l rest err hl] at h <;> simp at h
    obtain ⟨rfl, rfl⟩ := h
    simp only [classifyLine]
    split
    · rfl
    · split
      · split
        · rfl
        · split <;> rename_i hu <;> simp [hu, fimOnBad]
      · rfl

/-- A run of lines none of which is a `[DONE]` line and whose `data: ` lines
all decode: one chunk per `data: ` line, then the loop goes on with what
follows. -/
theorem DecodesLike.valid_run {unmarshal : Bytes → Except String α}
    {onBad : String → List (StreamResponse α) → List (StreamResponse α)}
    {L : Reader → List (StreamResponse α)} (hL : DecodesLike unmarshal onBad L)
    (rest : Bytes) (err : Option String) :
    ∀ (ls : List Bytes) (vs : List α), (∀ l ∈ ls, (10 : UInt8) ∉ l) →
      (∀ l ∈ ls, isDoneLine (l ++ [10]) = false) →
      (dataLines ls).map (fun l => unmarshal (payloadOf (l ++ [10]))) = vs.map Except.ok →
      L ⟨joinLines ls ++ rest, err⟩ = vs.map (fun v => ⟨v, none⟩) ++ L ⟨rest, err⟩
  | [], vs, _, _, hv => by
    cases vs with
    | nil => simp [joinLines]
    | cons v vs => simp [dataLines] at hv
  | l :: ls, vs, hnl, hnd, hv => by
    have hl : (10 : UInt8) ∉ l := hnl l (List.mem_cons_self _ _)
    have hnl' : ∀ l' ∈ ls, (10 : UInt8) ∉ l' := fun l' h => hnl l' (List.mem_cons_of_mem _ h)
    have hnd' : ∀ l' ∈ ls, isDoneLine (l' ++ [10]) = false :=
      fun l' h => hnd l' (List.mem_cons_of_mem _ h)
    have hjoin : joinLines (l :: ls) ++ rest = l ++ 10 :: (joinLines ls ++ rest) := by
      simp [joinLines]
    rw [hjoin, hL.line l _ err hl]
    cases hd : isDataLine (l ++ [10]) with
    | false =>
      rw [classifyLine_not_data unmarshal hd]
      have hdl : dataLines (l :: ls) = dataLines ls := by simp [dataLines, hd]
      rw [hdl] at hv
      exact DecodesLike.valid_run hL rest err ls vs hnl' hnd' hv
    | true =>
      have hdl : dataLines (l :: ls) = l :: dataLines ls := by simp [dataLines, hd]
      rw [hdl] at hv
      rw [classifyLine_data unmarshal hd (hnd l (List.mem_cons_self _ _))]
      cases vs with
      | nil => simp at hv
      | cons v vs =>
        simp only [List.map_cons, List.cons.injEq] at hv
        rw [hv.1]
        simp only [List.map_cons, List.cons_append, List.cons.injEq, true_and]
        exact DecodesLike.valid_run hL rest err ls vs hnl' hnd' hv.2

/-- The chunks of a body of complete lines whose `data: ` lines before the
first `[DONE]` line all decode. -/
theorem DecodesLike.before_done {unmarshal : Bytes → Except String α}
    {onBad : String → List (StreamResponse α) → List (StreamResponse α)}
    {L : Reader → List (StreamResponse α)} (hL : DecodesLike unmarshal onBad L) :
    ∀ (ls : List Bytes) (vs : List α), (∀ l ∈ ls, (10 : UInt8) ∉ l) →
      (dataLines (linesBeforeDone ls)).map (fun l => unmarshal (payloadOf (l ++ [10])))
        = vs.map Except.ok →
      L ⟨joinLines ls, none⟩ = vs.map (fun v => ⟨v, none⟩)
  | [], vs, _, hv => by
    cases vs with
    | nil => simpa [joinLines] using hL.eof [] (by simp)
    | cons v vs => simp [dataLines, linesBeforeDone] at hv
  | l :: ls, vs, hnl, hv => by
    have hl : (10 : UInt8) ∉ l := hnl l (List.mem_cons_self _ _)
    have hnl' : ∀ l' ∈ ls, (10 : UInt8) ∉ l' := fun l' h => hnl l' (List.mem_cons_of_mem _ h)
    have hjoin : joinLines (l :: ls) = l ++ 10 :: joinLines ls := rfl
    rw [hjoin, hL.line l _ none hl]
    cases hdone : isDoneLine (l ++ [10]) with
    | true =>
      rw [classifyLine_done unmarshal hdone]
      have hb : linesBeforeDone (l :: ls) = [] := by simp [linesBeforeDone, hdone]
      rw [hb] at hv
      cases vs with
      | nil => rfl
      | cons v vs => simp [dataLines] at hv
    | false =>
      have hb : linesBeforeDone (l :: ls) = l :: linesBeforeDone ls := by
        simp [linesBeforeDone, hdone]
      rw [hb] at hv
      cases hd : isDataLine (l ++ [10]) with
      | false =>
        rw [classifyLine_not_data unmarshal hd]
        have hdl : dataLines (l :: linesBeforeDone ls) = dataLines (linesBeforeDone ls) := by
          simp [dataLines, hd]
        rw [hdl] at hv
        exact DecodesLike.before_done hL ls vs hnl' hv
      | true =>
        have hdl : dataLines (l :: linesBeforeDone ls) = l :: dataLines (linesBeforeDone ls) := by
          simp [dataLines, hd]
        rw [hdl] at hv
        rw [classifyLine_data unmarshal hd hdone]
        cases vs with
        | nil => simp at hv
        | cons v vs =>
          simp only [List.map_cons, List.cons.injEq] at hv
          rw [hv.1]
          simp only [List.map_cons, List.cons.injEq, true_and]
          exact DecodesLike.before_done hL ls vs hnl' hv.2

/-- A `[DONE]` line ends the stream: what follows it is not looked at. -/
theorem DecodesLike.done_cut {unmarshal : Bytes → Except String α}
    {onBad : String → List (StreamResponse α) → List (StreamResponse α)}
    {L : Reader → List (StreamResponse α)} (hL : DecodesLike unmarshal onBad L)
    (d rest : Bytes) (err : Option String) (hd : (10 : UInt8) ∉ d)
    (hdone : isDoneLine (d ++ [10]) = true) :
    ∀ (ls : List Bytes), (∀ l ∈ ls, (10 : UInt8) ∉ l) →
      L ⟨joinLines ls ++ (d ++ 10 :: rest), err⟩ = L ⟨joinLines ls, none⟩
  | [], _ => by
    have h0 := hL.eof [] (by simp)
    simp only [joinLines, List.nil_append]
    rw [hL.line d rest err hd, classifyLine_done unmarshal hdone, h0]
  | l :: ls, hnl => by
    have hl : (10 : UInt8) ∉ l := hnl l (List.mem_cons_self _ _)
    have hnl' : ∀ l' ∈ ls, (10 : UInt8) ∉ l' := fun l' h => hnl l' (List.mem_cons_of_mem _ h)
    have hjoin : joinLines (l :: ls) ++ (d ++ 10 :: rest)
        = l ++ 10 :: (joinLines ls ++ (d ++ 10 :: rest)) := by simp [joinLines]
    have hjoin' : joinLines (l :: ls) = l ++ 10 :: joinLines ls := rfl
    rw [hjoin, hjoin', hL.line l _ err hl, hL.line l _ none hl,
      DecodesLike.done_cut hL d rest err hd hdone ls hnl']

/-- Lines that do not begin with `data: ` can be deleted, and so can an
unterminated tail. -/
theorem DecodesLike.drop_ignored {unmarshal : Bytes → Except String α}
    {onBad : String → List (StreamResponse α) → List (StreamResponse α)}
    {L : Reader → List (StreamResponse α)} (hL : DecodesLike unmarshal onBad L)
    (t t' : Bytes) (err : Option String) (ht : (10 : UInt8) ∉ t) (ht' : (10 : UInt8) ∉ t') :
    ∀ (ls : List Bytes), (∀ l ∈ ls, (10 : UInt8) ∉ l) →
      L ⟨joinLines (dataLines ls) ++ t', err⟩ = L ⟨joinLines ls ++ t, err⟩
  | [], _ => by
    simp only [dataLines, List.filter_nil, joinLines, List.nil_append]
    cases err with
    | none => rw [hL.eof t ht, hL.eof t' ht']
    | some e => rw [hL.readErr t e ht, hL.readErr t' e ht']
  | l :: ls, hnl => by
    have hl : (10 : UInt8) ∉ l := hnl l (List.mem_cons_self _ _)
    have hnl' : ∀ l' ∈ ls, (10 : UInt8) ∉ l' := fun l' h => hnl l' (List.mem_cons_of_mem _ h)
    have ih := DecodesLike.drop_ignored hL t t' err ht ht' ls hnl'
    have hjoin : joinLines (l :: ls) ++ t = l ++ 10 :: (joinLines ls ++ t) := by
      simp [joinLines]
    rw [hjoin, hL.line l _ err hl]
    cases hd : isDataLine (l ++ [10]) with
    | false =>
      rw [classifyLine_not_data unmarshal hd]
      have hdl : dataLines (l :: ls) = dataLines ls := by simp [dataLines, hd]
      rw [hdl, ih]
    | true =>
      have hdl : dataLines (l :: ls) = l :: dataLines ls := by simp [dataLines, hd]
      have hjoin2 : joinLines (l :: dataLines ls) ++ t'
          = l ++ 10 :: (joinLines (dataLines ls) ++ t') := by simp [joinLines]
      rw [hdl, hjoin2, hL.line l _ err hl, ih]

end StepLemmas


/-! ## Lemmas on the retry loops -/

section RetryLemmas

variable {α H : Type}

theorem transcribeRetryLoop_eq (maxRetries : Int)
    (clientDo : Nat → Except String (Response H)) (unmarshal : Bytes → Except String α) :
    ∀ (k attempt : Nat), (maxRetries + 1 - attempt).toNat = k →
      ∀ (lastErr : Option String) (sent : Nat),
        transcribeRetryLoop maxRetries clientDo unmarshal attempt lastErr sent
          = uploadFileRetryLoop maxRetries clientDo unmarshal attempt lastErr sent := by
  intro k
  induction k with
  | zero =>
    intro attempt hk lastErr sent
    have hgt : ¬ ((attempt : Int) ≤ maxRetries) := by omega
    rw [transcribeRetryLoop, uploadFileRetryLoop]
    simp [hgt]
  | succ k ih =>
    intro attempt hk lastErr sent
    have hnext : (maxRetries + 1 - ((attempt + 1 : Nat) : Int)).toNat = k := by omega
    rw [transcribeRetryLoop, uploadFileRetryLoop]
    simp only [ih (attempt + 1) hnext]

/-- Once the loop body is entered, `lastErr` has no influence on the result. -/
theorem uploadFileRetryLoop_lastErr (maxRetries : Int)
    (clientDo : Nat → Except String (Response H)) (unmarshal : Bytes → Except String α)
    (attempt : Nat) (hle : (attempt : Int) ≤ maxRetries) (e e' : Option String) (sent : Nat) :
    uploadFileRetryLoop maxRetries clientDo unmarshal attempt e sent
      = uploadFileRetryLoop maxRetries clientDo unmarshal attempt e' sent := by
  rw [uploadFileRetryLoop, uploadFileRetryLoop.eq_1 maxRetries clientDo unmarshal attempt e']
  simp only [hle, dite_true]

/-- One retry: a response with a retryable status while attempts remain. -/
theorem uploadFileRetryLoop_retry (maxRetries : Int)
    (clientDo : Nat → Except String (Response H)) (unmarshal : Bytes → Except String α)
    (attempt : Nat) (lastErr : Option String) (sent : Nat) (resp : Response H)
    (hlt : (attempt : Int) < maxRetries) (hresp : clientDo sent = .ok resp)
    (hs : retryStatusCodes resp.StatusCode = true) :
    uploadFileRetryLoop maxRetries clientDo unmarshal attempt lastErr sent
      = uploadFileRetryLoop maxRetries clientDo unmarshal (attempt + 1) lastErr (sent + 1) := by
  have hle : (attempt : Int) ≤ maxRetries := by omega
  rw [uploadFileRetryLoop]
  simp only [hle, hlt, hresp, hs, dite_true, if_true, decide_True, Bool.and_true]
  exact uploadFileRetryLoop_lastErr maxRetries clientDo unmarshal (attempt + 1)
    (by push_cast; omega) _ _ _

/-- A run of `j` retries. -/
theorem uploadFileRetryLoop_retries (maxRetries : Int)
    (clientDo : Nat → Except String (Response H)) (unmarshal : Bytes → Except String α) :
    ∀ (j attempt : Nat) (lastErr : Option String) (sent : Nat),
      (attempt : Int) + j ≤ maxRetries →
      (∀ i, i < j → ∃ resp, clientDo (sent + i) = .ok resp
        ∧ retryStatusCodes resp.StatusCode = true) →
      uploadFileRetryLoop maxRetries clientDo unmarshal attempt lastErr sent
        = uploadFileRetryLoop maxRetries clientDo unmarshal (attempt + j) lastErr (sent + j) := by
  intro j
  induction j with
  | zero => intro attempt lastErr sent _ _; rfl
  | succ j ih =>
    intro attempt lastErr sent hle hall
    obtain ⟨resp, hresp, hs⟩ := hall 0 (Nat.succ_pos j)
    rw [uploadFileRetryLoop_retry maxRetries clientDo unmarshal attempt lastErr sent resp
      (by omega) hresp hs]
    rw [ih (attempt + 1) lastErr (sent + 1) (by push_cast; omega)
      (fun i hi => by
        obtain ⟨r, hr, hrs⟩ := hall (i + 1) (by omega)
        exact ⟨r, by rw [← hr]; congr 1; omega, hrs⟩)]
    congr 1 <;> omega

/-- A response that is not retried is final. -/
theorem uploadFileRetryLoop_final (maxRetries : Int)
    (clientDo : Nat → Except String (Response H)) (unmarshal : Bytes → Except String α)
    (attempt : Nat) (lastErr : Option String) (sent : Nat) (resp : Response H)
    (hle : (attempt : Int) ≤ maxRetries) (hresp : clientDo sent = .ok resp)
    (hs : retryStatusCodes resp.StatusCode = false ∨ (attempt : Int) = maxRetries) :
    uploadFileRetryLoop maxRetries clientDo unmarshal attempt lastErr sent
      = finalResult unmarshal resp (sent + 1) := by
  have hcond : (retryStatusCodes resp.StatusCode && decide ((attempt : Int) < maxRetries))
      = false := by
    rcases hs with h | h
    · simp [h]
    · simp [h]
  rw [uploadFileRetryLoop]
  simp only [hle, hresp, hcond, dite_true]
  rfl

theorem retryStatusCodes_of_mem {s : Int} (hs : s ∈ [(429 : Int), 500, 502, 503, 504]) :
    retryStatusCodes s = true := by
  simp only [List.mem_cons, List.mem_singleton, List.not_mem_nil, or_false] at hs
  rcases hs with h | h | h | h | h <;> rw [h] <;> decide

theorem retryStatusCodes_of_not_mem {s : Int} (hs : s ∉ [(429 : Int), 500, 502, 503, 504]) :
    retryStatusCodes s = false := by
  simp only [List.mem_cons, List.mem_singleton, List.not_mem_nil, or_false, not_or] at hs
  simp [retryStatusCodes, hs]

theorem finalResult_requests (unmarshal : Bytes → Except String α) (resp : Response H)
    (sent : Nat) : (finalResult unmarshal resp sent).requests = sent := by
  unfold finalResult
  split
  · rfl
  · split
    · rfl
    · split <;> rfl

theorem transcribeRetry_eq (maxRetries : Int) (clientDo : Nat → Except String (Response H))
    (unmarshal : Bytes → Except String α) :
    transcribeRetry maxRetries clientDo unmarshal = uploadFileRetry maxRetries clientDo unmarshal :=
  transcribeRetryLoop_eq maxRetries clientDo unmarshal _ 0 rfl none 0

end RetryLemmas

/-! ## Further lemmas on the retry loops -/

section RetryLemmas2

variable {α H : Type}

/-- One transient failure while attempts remain: the loop goes on. -/
theorem uploadFileRetryLoop_transient (maxRetries : Int)
    (clientDo : Nat → Except String (Response H)) (unmarshal : Bytes → Except String α)
    (attempt : Nat) (lastErr : Option String) (sent : Nat)
    (hlt : (attempt : Int) < maxRetries) (ht : isTransient (clientDo sent) = true) :
    uploadFileRetryLoop maxRetries clientDo unmarshal attempt lastErr sent
      = uploadFileRetryLoop maxRetries clientDo unmarshal (attempt + 1) lastErr (sent + 1) := by
  cases hdo : clientDo sent with
  | error err =>
    have hle : (attempt : Int) ≤ maxRetries := by omega
    rw [uploadFileRetryLoop]
    simp only [hle, hlt, hdo, dite_true, if_true]
    exact uploadFileRetryLoop_lastErr maxRetries clientDo unmarshal (attempt + 1)
      (by push_cast; omega) _ _ _
  | ok resp =>
    rw [hdo] at ht
    exact uploadFileRetryLoop_retry maxRetries clientDo unmarshal attempt lastErr sent resp
      hlt hdo ht

/-- A run of `j` transient failures. -/
theorem uploadFileRetryLoop_transients (maxRetries : Int)
    (clientDo : Nat → Except String (Response H)) (unmarshal : Bytes → Except String α) :
    ∀ (j attempt : Nat) (lastErr : Option String) (sent : Nat),
      (attempt : Int) + j ≤ maxRetries →
      (∀ i, i < j → isTransient (clientDo (sent + i)) = true) →
      uploadFileRetryLoop maxRetries clientDo unmarshal attempt lastErr sent
        = uploadFileRetryLoop maxRetries clientDo unmarshal (attempt + j) lastErr (sent + j) := by
  intro j
  induction j with
  | zero => intro attempt lastErr sent _ _; rfl
  | succ j ih =>
    intro attempt lastErr sent hle hall
    rw [uploadFileRetryLoop_transient maxRetries clientDo unmarshal attempt lastErr sent
      (by omega) (hall 0 (Nat.succ_pos j))]
    rw [ih (attempt + 1) lastErr (sent + 1) (by push_cast; omega)
      (fun i hi => by
        have h := hall (i + 1) (by omega)
        rw [show sent + 1 + i = sent + (i + 1) by omega]
        exact h)]
    congr 1 <;> omega

/-- A transport error on the last allowed attempt is returned as a connection
error. -/
theorem uploadFileRetryLoop_lastError (maxRetries : Int)
    (clientDo : Nat → Except String (Response H)) (unmarshal : Bytes → Except String α)
    (attempt : Nat) (lastErr : Option String) (sent : Nat) (e : String)
    (heq : (attempt : Int) = maxRetries) (hdo : clientDo sent = .error e) :
    uploadFileRetryLoop maxRetries clientDo unmarshal attempt lastErr sent
      = ⟨none, some (.connection e), sent + 1⟩ := by
  have hle : (attempt : Int) ≤ maxRetries := by omega
  have hlt : ¬ ((attempt : Int) < maxRetries) := by omega
  rw [uploadFileRetryLoop]
  simp only [hle, hlt, hdo, dite_true, if_false]

/-- Once the loop body is entered, a further request is sent before the loop
returns. -/
theorem uploadFileRetryLoop_requests (maxRetries : Int)
    (clientDo : Nat → Except String (Response H)) (unmarshal : Bytes → Except String α) :
    ∀ (k attempt : Nat), (attempt : Int) + k = maxRetries →
      ∀ (lastErr : Option String) (sent : Nat),
        sent < (uploadFileRetryLoop maxRetries clientDo unmarshal attempt lastErr sent).requests := by
  intro k
  induction k with
  | zero =>
    intro attempt hk lastErr sent
    cases hdo : clientDo sent with
    | error e =>
      rw [uploadFileRetryLoop_lastError maxRetries clientDo unmarshal attempt lastErr sent e
        (by omega) hdo]
      exact Nat.lt_succ_self _
    | ok resp =>
      rw [uploadFileRetryLoop_final maxRetries clientDo unmarshal attempt lastErr sent resp
        (by omega) hdo (Or.inr (by omega)), finalResult_requests]
      exact Nat.lt_succ_self _
  | succ k ih =>
    intro attempt hk lastErr sent
    by_cases ht : isTransient (clientDo sent) = true
    · rw [uploadFileRetryLoop_transient maxRetries clientDo unmarshal attempt lastErr sent
        (by omega) ht]
      have := ih (attempt + 1) (by push_cast; omega) lastErr (sent + 1)
      omega
    · cases hdo : clientDo sent with
      | error e => rw [hdo] at ht; simp [isTransient] at ht
      | ok resp =>
        rw [hdo] at ht
        have hs : retryStatusCodes resp.StatusCode = false := by
          simpa [isTransient] using ht
        rw [uploadFileRetryLoop_final maxRetries clientDo unmarshal attempt lastErr sent resp
          (by omega) hdo (Or.inl hs), finalResult_requests]
        exact Nat.lt_succ_self _

end RetryLemmas2

/-! ## Lemmas on request bodies and operations -/

theorem GoMap.get?_cons (k : String) (w : GoValue) (m : GoMap) (key : String) :
    GoMap.get? ((k, w) :: m) key = if k == key then some w else GoMap.get? m key := rfl

theorem GoMap.get?_map_ne (key key' : String) (v : GoValue) (h : key ≠ key') :
    ∀ m : GoMap,
      GoMap.get? (m.map (fun kv => if kv.1 == key then (key, v) else kv)) key'
        = GoMap.get? m key'
  | [] => rfl
  | (k, w) :: m => by
    have ih := GoMap.get?_map_ne key key' v h m
    have hk : (key == key') = false := by simpa using h
    by_cases hkk : (k == key) = true
    · have hk' : k = key := by simpa using hkk
      have hne : (k == key') = false := by rw [hk']; exact hk
      rw [List.map_cons, if_pos hkk, GoMap.get?_cons, GoMap.get?_cons, ih, hk, hne]
      rfl
    · rw [List.map_cons, if_neg hkk, GoMap.get?_cons, GoMap.get?_cons, ih]

theorem GoMap.get?_append_ne (key key' : String) (v : GoValue) (h : key ≠ key') :
    ∀ m : GoMap, GoMap.get? (m ++ [(key, v)]) key' = GoMap.get? m key'
  | [] => by
    have hk : (key == key') = false := by simpa using h
    rw [List.nil_append, GoMap.get?_cons, hk]
    rfl
  | (k, w) :: m => by
    have ih := GoMap.get?_append_ne key key' v h m
    rw [List.cons_append, GoMap.get?_cons, GoMap.get?_cons, ih]

theorem GoMap.get?_set_ne (m : GoMap) (key key' : String) (v : GoValue) (h : key ≠ key') :
    (m.set key v).get? key' = m.get? key' := by
  unfold GoMap.set
  split
  · exact GoMap.get?_map_ne key key' v h m
  · exact GoMap.get?_append_ne key key' v h m

theorem GoMap.get?_setDeref_ne {α : Type} (m : GoMap) (key key' : String) (f : α → GoValue)
    (p : Option α) (h : key ≠ key') : (m.setDeref key f p).get? key' = m.get? key' := by
  cases p with
  | none => rfl
  | some a => exact GoMap.get?_set_ne m key key' (f a) h

theorem GoMap.get?_setPointer_ne {α : Type} (m : GoMap) (key key' : String) (f : α → GoValue)
    (p : Option α) (h : key ≠ key') : (m.setPointer key f p).get? key' = m.get? key' := by
  cases p with
  | none => rfl
  | some a => exact GoMap.get?_set_ne m key key' _ h

theorem GoMap.get?_setIf_ne (m : GoMap) (cond : Bool) (key key' : String) (v : GoValue)
    (h : key ≠ key') : (m.setIf cond key v).get? key' = m.get? key' := by
  cases cond with
  | false => rfl
  | true => exact GoMap.get?_set_ne m key key' v h

theorem dispatchAndProject_dispatched {M T H : Type}
    (request : RequestDescriptor → Except (CallError H) (DispatchValue M))
    (marshal : M → Except String Bytes) (unmarshal : Bytes → Except String T)
    (d : RequestDescriptor) :
    (dispatchAndProject request marshal unmarshal d : OpRun T H).dispatched = [d] := by
  unfold dispatchAndProject
  split
  · rfl
  · split
    · split <;> rfl
    · rfl
    · rfl

/-! ## Lookup after an assignment -/

theorem GoMap.get?_map_self (key : String) (v : GoValue) :
    ∀ m : GoMap, (m.any (fun kv => kv.1 == key)) = true →
      GoMap.get? (m.map (fun kv => if kv.1 == key then (key, v) else kv)) key = some v
  | [], h => by simp at h
  | (k, w) :: m, h => by
    by_cases hkk : (k == key) = true
    · rw [List.map_cons, if_pos hkk, GoMap.get?_cons]
      simp
    · have hrest : (m.any (fun kv => kv.1 == key)) = true := by
        simpa [List.any_cons, hkk] using h
      rw [List.map_cons, if_neg hkk, GoMap.get?_cons, if_neg hkk]
      exact GoMap.get?_map_self key v m hrest

theorem GoMap.get?_append_self (key : String) (v : GoValue) :
    ∀ m : GoMap, (m.any (fun kv => kv.1 == key)) = false →
      GoMap.get? (m ++ [(key, v)]) key = some v
  | [], _ => by
    rw [List.nil_append, GoMap.get?_cons]
    simp
  | (k, w) :: m, h => by
    have hk : (k == key) = false := by
      simp only [List.any_cons, Bool.or_eq_false_iff] at h
      exact h.1
    have hrest : (m.any (fun kv => kv.1 == key)) = false := by
      simp only [List.any_cons, Bool.or_eq_false_iff] at h
      exact h.2
    rw [List.cons_append, GoMap.get?_cons, hk]
    exact GoMap.get?_append_self key v m hrest

theorem GoMap.get?_set_self (m : GoMap) (key : String) (v : GoValue) :
    (m.set key v).get? key = some v := by
  unfold GoMap.set
  split
  · rename_i h
    exact GoMap.get?_map_self key v m h
  · rename_i h
    exact GoMap.get?_append_self key v m (Bool.eq_false_iff.mpr h)

/-- The lookup after `m[key] = v`. -/
theorem GoMap.get?_set (m : GoMap) (key key' : String) (v : GoValue) :
    (m.set key v).get? key' = if key = key' then some v else m.get? key' := by
  by_cases h : key = key'
  · rw [if_pos h, ← h]
    exact GoMap.get?_set_self m key v
  · rw [if_neg h]
    exact GoMap.get?_set_ne m key key' v h

theorem GoMap.get?_setDeref {α : Type} (m : GoMap) (key key' : String) (f : α → GoValue)
    (p : Option α) :
    (m.setDeref key f p).get? key'
      = if key = key' ∧ p.isSome then p.map f else m.get? key' := by
  cases p with
  | none => simp [GoMap.setDeref]
  | some a =>
    simp only [GoMap.setDeref, GoMap.get?_set, Option.isSome_some, and_true, Option.map_some']

theorem GoMap.get?_setPointer {α : Type} (m : GoMap) (key key' : String) (f : α → GoValue)
    (p : Option α) :
    (m.setPointer key f p).get? key'
      = if key = key' ∧ p.isSome then p.map (fun a => .pointer (f a)) else m.get? key' := by
  cases p with
  | none => simp [GoMap.setPointer]
  | some a =>
    simp only [GoMap.setPointer, GoMap.get?_set, Option.isSome_some, and_true,
      Option.map_some']

theorem GoMap.get?_setIf (m : GoMap) (cond : Bool) (key key' : String) (v : GoValue) :
    (m.setIf cond key v).get? key'
      = if key = key' ∧ cond = true then some v else m.get? key' := by
  cases cond with
  | false => simp [GoMap.setIf]
  | true => simp only [GoMap.setIf, GoMap.get?_set, and_true, if_true]

/-- What `chatOptionalParams` leaves under a key depends on the map it starts
from only through that key. -/
theorem chatOptionalParams_get?_congr (m m' : GoMap) (params : ChatRequestParams)
    (key : String) (h : m.get? key = m'.get? key) :
    (chatOptionalParams m params).get? key = (chatOptionalParams m' params).get? key := by
  simp only [chatOptionalParams, GoMap.get?_setDeref, GoMap.get?_setPointer, GoMap.get?_setIf, h]

/-- The same for `agentRequestMap`'s and `fimRequestData`'s key `stream`: no
optional parameter is stored under it. -/
theorem agentRequestMap_stream (params : AgentCompletionRequest) :
    (agentRequestMap params).get? "stream" = some (pointerValue .bool params.Stream) := by
  simp [agentRequestMap, GoMap.get?_setDeref, GoMap.get?_setPointer, GoMap.get?_setIf,
    GoMap.get?]

theorem fimRequestData_stream (params : FIMRequestParams) (stream : Bool) :
    (fimRequestData params stream).get? "stream" = some (.bool stream) := by
  simp [fimRequestData, GoMap.get?_setDeref, GoMap.get?_setIf, GoMap.get?]

/-! ## Lemmas on outcomes and traces -/

theorem dispatchAndProject_exactlyOne {M T H : Type}
    (request : RequestDescriptor → Except (CallError H) (DispatchValue M))
    (marshal : M → Except String Bytes) (unmarshal : Bytes → Except String T)
    (d : RequestDescriptor) :
    (dispatchAndProject request marshal unmarshal d : OpRun T H).outcome.exactlyOne := by
  unfold dispatchAndProject
  split
  · exact Or.inr ⟨_, rfl⟩
  · split
    · split
      · exact Or.inr ⟨_, rfl⟩
      · exact Or.inl ⟨_, rfl⟩
    · exact Or.inr ⟨_, rfl⟩
    · exact Or.inr ⟨_, rfl⟩

theorem goroutineTrace_closesExactlyOnce {α : Type} (chunks : List (StreamResponse α)) :
    closesExactlyOnce (goroutineTrace chunks) := by
  have hb : ∀ l : List (StreamResponse α),
      (l.map Event.send).filter Event.isBodyClose = [] := by
    intro l
    induction l with
    | nil => rfl
    | cons c l ih => simp [List.filter, Event.isBodyClose]
  have hc : ∀ l : List (StreamResponse α),
      (l.map Event.send).filter Event.isChanClose = [] := by
    intro l
    induction l with
    | nil => rfl
    | cons c l ih => simp [List.filter, Event.isChanClose]
  refine ⟨?_, ?_, chunks.map Event.send, ?_, rfl⟩
  · rw [goroutineTrace, List.filter_append, hb]
    rfl
  · rw [goroutineTrace, List.filter_append, hc]
    rfl
  · intro e he
    obtain ⟨c, _, rfl⟩ := List.mem_map.mp he
    rfl

/-- An unterminated tail changes nothing. -/
theorem DecodesLike.drop_tail {α : Type} [Inhabited α] {unmarshal : Bytes → Except String α}
    {onBad : String → List (StreamResponse α) → List (StreamResponse α)}
    {L : Reader → List (StreamResponse α)} (hL : DecodesLike unmarshal onBad L)
    (ls : List Bytes) (tail : Bytes) (fin : Option String)
    (hnl : ∀ l ∈ ls, (10 : UInt8) ∉ l) (ht : (10 : UInt8) ∉ tail) :
    L ⟨joinLines ls ++ tail, fin⟩ = L ⟨joinLines ls, fin⟩ := by
  have h1 := hL.drop_ignored tail [] fin ht (by simp) ls hnl
  have h2 := hL.drop_ignored [] [] fin (by simp) (by simp) ls hnl
  rw [← h1, h2, List.append_nil]

theorem ChatStream_dispatched {M H α : Type} [Inhabited α]
    (request : RequestDescriptor → Except (CallError H) (DispatchValue M))
    (unmarshalChunk : Bytes → Except String α) (model : String)
    (messages : Option (List ChatMessage)) (params : Option ChatRequestParams) :
    (ChatStream request unmarshalChunk model messages params).dispatched
      = [⟨"POST", some (chatOptionalParams
          [("model", .string model), ("messages", sliceValue ChatMessage.toValue messages),
            ("stream", .bool true)]
          (match params with
            | none => NewChatRequestParams
            | some p => p)), "v1/chat/completions", true⟩] := by
  unfold ChatStream
  simp only
  split
  · rfl
  · split <;> rfl

theorem FIMStream_dispatched {M H α : Type} [Inhabited α]
    (request : RequestDescriptor → Except (CallError H) (DispatchValue M))
    (unmarshalChunk : Bytes → Except String α) (params : FIMRequestParams) :
    (FIMStream request unmarshalChunk (some params)).1.dispatched
      = [⟨"POST", some (fimRequestData { params with Stream := some true } true),
          "v1/fim/completions", true⟩] := by
  unfold FIMStream
  simp only
  split
  · rfl
  · split <;> rfl

theorem FIMStream_params {M H α : Type} [Inhabited α]
    (request : RequestDescriptor → Except (CallError H) (DispatchValue M))
    (unmarshalChunk : Bytes → Except String α) (params : FIMRequestParams) :
    (FIMStream request unmarshalChunk (some params)).2
      = some { params with Stream := some true } := by
  unfold FIMStream
  simp only
  split
  · rfl
  · split <;> rfl

theorem AgentCompleteStream_dispatched {M H α : Type} [Inhabited α]
    (request : RequestDescriptor → Except (CallError H) (DispatchValue M))
    (unmarshalChunk : Bytes → Except String α) (agentID : String)
    (messages : Option (List ChatMessage)) (params : Option AgentCompletionRequest) :
    (AgentCompleteStream request unmarshalChunk agentID messages params).1.dispatched
      = [⟨"POST", some (agentRequestMap
          { (match params with
              | none => AgentCompletionRequest.zero
              | some p => p) with
            AgentID := agentID, Messages := messages, Stream := some true }),
          "v1/agents/completions", true⟩] := by
  unfold AgentCompleteStream
  simp only
  split
  · rfl
  · split <;> rfl
/-! ## The error made after the retry loop -/

section MaxRetries

variable {α H : Type}

end MaxRetries


/-! ## Lemmas on the goroutines against a consumer -/

section RunLemmas

variable {α : Type} [Inhabited α]

omit [Inhabited α] in
theorem consumed_nil (deferred : List (Event α)) (receives : Nat) :
    consumed deferred receives [] = Run.exit deferred := by
  cases receives <;> rfl

/-- The run of the loop of `ChatStream` against a consumer is what the consumer
makes of the chunks the loop has to send. -/
theorem chatStreamRun_eq_consumed (unmarshal : Bytes → Except String α)
    (deferred : List (Event α)) :
    ∀ (k : Nat) (reader : Reader), reader.buf.length < k → ∀ receives : Nat,
      chatStreamRun unmarshal deferred receives reader
        = consumed deferred receives (chatStreamLoop unmarshal reader) := by
  intro k
  induction k with
  | zero => intro reader hk; omega
  | succ k ih =>
    intro reader hk receives
    rw [chatStreamRun, chatStreamLoop]
    split
    · rw [consumed_nil]
    · cases receives <;> simp [consumed, consumed_nil]
    · rename_i line reader' h
      have hlt : reader'.buf.length < k := by
        have := ReadBytes_length h
        omega
      by_cases h1 : line = [10]
      · simp only [h1, if_true]
        exact ih reader' hlt receives
      · by_cases h2 : bytesHasPrefix line dataPrefix = true
        · by_cases h3 : bytesTrimSpace (bytesTrimPrefix line dataPrefix) = doneSentinel
          · simp [h1, h2, h3, consumed_nil]
          · cases hu : unmarshal (bytesTrimSpace (bytesTrimPrefix line dataPrefix)) with
            | error e =>
              cases receives with
              | zero => simp [h1, h2, h3, hu, consumed]
              | succ n => simp [h1, h2, h3, hu, consumed, ih reader' hlt n]
            | ok v =>
              cases receives with
              | zero => simp [h1, h2, h3, hu, consumed]
              | succ n => simp [h1, h2, h3, hu, consumed, ih reader' hlt n]
        · simp only [h1, h2, if_false]
          exact ih reader' hlt receives

/-- The run of the loop of `FIMStream` against a consumer is what the consumer
makes of the chunks the loop has to send. -/
theorem fimStreamRun_eq_consumed (unmarshal : Bytes → Except String α)
    (deferred : List (Event α)) :
    ∀ (k : Nat) (reader : Reader), reader.buf.length < k → ∀ receives : Nat,
      fimStreamRun unmarshal deferred receives reader
        = consumed deferred receives (fimStreamLoop unmarshal reader) := by
  intro k
  induction k with
  | zero => intro reader hk; omega
  | succ k ih =>
    intro reader hk receives
    rw [fimStreamRun, fimStreamLoop]
    split
    · rw [consumed_nil]
    · cases receives <;> simp [consumed, consumed_nil]
    · rename_i line reader' h
      have hlt : reader'.buf.length < k := by
        have := ReadBytes_length h
        omega
      by_cases h1 : line = [10]
      · simp only [h1, if_true]
        exact ih reader' hlt receives
      · by_cases h2 : bytesHasPrefix line dataPrefix = true
        · by_cases h3 : bytesTrimSpace (bytesTrimPrefix line dataPrefix) = doneSentinel
          · simp [h1, h2, h3, consumed_nil]
          · cases hu : unmarshal (bytesTrimSpace (bytesTrimPrefix line dataPrefix)) with
            | error e =>
              cases receives with
              | zero => simp [h1, h2, h3, hu, consumed]
              | succ n => simp [h1, h2, h3, hu, consumed, consumed_nil]
            | ok v =>
              cases receives with
              | zero => simp [h1, h2, h3, hu, consumed]
              | succ n => simp [h1, h2, h3, hu, consumed, ih reader' hlt n]
        · simp only [h1, h2, if_false]
          exact ih reader' hlt receives

/-- The run of the loop of `AgentCompleteStream` against a consumer is what the
consumer makes of the chunks the loop has to send. -/
theorem agentCompleteStreamRun_eq_consumed (unmarshal : Bytes → Except String α)
    (deferred : List (Event α)) :
    ∀ (k : Nat) (reader : Reader), reader.buf.length < k → ∀ receives : Nat,
      agentCompleteStreamRun unmarshal deferred receives reader
        = consumed deferred receives (agentCompleteStreamLoop unmarshal reader) := by
  intro k
  induction k with
  | zero => intro reader hk; omega
  | succ k ih =>
    intro reader hk receives
    rw [agentCompleteStreamRun, agentCompleteStreamLoop]
    split
    · rw [consumed_nil]
    · cases receives <;> simp [consumed, consumed_nil]
    · rename_i line reader' h
      have hlt : reader'.buf.length < k := by
        have := ReadBytes_length h
        omega
      by_cases h1 : line = [10]
      · simp only [h1, if_true]
        exact ih reader' hlt receives
      · by_cases h2 : bytesHasPrefix line dataPrefix = true
        · by_cases h3 : bytesTrimSpace (bytesTrimPrefix line dataPrefix) = doneSentinel
          · simp [h1, h2, h3, consumed_nil]
          · cases hu : unmarshal (bytesTrimSpace (bytesTrimPrefix line dataPrefix)) with
            | error e =>
              cases receives with
              | zero => simp [h1, h2, h3, hu, consumed]
              | succ n => simp [h1, h2, h3, hu, consumed, consumed_nil]
            | ok v =>
              cases receives with
              | zero => simp [h1, h2, h3, hu, consumed]
              | succ n => simp [h1, h2, h3, hu, consumed, ih reader' hlt n]
        · simp only [h1, h2, if_false]
          exact ih reader' hlt receives

omit [Inhabited α] in
/-- A consumer that receives every chunk lets the goroutine return. -/
theorem consumed_of_le (deferred : List (Event α)) :
    ∀ (chunks : List (StreamResponse α)) (receives : Nat), chunks.length ≤ receives →
      consumed deferred receives chunks = ⟨chunks.map Event.send ++ deferred, .returned⟩
  | [], receives, _ => by rw [consumed_nil]; rfl
  | c :: cs, 0, h => by simp at h
  | c :: cs, n + 1, h => by
    have h' : cs.length ≤ n := by simpa using h
    simp [consumed, consumed_of_le deferred cs n h', Run.afterSend]

omit [Inhabited α] in
/-- A consumer that stops before the last chunk leaves the goroutine in the
send of the next one: no deferred call has run. -/
theorem consumed_of_lt (deferred : List (Event α)) :
    ∀ (chunks : List (StreamResponse α)) (receives : Nat), receives < chunks.length →
      consumed deferred receives chunks
        = ⟨(chunks.take receives).map Event.send, .blockedInSend⟩
  | [], receives, h => by simp at h
  | c :: cs, 0, _ => rfl
  | c :: cs, n + 1, h => by
    have h' : n < cs.length := by simpa using h
    simp [consumed, consumed_of_lt deferred cs n h', Run.afterSend]

theorem chatStreamGoroutineRun_eq (unmarshal : Bytes → Except String α) (receives : Nat)
    (respBody : Reader) :
    chatStreamGoroutineRun unmarshal receives respBody
      = consumed decoderDeferred receives (chatStreamLoop unmarshal respBody) :=
  chatStreamRun_eq_consumed unmarshal _ _ respBody (Nat.lt_succ_self _) receives

theorem fimStreamGoroutineRun_eq (unmarshal : Bytes → Except String α) (receives : Nat)
    (respBody : Reader) :
    fimStreamGoroutineRun unmarshal receives respBody
      = consumed decoderDeferred receives (fimStreamLoop unmarshal respBody) :=
  fimStreamRun_eq_consumed unmarshal _ _ respBody (Nat.lt_succ_self _) receives

theorem agentCompleteStreamGoroutineRun_eq (unmarshal : Bytes → Except String α)
    (receives : Nat) (respBody : Reader) :
    agentCompleteStreamGoroutineRun unmarshal receives respBody
      = consumed decoderDeferred receives (agentCompleteStreamLoop unmarshal respBody) :=
  agentCompleteStreamRun_eq_consumed unmarshal _ _ respBody (Nat.lt_succ_self _) receives

omit [Inhabited α] in
theorem map_send_isSend (chunks : List (StreamResponse α)) :
    ∀ e ∈ chunks.map Event.send, e.isSend = true := by
  intro e he
  obtain ⟨c, -, rfl⟩ := List.mem_map.mp he
  rfl

omit [Inhabited α] in
theorem bodyClose_not_mem_sends (chunks : List (StreamResponse α)) :
    Event.bodyClose ∉ chunks.map Event.send := by
  intro h
  have := map_send_isSend chunks _ h
  simp [Event.isSend] at this

omit [Inhabited α] in
theorem chanClose_not_mem_sends (chunks : List (StreamResponse α)) :
    Event.chanClose ∉ chunks.map Event.send := by
  intro h
  have := map_send_isSend chunks _ h
  simp [Event.isSend] at this

omit [Inhabited α] in
/-- Against a consumer that receives `receives` chunks, a goroutine with
`chunks` to send returns exactly when every chunk is received, and exactly then
its deferred calls run: the body is closed, the channel is closed. -/
theorem consumed_decoderDeferred (chunks : List (StreamResponse α)) (receives : Nat) :
    ((consumed decoderDeferred receives chunks).ending = .returned ↔ chunks.length ≤ receives)
    ∧ (Event.bodyClose ∈ (consumed decoderDeferred receives chunks).events
        ↔ chunks.length ≤ receives)
    ∧ (Event.chanClose ∈ (consumed decoderDeferred receives chunks).events
        ↔ chunks.length ≤ receives)
    ∧ ((consumed decoderDeferred receives chunks).ending = .blockedInSend
        ↔ receives < chunks.length) := by
  by_cases h : chunks.length ≤ receives
  · rw [consumed_of_le decoderDeferred chunks receives h]
    have hlt : ¬ receives < chunks.length := by omega
    simp [h, hlt, decoderDeferred]
  · have hlt : receives < chunks.length := by omega
    rw [consumed_of_lt decoderDeferred chunks receives hlt]
    have hb := bodyClose_not_mem_sends (chunks.take receives)
    have hc := chanClose_not_mem_sends (chunks.take receives)
    exact ⟨⟨fun hr => (by cases hr), fun hle => absurd hle h⟩,
      ⟨fun hm => absurd hm hb, fun hle => absurd hle h⟩,
      ⟨fun hm => absurd hm hc, fun hle => absurd hle h⟩,
      ⟨fun _ => hlt, fun _ => rfl⟩⟩

omit [Inhabited α] in
/-- Against a consumer that receives every chunk, the goroutine returns and
its trace is the trace of `goroutineTrace`. -/
theorem consumed_closesExactlyOnce (chunks : List (StreamResponse α)) (receives : Nat)
    (h : chunks.length ≤ receives) :
    (consumed decoderDeferred receives chunks).ending = .returned
    ∧ (consumed decoderDeferred receives chunks).events = goroutineTrace chunks
    ∧ closesExactlyOnce (consumed decoderDeferred receives chunks).events := by
  rw [consumed_of_le decoderDeferred chunks receives h]
  exact ⟨rfl, rfl, goroutineTrace_closesExactlyOnce chunks⟩

omit [Inhabited α] in
/-- Whatever the consumer does, the trace is a run of sends, followed or not by
the close of the body and the close of the channel, in this order. -/
theorem consumed_shape (chunks : List (StreamResponse α)) (receives : Nat) :
    ∃ sends : List (Event α), (∀ e ∈ sends, e.isSend = true)
      ∧ ((consumed decoderDeferred receives chunks).events = sends
        ∨ (consumed decoderDeferred receives chunks).events
            = sends ++ [Event.bodyClose, Event.chanClose]) := by
  by_cases h : chunks.length ≤ receives
  · rw [consumed_of_le decoderDeferred chunks receives h]
    exact ⟨chunks.map Event.send, map_send_isSend chunks, Or.inr rfl⟩
  · have hlt : receives < chunks.length := by omega
    rw [consumed_of_lt decoderDeferred chunks receives hlt]
    exact ⟨(chunks.take receives).map Event.send, map_send_isSend _, Or.inl rfl⟩

/-- The chunks of the spec's streaming example. -/
theorem chatStreamLoop_sampleBody :
    chatStreamLoop sampleUnmarshal ⟨sampleBody, none⟩ = [⟨1, none⟩, ⟨2, none⟩] := by
  have hL := chatStreamLoop_decodes sampleUnmarshal
  have hbody : sampleBody = utf8 "data: \x7b\"a\":1\x7d" ++ 10 :: ([] ++ 10 ::
      (utf8 "data: \x7b\"a\":2\x7d" ++ 10 :: (utf8 "data: [DONE]" ++ 10 :: []))) := by decide
  rw [hbody, hL.line _ _ _ (by decide), hL.line _ _ _ (by decide), hL.line _ _ _ (by decide),
    hL.line _ _ _ (by decide)]
  rfl

theorem fimStreamLoop_sampleBody :
    fimStreamLoop sampleUnmarshal ⟨sampleBody, none⟩ = [⟨1, none⟩, ⟨2, none⟩] := by
  have hL := fimStreamLoop_decodes sampleUnmarshal
  have hbody : sampleBody = utf8 "data: \x7b\"a\":1\x7d" ++ 10 :: ([] ++ 10 ::
      (utf8 "data: \x7b\"a\":2\x7d" ++ 10 :: (utf8 "data: [DONE]" ++ 10 :: []))) := by decide
  rw [hbody, hL.line _ _ _ (by decide), hL.line _ _ _ (by decide), hL.line _ _ _ (by decide),
    hL.line _ _ _ (by decide)]
  rfl

theorem agentCompleteStreamLoop_sampleBody :
    agentCompleteStreamLoop sampleUnmarshal ⟨sampleBody, none⟩ = [⟨1, none⟩, ⟨2, none⟩] := by
  have hL := agentCompleteStreamLoop_decodes sampleUnmarshal
  have hbody : sampleBody = utf8 "data: \x7b\"a\":1\x7d" ++ 10 :: ([] ++ 10 ::
      (utf8 "data: \x7b\"a\":2\x7d" ++ 10 :: (utf8 "data: [DONE]" ++ 10 :: []))) := by decide
  rw [hbody, hL.line _ _ _ (by decide), hL.line _ _ _ (by decide), hL.line _ _ _ (by decide),
    hL.line _ _ _ (by decide)]
  rfl

end RunLemmas

section RunSamples

/-- A run is given by its events and its ending. -/
theorem Run.eq_of {α : Type} (run : Run α) (events : List (Event α)) (ending : RunEnd)
    (hevents : run.events = events) (hending : run.ending = ending) : run = ⟨events, ending⟩ := by
  cases run
  simp only at hevents hending
  rw [hevents, hending]

/-- One valid line, then `io.EOF`. -/
theorem chatStreamLoop_oneLine :
    chatStreamLoop sampleUnmarshal ⟨utf8 "data: \x7b\"a\":1\x7d\n", none⟩ = [⟨1, none⟩] := by
  have hL := chatStreamLoop_decodes sampleUnmarshal
  have hbody : utf8 "data: \x7b\"a\":1\x7d\n" = utf8 "data: \x7b\"a\":1\x7d" ++ 10 :: [] := by
    decide
  rw [hbody, hL.line _ _ _ (by decide), hL.eof [] (by simp)]
  rfl

/-- One valid line, then a read error. -/
theorem agentCompleteStreamLoop_oneLine_reset :
    agentCompleteStreamLoop sampleUnmarshal
        ⟨utf8 "data: \x7b\"a\":1\x7d\n", some "connection reset"⟩
      = [⟨1, none⟩, ⟨0, some "error reading stream response: connection reset"⟩] := by
  have hL := agentCompleteStreamLoop_decodes sampleUnmarshal
  have hbody : utf8 "data: \x7b\"a\":1\x7d\n" = utf8 "data: \x7b\"a\":1\x7d" ++ 10 :: [] := by
    decide
  rw [hbody, hL.line _ _ _ (by decide), hL.readErr [] _ (by simp)]
  rfl

/-- A malformed line first. -/
theorem fimStreamLoop_malformedBody :
    fimStreamLoop sampleUnmarshal ⟨malformedBody, none⟩
      = [⟨0, some "error unmarshaling stream response: invalid character"⟩] := by
  have hL := fimStreamLoop_decodes sampleUnmarshal
  have hbody : malformedBody
      = utf8 "data: \x7bmalformed" ++ 10 :: (utf8 "data: \x7b\"a\":2\x7d" ++ 10 :: []) := by
    decide
  rw [hbody, hL.line _ _ _ (by decide)]
  rfl

end RunSamples

/-! ## Lemmas on the request body across attempts -/

section HttpLemmas

variable {α H : Type}

/-- After the first attempt, answered or not, the body buffer of the request
is empty. -/
theorem httpStateBefore_after_body (server : Nat → Bytes → ServerReply H) (quotedURL : String)
    (b : UInt8) (payload : Bytes) (hbusy : ∀ n body, (server n body).leavesIdle = false) :
    ∀ n : Nat, httpStateBefore server quotedURL (httpNewRequest (b :: payload)) (n + 1)
      = ⟨⟨[], (b :: payload).length, b :: payload⟩, false, [b :: payload]⟩
  | 0 => by
    simp [httpStateBefore, httpClientDo, httpNewRequest, writeBody, hbusy]
  | n + 1 => by
    rw [httpStateBefore, httpStateBefore_after_body server quotedURL b payload hbusy n]
    simp [httpClientDo, writeBody]

/-- When no answer leaves an idle connection behind, every attempt after the
first fails in the write of the request: nothing is transmitted. -/
theorem httpClientDoAt_after_body (server : Nat → Bytes → ServerReply H) (quotedURL : String)
    (b : UInt8) (payload : Bytes) (hbusy : ∀ n body, (server n body).leavesIdle = false)
    (n : Nat) :
    httpClientDoAt server quotedURL (httpNewRequest (b :: payload)) (n + 1)
      = .error ("Post " ++ quotedURL ++ ": "
          ++ contentLengthError (b :: payload).length 0) := by
  rw [httpClientDoAt, httpStateBefore_after_body server quotedURL b payload hbusy n]
  simp [httpClientDo, writeBody]

/-- Retry count `N + 1`, a payload that is not empty, and a server whose
answers carry a retryable status and leave no idle connection behind (each has
a body, or the server closes the connection): `UploadFile` returns a connection
error after `N + 2` calls of `client.Do`, and the server has received one
request. -/
theorem uploadFileOverHttp_after_body (N : Nat) (server : Nat → Bytes → ServerReply H)
    (quotedURL : String) (b : UInt8) (payload : Bytes) (unmarshal : Bytes → Except String α)
    (hbusy : ∀ n body, (server n body).leavesIdle = false)
    (hstatus : ∀ n body, retryStatusCodes (server n body).resp.StatusCode = true) :
    uploadFileOverHttp ((N + 1 : Nat) : Int) server quotedURL (b :: payload) unmarshal
      = ⟨none, some (.connection ("Post " ++ quotedURL ++ ": "
          ++ contentLengthError (b :: payload).length 0)), N + 2⟩
    ∧ serverReceived server quotedURL (b :: payload) (N + 2) = [b :: payload] := by
  constructor
  · have htrans : ∀ i, i < N + 1 →
        isTransient (httpClientDoAt server quotedURL (httpNewRequest (b :: payload)) (0 + i))
          = true := by
      intro i _
      cases i with
      | zero =>
        simp [httpClientDoAt, httpStateBefore, httpClientDo, httpNewRequest, writeBody,
          isTransient, hstatus]
      | succ i =>
        rw [Nat.zero_add, httpClientDoAt_after_body server quotedURL b payload hbusy i]
        rfl
    have h := uploadFileRetryLoop_transients ((N + 1 : Nat) : Int)
      (httpClientDoAt server quotedURL (httpNewRequest (b :: payload))) unmarshal (N + 1) 0
      none 0 (by push_cast; omega) htrans
    simp only [Nat.zero_add] at h
    rw [uploadFileOverHttp, uploadFileRetry, h,
      uploadFileRetryLoop_lastError ((N + 1 : Nat) : Int) _ unmarshal (N + 1) none (N + 1) _ rfl
        (httpClientDoAt_after_body server quotedURL b payload hbusy N)]
  · rw [serverReceived, httpStateBefore_after_body server quotedURL b payload hbusy (N + 1)]

end HttpLemmas


/-! ## The streaming decoders -/

section StreamClaims

variable {α : Type} [Inhabited α]

/-- C1: for a body of newline-terminated lines `ls` whose `data: ` lines before
the first `data: [DONE]` line all decode (to the values `vs`, in order), the
goroutines of `ChatStream`, `FIMStream` and `AgentCompleteStream` send exactly
one chunk per such line, in the order of the lines, each with a nil `Error` and
the decoded value, then close the body and the channel. -/
theorem stream_one_chunk_per_data_line (unmarshal : Bytes → Except String α)
    (ls : List Bytes) (vs : List α)
    (hnl : ∀ l ∈ ls, (10 : UInt8) ∉ l)
    (hvalid : (dataLines (linesBeforeDone ls)).map (fun l => unmarshal (payloadOf (l ++ [10])))
      = vs.map Except.ok) :
    chatStreamGoroutine unmarshal ⟨joinLines ls, none⟩
        = vs.map (fun v => Event.send ⟨v, none⟩) ++ [Event.bodyClose, Event.chanClose]
    ∧ fimStreamGoroutine unmarshal ⟨joinLines ls, none⟩
        = vs.map (fun v => Event.send ⟨v, none⟩) ++ [Event.bodyClose, Event.chanClose]
    ∧ agentCompleteStreamGoroutine unmarshal ⟨joinLines ls, none⟩
        = vs.map (fun v => Event.send ⟨v, none⟩) ++ [Event.bodyClose, Event.chanClose] := by
  refine ⟨?_, ?_, ?_⟩
  · simp [chatStreamGoroutine, goroutineTrace,
      (chatStreamLoop_decodes unmarshal).before_done ls vs hnl hvalid]
  · simp [fimStreamGoroutine, goroutineTrace,
      (fimStreamLoop_decodes unmarshal).before_done ls vs hnl hvalid]
  · simp [agentCompleteStreamGoroutine, goroutineTrace,
      (agentCompleteStreamLoop_decodes unmarshal).before_done ls vs hnl hvalid]

/-- C3: when the decoder of `FIMStream` or of `AgentCompleteStream` reaches a
`data: ` line `l` whose payload does not decode (the lines `ls` before it hold
no `[DONE]` line and their `data: ` lines decode to `vs`), it sends the chunks
of the earlier lines, exactly one error chunk for `l`, and closes: nothing is
sent for the bytes `rest` after the line, whatever they are and however the
stream ends. -/
theorem fim_agent_stop_at_malformed (unmarshal : Bytes → Except String α)
    (ls : List Bytes) (vs : List α) (l rest : Bytes) (fin : Option String) (e : String)
    (hnl : ∀ l' ∈ ls, (10 : UInt8) ∉ l') (hl : (10 : UInt8) ∉ l)
    (hnd : ∀ l' ∈ ls, isDoneLine (l' ++ [10]) = false)
    (hvalid : (dataLines ls).map (fun l' => unmarshal (payloadOf (l' ++ [10])))
      = vs.map Except.ok)
    (hdata : isDataLine (l ++ [10]) = true) (hndl : isDoneLine (l ++ [10]) = false)
    (hbad : unmarshal (payloadOf (l ++ [10])) = .error e) :
    fimStreamGoroutine unmarshal ⟨joinLines ls ++ (l ++ 10 :: rest), fin⟩
        = vs.map (fun v => Event.send ⟨v, none⟩)
          ++ [Event.send ⟨default, some ("error unmarshaling stream response: " ++ e)⟩,
              Event.bodyClose, Event.chanClose]
    ∧ agentCompleteStreamGoroutine unmarshal ⟨joinLines ls ++ (l ++ 10 :: rest), fin⟩
        = vs.map (fun v => Event.send ⟨v, none⟩)
          ++ [Event.send ⟨default, some ("error unmarshaling stream response: " ++ e)⟩,
              Event.bodyClose, Event.chanClose] := by
  have hc : classifyLine unmarshal (l ++ [10]) = .malformed e := by
    rw [classifyLine_data unmarshal hdata hndl, hbad]
  constructor
  · have hL := fimStreamLoop_decodes unmarshal
    simp [fimStreamGoroutine, goroutineTrace, hL.valid_run _ fin ls vs hnl hnd hvalid,
      hL.line l rest fin hl, hc, fimOnBad]
  · have hL := agentCompleteStreamLoop_decodes unmarshal
    simp [agentCompleteStreamGoroutine, goroutineTrace,
      hL.valid_run _ fin ls vs hnl hnd hvalid, hL.line l rest fin hl, hc, fimOnBad]

/-- C4: a body of newline-terminated lines `ls` with no `[DONE]` line, whose
`data: ` lines all decode (to `vs`), ending in `io.EOF`: each of the three
goroutines sends every decoded chunk in order, sends no error chunk, and closes
the body and the channel. -/
theorem eof_without_done_is_success (unmarshal : Bytes → Except String α)
    (ls : List Bytes) (vs : List α)
    (hnl : ∀ l ∈ ls, (10 : UInt8) ∉ l)
    (hnd : ∀ l ∈ ls, isDoneLine (l ++ [10]) = false)
    (hvalid : (dataLines ls).map (fun l => unmarshal (payloadOf (l ++ [10])))
      = vs.map Except.ok) :
    chatStreamGoroutine unmarshal ⟨joinLines ls, none⟩
        = vs.map (fun v => Event.send ⟨v, none⟩) ++ [Event.bodyClose, Event.chanClose]
    ∧ fimStreamGoroutine unmarshal ⟨joinLines ls, none⟩
        = vs.map (fun v => Event.send ⟨v, none⟩) ++ [Event.bodyClose, Event.chanClose]
    ∧ agentCompleteStreamGoroutine unmarshal ⟨joinLines ls, none⟩
        = vs.map (fun v => Event.send ⟨v, none⟩) ++ [Event.bodyClose, Event.chanClose] := by
  refine ⟨?_, ?_, ?_⟩
  · have hL := chatStreamLoop_decodes unmarshal
    have h := hL.valid_run [] none ls vs hnl hnd hvalid
    rw [List.append_nil, hL.eof [] (by simp), List.append_nil] at h
    simp [chatStreamGoroutine, goroutineTrace, h]
  · have hL := fimStreamLoop_decodes unmarshal
    have h := hL.valid_run [] none ls vs hnl hnd hvalid
    rw [List.append_nil, hL.eof [] (by simp), List.append_nil] at h
    simp [fimStreamGoroutine, goroutineTrace, h]
  · have hL := agentCompleteStreamLoop_decodes unmarshal
    have h := hL.valid_run [] none ls vs hnl hnd hvalid
    rw [List.append_nil, hL.eof [] (by simp), List.append_nil] at h
    simp [agentCompleteStreamGoroutine, goroutineTrace, h]

/-- C5: a line `d` that begins with `data: ` and whose content, the prefix and
the surrounding white space stripped, is `[DONE]`, ends the stream: each of the
three goroutines does on the body `ls`, `d`, `rest` (any bytes, any end of
stream) exactly what it does on the body cut just before `d` and ending in
`io.EOF`; no chunk is sent for `d` or for anything after it. -/
theorem done_line_ends_stream (unmarshal : Bytes → Except String α)
    (ls : List Bytes) (d rest : Bytes) (fin : Option String)
    (hnl : ∀ l ∈ ls, (10 : UInt8) ∉ l) (hd : (10 : UInt8) ∉ d)
    (hdone : isDoneLine (d ++ [10]) = true) :
    chatStreamGoroutine unmarshal ⟨joinLines ls ++ (d ++ 10 :: rest), fin⟩
        = chatStreamGoroutine unmarshal ⟨joinLines ls, none⟩
    ∧ fimStreamGoroutine unmarshal ⟨joinLines ls ++ (d ++ 10 :: rest), fin⟩
        = fimStreamGoroutine unmarshal ⟨joinLines ls, none⟩
    ∧ agentCompleteStreamGoroutine unmarshal ⟨joinLines ls ++ (d ++ 10 :: rest), fin⟩
        = agentCompleteStreamGoroutine unmarshal ⟨joinLines ls, none⟩ := by
  refine ⟨?_, ?_, ?_⟩
  · rw [chatStreamGoroutine, chatStreamGoroutine,
      (chatStreamLoop_decodes unmarshal).done_cut d rest fin hd hdone ls hnl]
  · rw [fimStreamGoroutine, fimStreamGoroutine,
      (fimStreamLoop_decodes unmarshal).done_cut d rest fin hd hdone ls hnl]
  · rw [agentCompleteStreamGoroutine, agentCompleteStreamGoroutine,
      (agentCompleteStreamLoop_decodes unmarshal).done_cut d rest fin hd hdone ls hnl]

/-- C6: for a body made of the newline-terminated lines `ls` and an unterminated
tail, deleting the lines that do not begin with `data: ` (the blank lines among
them), and keeping or deleting the tail, leaves what each of the three
goroutines does unchanged, however the stream ends. -/
theorem non_data_lines_are_ignored (unmarshal : Bytes → Except String α)
    (ls : List Bytes) (tail tail' : Bytes) (fin : Option String)
    (hnl : ∀ l ∈ ls, (10 : UInt8) ∉ l) (ht : (10 : UInt8) ∉ tail)
    (ht' : tail' = tail ∨ tail' = []) :
    chatStreamGoroutine unmarshal ⟨joinLines (dataLines ls) ++ tail', fin⟩
        = chatStreamGoroutine unmarshal ⟨joinLines ls ++ tail, fin⟩
    ∧ fimStreamGoroutine unmarshal ⟨joinLines (dataLines ls) ++ tail', fin⟩
        = fimStreamGoroutine unmarshal ⟨joinLines ls ++ tail, fin⟩
    ∧ agentCompleteStreamGoroutine unmarshal ⟨joinLines (dataLines ls) ++ tail', fin⟩
        = agentCompleteStreamGoroutine unmarshal ⟨joinLines ls ++ tail, fin⟩ := by
  have ht2 : (10 : UInt8) ∉ tail' := by
    rcases ht' with h | h <;> rw [h]
    · exact ht
    · simp
  refine ⟨?_, ?_, ?_⟩
  · rw [chatStreamGoroutine, chatStreamGoroutine,
      (chatStreamLoop_decodes unmarshal).drop_ignored tail tail' fin ht ht2 ls hnl]
  · rw [fimStreamGoroutine, fimStreamGoroutine,
      (fimStreamLoop_decodes unmarshal).drop_ignored tail tail' fin ht ht2 ls hnl]
  · rw [agentCompleteStreamGoroutine, agentCompleteStreamGoroutine,
      (agentCompleteStreamLoop_decodes unmarshal).drop_ignored tail tail' fin ht ht2 ls hnl]

end StreamClaims

/-- C1, the spec's example: the lines `data: {"a":1}`, blank, `data: {"a":2}`,
`data: [DONE]` yield exactly two chunks, in that order. -/
theorem stream_one_chunk_per_data_line_witness :
    (∀ l ∈ sampleLines, (10 : UInt8) ∉ l)
    ∧ (dataLines (linesBeforeDone sampleLines)).map
        (fun l => sampleUnmarshal (payloadOf (l ++ [10]))) = [1, 2].map Except.ok
    ∧ chatStreamGoroutine sampleUnmarshal ⟨sampleBody, none⟩
        = [Event.send ⟨1, none⟩, Event.send ⟨2, none⟩, Event.bodyClose, Event.chanClose]
    ∧ fimStreamGoroutine sampleUnmarshal ⟨sampleBody, none⟩
        = [Event.send ⟨1, none⟩, Event.send ⟨2, none⟩, Event.bodyClose, Event.chanClose]
    ∧ agentCompleteStreamGoroutine sampleUnmarshal ⟨sampleBody, none⟩
        = [Event.send ⟨1, none⟩, Event.send ⟨2, none⟩, Event.bodyClose, Event.chanClose] :=
  ⟨by decide, rfl,
    stream_one_chunk_per_data_line sampleUnmarshal sampleLines [1, 2] (by decide) rfl⟩

/-- C2: on the body `data: {malformed`, `data: {"a":2}` the goroutine of
`ChatStream` sends an error chunk for the first line and then goes on: the
chunk of the second line is sent after the error chunk, before the channel is
closed. -/
theorem chatStream_goes_on_after_malformed :
    chatStreamGoroutine sampleUnmarshal ⟨malformedBody, none⟩
      = [Event.send ⟨0, some "error decoding stream response: invalid character"⟩,
         Event.send ⟨2, none⟩, Event.bodyClose, Event.chanClose] := by
  have hL := chatStreamLoop_decodes sampleUnmarshal
  have hbody : malformedBody
      = utf8 "data: \x7bmalformed" ++ 10 :: (utf8 "data: \x7b\"a\":2\x7d" ++ 10 :: []) := by
    decide
  rw [chatStreamGoroutine, hbody, hL.line _ _ _ (by decide), hL.line _ _ _ (by decide),
    hL.eof [] (by simp)]
  rfl

/-- C3 at an explicit body: a valid line, a malformed line, a valid line.  The
goroutines of `FIMStream` and `AgentCompleteStream` send the first chunk and
one error chunk, and nothing for the third line. -/
theorem fim_agent_stop_at_malformed_witness :
    (∀ l' ∈ [utf8 "data: \x7b\"a\":1\x7d"], (10 : UInt8) ∉ l')
    ∧ (10 : UInt8) ∉ utf8 "data: \x7bmalformed"
    ∧ isDataLine (utf8 "data: \x7bmalformed" ++ [10]) = true
    ∧ sampleUnmarshal (payloadOf (utf8 "data: \x7bmalformed" ++ [10]))
        = .error "invalid character"
    ∧ fimStreamGoroutine sampleUnmarshal
        ⟨utf8 "data: \x7b\"a\":1\x7d\ndata: \x7bmalformed\ndata: \x7b\"a\":2\x7d\n", none⟩
        = [Event.send ⟨1, none⟩,
           Event.send ⟨0, some "error unmarshaling stream response: invalid character"⟩,
           Event.bodyClose, Event.chanClose]
    ∧ agentCompleteStreamGoroutine sampleUnmarshal
        ⟨utf8 "data: \x7b\"a\":1\x7d\ndata: \x7bmalformed\ndata: \x7b\"a\":2\x7d\n", none⟩
        = [Event.send ⟨1, none⟩,
           Event.send ⟨0, some "error unmarshaling stream response: invalid character"⟩,
           Event.bodyClose, Event.chanClose] :=
  ⟨by decide, by decide, by decide, rfl,
    fim_agent_stop_at_malformed sampleUnmarshal [utf8 "data: \x7b\"a\":1\x7d"] [1]
      (utf8 "data: \x7bmalformed") (utf8 "data: \x7b\"a\":2\x7d\n") none "invalid character"
      (by decide) (by decide) (by decide) rfl (by decide) (by decide) rfl⟩

/-- C4 at an explicit body: two valid `data: ` lines with a blank line and a
comment line between them, then `io.EOF` with no `[DONE]` line. -/
theorem eof_without_done_is_success_witness :
    (∀ l ∈ [utf8 "data: \x7b\"a\":1\x7d", [], utf8 ": keep-alive", utf8 "data: \x7b\"a\":2\x7d"],
        (10 : UInt8) ∉ l ∧ isDoneLine (l ++ [10]) = false)
    ∧ chatStreamGoroutine sampleUnmarshal
        ⟨utf8 "data: \x7b\"a\":1\x7d\n\n: keep-alive\ndata: \x7b\"a\":2\x7d\n", none⟩
        = [Event.send ⟨1, none⟩, Event.send ⟨2, none⟩, Event.bodyClose, Event.chanClose]
    ∧ fimStreamGoroutine sampleUnmarshal
        ⟨utf8 "data: \x7b\"a\":1\x7d\n\n: keep-alive\ndata: \x7b\"a\":2\x7d\n", none⟩
        = [Event.send ⟨1, none⟩, Event.send ⟨2, none⟩, Event.bodyClose, Event.chanClose]
    ∧ agentCompleteStreamGoroutine sampleUnmarshal
        ⟨utf8 "data: \x7b\"a\":1\x7d\n\n: keep-alive\ndata: \x7b\"a\":2\x7d\n", none⟩
        = [Event.send ⟨1, none⟩, Event.send ⟨2, none⟩, Event.bodyClose, Event.chanClose] :=
  ⟨by decide,
    eof_without_done_is_success sampleUnmarshal
      [utf8 "data: \x7b\"a\":1\x7d", [], utf8 ": keep-alive", utf8 "data: \x7b\"a\":2\x7d"] [1, 2]
      (by decide) (by decide) rfl⟩

/-- C5 at an explicit body: a valid line, the line `data: [DONE]` ended by
`\r\n`, a further valid line, and a read error at the end.  Each goroutine does
what it does on the first line alone. -/
theorem done_line_ends_stream_witness :
    (10 : UInt8) ∉ utf8 "data: [DONE]\r"
    ∧ isDoneLine (utf8 "data: [DONE]\r" ++ [10]) = true
    ∧ chatStreamGoroutine sampleUnmarshal
        ⟨utf8 "data: \x7b\"a\":1\x7d\ndata: [DONE]\r\ndata: \x7b\"a\":2\x7d\n",
          some "connection reset"⟩
        = chatStreamGoroutine sampleUnmarshal ⟨utf8 "data: \x7b\"a\":1\x7d\n", none⟩
    ∧ fimStreamGoroutine sampleUnmarshal
        ⟨utf8 "data: \x7b\"a\":1\x7d\ndata: [DONE]\r\ndata: \x7b\"a\":2\x7d\n",
          some "connection reset"⟩
        = fimStreamGoroutine sampleUnmarshal ⟨utf8 "data: \x7b\"a\":1\x7d\n", none⟩
    ∧ agentCompleteStreamGoroutine sampleUnmarshal
        ⟨utf8 "data: \x7b\"a\":1\x7d\ndata: [DONE]\r\ndata: \x7b\"a\":2\x7d\n",
          some "connection reset"⟩
        = agentCompleteStreamGoroutine sampleUnmarshal ⟨utf8 "data: \x7b\"a\":1\x7d\n", none⟩ :=
  ⟨by decide, by decide,
    done_line_ends_stream sampleUnmarshal [utf8 "data: \x7b\"a\":1\x7d"]
      (utf8 "data: [DONE]\r") (utf8 "data: \x7b\"a\":2\x7d\n") (some "connection reset")
      (by decide) (by decide) (by decide)⟩

/-- C6 at an explicit body: a blank line, an `event:` line and an unterminated
tail are deleted. -/
theorem non_data_lines_are_ignored_witness :
    (∀ l ∈ [utf8 "data: \x7b\"a\":1\x7d", [], utf8 "event: ping", utf8 "data: \x7b\"a\":2\x7d"],
        (10 : UInt8) ∉ l)
    ∧ (10 : UInt8) ∉ utf8 "retry: 5"
    ∧ chatStreamGoroutine sampleUnmarshal
        ⟨utf8 "data: \x7b\"a\":1\x7d\ndata: \x7b\"a\":2\x7d\n", none⟩
        = chatStreamGoroutine sampleUnmarshal
          ⟨utf8 "data: \x7b\"a\":1\x7d\n\nevent: ping\ndata: \x7b\"a\":2\x7d\nretry: 5", none⟩
    ∧ fimStreamGoroutine sampleUnmarshal
        ⟨utf8 "data: \x7b\"a\":1\x7d\ndata: \x7b\"a\":2\x7d\n", none⟩
        = fimStreamGoroutine sampleUnmarshal
          ⟨utf8 "data: \x7b\"a\":1\x7d\n\nevent: ping\ndata: \x7b\"a\":2\x7d\nretry: 5", none⟩
    ∧ agentCompleteStreamGoroutine sampleUnmarshal
        ⟨utf8 "data: \x7b\"a\":1\x7d\ndata: \x7b\"a\":2\x7d\n", none⟩
        = agentCompleteStreamGoroutine sampleUnmarshal
          ⟨utf8 "data: \x7b\"a\":1\x7d\n\nevent: ping\ndata: \x7b\"a\":2\x7d\nretry: 5", none⟩ :=
  ⟨by decide, by decide,
    non_data_lines_are_ignored sampleUnmarshal
      [utf8 "data: \x7b\"a\":1\x7d", [], utf8 "event: ping", utf8 "data: \x7b\"a\":2\x7d"]
      (utf8 "retry: 5") [] none (by decide) (by decide) (Or.inr rfl)⟩

/-- C7: on the body `data: oops`, `data: {"a":1}`, `data: {"a":2}` the loop of
`ChatStream` sends three chunks, an error chunk and the two decoded ones, and
the loop of `AgentCompleteStream` sends one, the error chunk: the two loops do
not deliver the same sequence. -/
theorem chat_and_agent_loops_differ :
    chatStreamLoop sampleUnmarshal
        ⟨utf8 "data: oops\ndata: \x7b\"a\":1\x7d\ndata: \x7b\"a\":2\x7d\n", none⟩
      = [⟨0, some "error decoding stream response: invalid character"⟩, ⟨1, none⟩, ⟨2, none⟩]
    ∧ agentCompleteStreamLoop sampleUnmarshal
        ⟨utf8 "data: oops\ndata: \x7b\"a\":1\x7d\ndata: \x7b\"a\":2\x7d\n", none⟩
      = [⟨0, some "error unmarshaling stream response: invalid character"⟩] := by
  have hbody : utf8 "data: oops\ndata: \x7b\"a\":1\x7d\ndata: \x7b\"a\":2\x7d\n"
      = utf8 "data: oops" ++ 10 :: (utf8 "data: \x7b\"a\":1\x7d" ++ 10 ::
          (utf8 "data: \x7b\"a\":2\x7d" ++ 10 :: [])) := by decide
  constructor
  · have hL := chatStreamLoop_decodes sampleUnmarshal
    rw [hbody, hL.line _ _ _ (by decide), hL.line _ _ _ (by decide),
      hL.line _ _ _ (by decide), hL.eof [] (by simp)]
    rfl
  · have hL := agentCompleteStreamLoop_decodes sampleUnmarshal
    rw [hbody, hL.line _ _ _ (by decide)]
    rfl

/-! ## The retry loops -/

section RetryClaims

variable {α H : Type}

/-- C8: with a retry count `N` (`N ≥ 1` in particular) and a status `s` among
429, 500, 502, 503, 504, when the transport answers every request with status
`s`, the retry loops of `UploadFile` and of `Transcribe` send exactly `N + 1`
requests. -/
theorem retryable_status_makes_all_attempts (N : Nat) (s : Int)
    (clientDo : Nat → Except String (Response H)) (unmarshal : Bytes → Except String α)
    (hs : s ∈ [(429 : Int), 500, 502, 503, 504])
    (hall : ∀ n, ∃ resp, clientDo n = .ok resp ∧ resp.StatusCode = s) :
    (uploadFileRetry (N : Int) clientDo unmarshal).requests = N + 1
    ∧ (transcribeRetry (N : Int) clientDo unmarshal).requests = N + 1 := by
  have hup : (uploadFileRetry (N : Int) clientDo unmarshal).requests = N + 1 := by
    obtain ⟨resp, hresp, _⟩ := hall N
    have hrun := uploadFileRetryLoop_retries (N : Int) clientDo unmarshal N 0 none 0
      (by push_cast; omega)
      (fun i _ => by
        obtain ⟨r, hr, hrs⟩ := hall (0 + i)
        exact ⟨r, hr, by rw [hrs]; exact retryStatusCodes_of_mem hs⟩)
    simp only [Nat.zero_add] at hrun
    rw [uploadFileRetry, hrun,
      uploadFileRetryLoop_final (N : Int) clientDo unmarshal N none N resp (le_refl _) hresp
        (Or.inr rfl),
      finalResult_requests]
  exact ⟨hup, by rw [transcribeRetry_eq]; exact hup⟩

/-- C9: with a retry count `N`, `1 ≤ k ≤ N + 1` and a retryable status `s`,
when the first `k - 1` requests are answered with status `s` and request `k`
with a status below 400 whose body reads and decodes to `v`, the retry loops of
`UploadFile` and of `Transcribe` return `v` (decoded from the body of
response `k`) with a nil error, after exactly `k` requests. -/
theorem success_after_retries (N k : Nat) (s : Int)
    (clientDo : Nat → Except String (Response H)) (unmarshal : Bytes → Except String α)
    (resp : Response H) (respBody : Bytes) (v : α)
    (hk1 : 1 ≤ k) (hk : k ≤ N + 1)
    (hs : s ∈ [(429 : Int), 500, 502, 503, 504])
    (hfirst : ∀ i, i + 1 < k → ∃ r, clientDo i = .ok r ∧ r.StatusCode = s)
    (hlast : clientDo (k - 1) = .ok resp) (hstatus : resp.StatusCode < 400)
    (hbody : resp.Body = .ok respBody) (hjson : unmarshal respBody = .ok v) :
    uploadFileRetry (N : Int) clientDo unmarshal = ⟨some v, none, k⟩
    ∧ transcribeRetry (N : Int) clientDo unmarshal = ⟨some v, none, k⟩ := by
  have hup : uploadFileRetry (N : Int) clientDo unmarshal = ⟨some v, none, k⟩ := by
    have hrun := uploadFileRetryLoop_retries (N : Int) clientDo unmarshal (k - 1) 0 none 0
      (by push_cast; omega)
      (fun i hi => by
        obtain ⟨r, hr, hrs⟩ := hfirst i (by omega)
        exact ⟨r, by rw [Nat.zero_add]; exact hr, by rw [hrs]; exact retryStatusCodes_of_mem hs⟩)
    simp only [Nat.zero_add] at hrun
    have hnot : retryStatusCodes resp.StatusCode = false :=
      retryStatusCodes_of_not_mem (fun hmem => by
        simp only [List.mem_cons, List.mem_singleton, List.not_mem_nil, or_false] at hmem
        omega)
    have h400 : ¬ (resp.StatusCode ≥ 400) := by omega
    rw [uploadFileRetry, hrun,
      uploadFileRetryLoop_final (N : Int) clientDo unmarshal (k - 1) none (k - 1) resp
        (by omega) hlast (Or.inl hnot)]
    simp only [finalResult, hbody, h400, hjson, if_false]
    congr 1
    omega
  exact ⟨hup, by rw [transcribeRetry_eq]; exact hup⟩

/-- C10: for every retry count `N` and every first response whose status is not
one of 429, 500, 502, 503, 504, the retry loops of `UploadFile` and of
`Transcribe` send exactly one request, and what they return is computed from
that response. -/
theorem non_retryable_status_single_attempt (N : Nat)
    (clientDo : Nat → Except String (Response H)) (unmarshal : Bytes → Except String α)
    (resp : Response H) (hresp : clientDo 0 = .ok resp)
    (hs : resp.StatusCode ∉ [(429 : Int), 500, 502, 503, 504]) :
    (uploadFileRetry (N : Int) clientDo unmarshal).requests = 1
    ∧ (transcribeRetry (N : Int) clientDo unmarshal).requests = 1
    ∧ uploadFileRetry (N : Int) clientDo unmarshal = finalResult unmarshal resp 1
    ∧ transcribeRetry (N : Int) clientDo unmarshal = finalResult unmarshal resp 1 := by
  have hup : uploadFileRetry (N : Int) clientDo unmarshal = finalResult unmarshal resp 1 := by
    rw [uploadFileRetry,
      uploadFileRetryLoop_final (N : Int) clientDo unmarshal 0 none 0 resp
        (by push_cast; omega) hresp (Or.inl (retryStatusCodes_of_not_mem hs))]
  refine ⟨?_, ?_, hup, ?_⟩
  · rw [hup, finalResult_requests]
  · rw [transcribeRetry_eq, hup, finalResult_requests]
  · rw [transcribeRetry_eq, hup]

end RetryClaims

/-- C8 at an explicit run: retry count 3, every request answered with 503;
four requests are sent. -/
theorem retryable_status_makes_all_attempts_witness :
    (503 : Int) ∈ [(429 : Int), 500, 502, 503, 504]
    ∧ (uploadFileRetry (3 : Nat)
        (fun _ => (.ok ⟨503, (), .ok []⟩ : Except String (Response Unit)))
        sampleUnmarshal).requests = 4
    ∧ (transcribeRetry (3 : Nat)
        (fun _ => (.ok ⟨503, (), .ok []⟩ : Except String (Response Unit)))
        sampleUnmarshal).requests = 4 :=
  ⟨by decide,
    retryable_status_makes_all_attempts 3 503 (fun _ => .ok ⟨503, (), .ok []⟩) sampleUnmarshal
      (by decide) (fun _ => ⟨_, rfl, rfl⟩)⟩

/-- C9 at the run of the retry test: retry count 3, two answers 429, then 200
with the body `{"a":7}`; the call returns 7 after three requests. -/
theorem success_after_retries_witness :
    sampleTransport (3 - 1) = .ok ⟨200, (), .ok (utf8 "\x7b\"a\":7\x7d")⟩
    ∧ sampleUnmarshal (utf8 "\x7b\"a\":7\x7d") = .ok 7
    ∧ uploadFileRetry (3 : Nat) sampleTransport sampleUnmarshal = ⟨some 7, none, 3⟩
    ∧ transcribeRetry (3 : Nat) sampleTransport sampleUnmarshal = ⟨some 7, none, 3⟩ :=
  ⟨rfl, rfl,
    success_after_retries 3 3 429 sampleTransport sampleUnmarshal
      ⟨200, (), .ok (utf8 "\x7b\"a\":7\x7d")⟩ (utf8 "\x7b\"a\":7\x7d") 7
      (by decide) (by decide) (by decide)
      (fun i hi => ⟨⟨429, (), .ok []⟩, by
        have h2 : i < 2 := by omega
        simp [sampleTransport, h2], rfl⟩)
      rfl (by decide) rfl rfl⟩

/-- C10 at an explicit run: retry count 3 and a first answer 404; one request
is sent and the call returns the API error made from that response. -/
theorem non_retryable_status_single_attempt_witness :
    (404 : Int) ∉ [(429 : Int), 500, 502, 503, 504]
    ∧ (uploadFileRetry (3 : Nat)
        (fun _ => (.ok ⟨404, (), .ok (utf8 "not found")⟩ : Except String (Response Unit)))
        sampleUnmarshal).requests = 1
    ∧ (transcribeRetry (3 : Nat)
        (fun _ => (.ok ⟨404, (), .ok (utf8 "not found")⟩ : Except String (Response Unit)))
        sampleUnmarshal).requests = 1
    ∧ uploadFileRetry (3 : Nat)
        (fun _ => (.ok ⟨404, (), .ok (utf8 "not found")⟩ : Except String (Response Unit)))
        sampleUnmarshal = ⟨none, some (.api (utf8 "not found") 404 ()), 1⟩
    ∧ transcribeRetry (3 : Nat)
        (fun _ => (.ok ⟨404, (), .ok (utf8 "not found")⟩ : Except String (Response Unit)))
        sampleUnmarshal = ⟨none, some (.api (utf8 "not found") 404 ()), 1⟩ :=
  ⟨by decide,
    non_retryable_status_single_attempt 3 (fun _ => .ok ⟨404, (), .ok (utf8 "not found")⟩)
      sampleUnmarshal ⟨404, (), .ok (utf8 "not found")⟩ rfl (by decide)⟩

/-! ## Error classification of the retry loops -/

section ClassificationClaims

variable {α H : Type}

/-- C11, as amended: let request `k + 1 ≤ N + 1` be answered by a final
response (the earlier requests failed transiently; the status is not retryable
or `k = N`).  If its status is 400 or more and its body is read in full, the
loops of `UploadFile` and `Transcribe` return a nil result and the API error
carrying that status, that body and those headers; if its status is below 400
they never return an API error.  `DownloadFile` does the same with its one
response, the bytes read standing for the body.  The last part is what the
loops return for a final response whose body cannot be read, of which the
amended claim says nothing: the read error, whatever the status. -/
theorem final_response_classification (N k : Nat)
    (clientDo : Nat → Except String (Response H)) (unmarshal : Bytes → Except String α)
    (resp : Response H) (hk : k ≤ N)
    (hpre : ∀ i, i < k → isTransient (clientDo i) = true)
    (hresp : clientDo k = .ok resp)
    (hfinal : retryStatusCodes resp.StatusCode = false ∨ k = N) :
    (∀ body, resp.StatusCode ≥ 400 → resp.Body = .ok body →
        uploadFileRetry (N : Int) clientDo unmarshal
            = ⟨none, some (.api body resp.StatusCode resp.Header), k + 1⟩
        ∧ transcribeRetry (N : Int) clientDo unmarshal
            = ⟨none, some (.api body resp.StatusCode resp.Header), k + 1⟩)
    ∧ (resp.StatusCode < 400 → ∀ b s h,
        (uploadFileRetry (N : Int) clientDo unmarshal).err ≠ some (.api b s h)
        ∧ (transcribeRetry (N : Int) clientDo unmarshal).err ≠ some (.api b s h))
    ∧ (∀ (download : Nat → Except String (RawResponse H)) (raw : RawResponse H),
        download 0 = .ok raw →
        (raw.StatusCode ≥ 400 →
          downloadFileSend download = ⟨none, some (.api raw.Data raw.StatusCode raw.Header), 1⟩)
        ∧ (raw.StatusCode < 400 → ∀ b s h,
          (downloadFileSend download).err ≠ some (.api b s h)))
    ∧ (∀ e, resp.Body = .error e →
        uploadFileRetry (N : Int) clientDo unmarshal
            = ⟨none, some (.plain ("failed to read response body: " ++ e)), k + 1⟩
        ∧ transcribeRetry (N : Int) clientDo unmarshal
            = ⟨none, some (.plain ("failed to read response body: " ++ e)), k + 1⟩) := by
  have hrun : uploadFileRetry (N : Int) clientDo unmarshal
      = finalResult unmarshal resp (k + 1) := by
    have h := uploadFileRetryLoop_transients (N : Int) clientDo unmarshal k 0 none 0
      (by push_cast; omega) (fun i hi => by rw [Nat.zero_add]; exact hpre i hi)
    simp only [Nat.zero_add] at h
    rw [uploadFileRetry, h,
      uploadFileRetryLoop_final (N : Int) clientDo unmarshal k none k resp (by omega)
        hresp (hfinal.imp id (fun h => by rw [h]))]
  refine ⟨?_, ?_, ?_, ?_⟩
  · intro body hs hbody
    have hup : uploadFileRetry (N : Int) clientDo unmarshal
        = ⟨none, some (.api body resp.StatusCode resp.Header), k + 1⟩ := by
      rw [hrun]
      simp only [finalResult, hbody, hs, if_true]
    exact ⟨hup, by rw [transcribeRetry_eq]; exact hup⟩
  · intro hs b s h
    have hnot : ¬ (resp.StatusCode ≥ 400) := by omega
    have hup : (uploadFileRetry (N : Int) clientDo unmarshal).err ≠ some (.api b s h) := by
      rw [hrun]
      unfold finalResult
      split
      · simp
      · simp only [hnot, if_false]
        split <;> simp
    exact ⟨hup, by rw [transcribeRetry_eq]; exact hup⟩
  · intro download raw hraw
    constructor
    · intro hs
      simp only [downloadFileSend, hraw, hs, if_true]
    · intro hs b s h
      have hnot : ¬ (raw.StatusCode ≥ 400) := by omega
      simp only [downloadFileSend, hraw, hnot, if_false]
      split <;> simp
  · intro e he
    have hup : uploadFileRetry (N : Int) clientDo unmarshal
        = ⟨none, some (.plain ("failed to read response body: " ++ e)), k + 1⟩ := by
      rw [hrun]
      simp only [finalResult, he]
    exact ⟨hup, by rw [transcribeRetry_eq]; exact hup⟩

/-- C13: with a retry count `N` and a transport error on every request, the
loops of `UploadFile` and `Transcribe` send exactly `N + 1` requests and return
the connection error whose message is the error text of the last one; and
whatever the later outcomes are, after `j ≤ N` transport errors in a row the
loops send a further request instead of returning. -/
theorem transport_errors_end_in_connection_error (N : Nat)
    (clientDo : Nat → Except String (Response H)) (unmarshal : Bytes → Except String α)
    (e : String)
    (hall : ∀ n, n < N → ∃ e', clientDo n = .error e')
    (hlast : clientDo N = .error e) :
    uploadFileRetry (N : Int) clientDo unmarshal = ⟨none, some (.connection e), N + 1⟩
    ∧ transcribeRetry (N : Int) clientDo unmarshal = ⟨none, some (.connection e), N + 1⟩
    ∧ (∀ (other : Nat → Except String (Response H)) (j : Nat), j ≤ N →
        (∀ i, i < j → ∃ e', other i = .error e') →
        j < (uploadFileRetry (N : Int) other unmarshal).requests
        ∧ j < (transcribeRetry (N : Int) other unmarshal).requests) := by
  have hup : uploadFileRetry (N : Int) clientDo unmarshal
      = ⟨none, some (.connection e), N + 1⟩ := by
    have h := uploadFileRetryLoop_transients (N : Int) clientDo unmarshal N 0 none 0
      (by push_cast; omega)
      (fun i hi => by
        obtain ⟨e', he'⟩ := hall i hi
        rw [Nat.zero_add, he']; rfl)
    simp only [Nat.zero_add] at h
    rw [uploadFileRetry, h,
      uploadFileRetryLoop_lastError (N : Int) clientDo unmarshal N none N e rfl hlast]
  refine ⟨hup, by rw [transcribeRetry_eq]; exact hup, ?_⟩
  intro other j hj herrs
  have hreq : j < (uploadFileRetry (N : Int) other unmarshal).requests := by
    have h := uploadFileRetryLoop_transients (N : Int) other unmarshal j 0 none 0
      (by push_cast; omega)
      (fun i hi => by
        obtain ⟨e', he'⟩ := herrs i hi
        rw [Nat.zero_add, he']; rfl)
    simp only [Nat.zero_add] at h
    rw [uploadFileRetry, h]
    exact uploadFileRetryLoop_requests (N : Int) other unmarshal (N - j) j
      (by omega) none j
  exact ⟨hreq, by rw [transcribeRetry_eq]; exact hreq⟩

end ClassificationClaims

/-- C14: `retryStatusCodes` holds for a status code if and only if the code is
one of 429, 500, 502, 503, 504; it holds for each of the five and not for 200,
400, 401, 403, 404. -/
theorem retryStatusCodes_iff :
    (∀ code : Int, retryStatusCodes code = true
        ↔ code = 429 ∨ code = 500 ∨ code = 502 ∨ code = 503 ∨ code = 504)
    ∧ (∀ code ∈ [(429 : Int), 500, 502, 503, 504], retryStatusCodes code = true)
    ∧ (∀ code ∈ [(200 : Int), 400, 401, 403, 404], retryStatusCodes code = false) := by
  refine ⟨fun code => ?_, by decide, by decide⟩
  simp [retryStatusCodes, or_assoc]

/-- C11, the counterexample: retry count 3, a first response with status 400
whose body cannot be read.  The response is final, its status is 400 or more,
and the loop of `UploadFile` returns the read error, not an API error. -/
theorem final_response_unread_body_is_not_api_error :
    uploadFileRetry (3 : Nat)
        (fun _ => (.ok ⟨400, (), .error "unexpected EOF"⟩ : Except String (Response Unit)))
        sampleUnmarshal
      = ⟨none, some (.plain "failed to read response body: unexpected EOF"), 1⟩
    ∧ ∀ b s h, (uploadFileRetry (3 : Nat)
        (fun _ => (.ok ⟨400, (), .error "unexpected EOF"⟩ : Except String (Response Unit)))
        sampleUnmarshal).err ≠ some (.api b s h) := by
  have h : uploadFileRetry (3 : Nat)
        (fun _ => (.ok ⟨400, (), .error "unexpected EOF"⟩ : Except String (Response Unit)))
        sampleUnmarshal
      = ⟨none, some (.plain "failed to read response body: unexpected EOF"), 1⟩ := by
    rw [uploadFileRetry,
      uploadFileRetryLoop_final ((3 : Nat) : Int) _ sampleUnmarshal 0 none 0
        ⟨400, (), .error "unexpected EOF"⟩ (by decide) rfl (Or.inl (by decide))]
    rfl
  refine ⟨h, fun b s hd => ?_⟩
  rw [h]
  simp

/-- C11 as amended, at explicit runs: retry count 1, a first answer 503 without
a body and a second answer 503 with the body `busy` give the API error of the
second response after two requests; `DownloadFile` answered with 404 and the
body `not found` gives the API error with that body. -/
theorem final_response_classification_witness :
    (uploadFileRetry (1 : Nat) busyAfterRetry sampleUnmarshal
        = ⟨none, some (.api (utf8 "busy") 503 ()), 2⟩
      ∧ transcribeRetry (1 : Nat) busyAfterRetry sampleUnmarshal
        = ⟨none, some (.api (utf8 "busy") 503 ()), 2⟩)
    ∧ downloadFileSend
        (fun _ => (.ok ⟨404, (), utf8 "not found", none⟩ : Except String (RawResponse Unit)))
      = ⟨none, some (.api (utf8 "not found") 404 ()), 1⟩ :=
  have h := final_response_classification 1 1 busyAfterRetry
    sampleUnmarshal ⟨503, (), .ok (utf8 "busy")⟩ (by decide)
    (fun i hi => by
      have h0 : i = 0 := by omega
      rw [h0]; rfl)
    rfl (Or.inr rfl)
  ⟨h.1 (utf8 "busy") (by decide) rfl,
    (h.2.2.1 (fun _ => .ok ⟨404, (), utf8 "not found", none⟩)
      ⟨404, (), utf8 "not found", none⟩ rfl).1 (by decide)⟩

/-- C13 at an explicit run: retry count 2 and the transport errors `timeout 0`,
`timeout 1`, `timeout 2`; three requests are sent and the error of the third
is returned. -/
theorem transport_errors_end_in_connection_error_witness :
    uploadFileRetry (2 : Nat)
        (fun n => (.error ("timeout " ++ toString n) : Except String (Response Unit)))
        sampleUnmarshal
      = ⟨none, some (.connection "timeout 2"), 3⟩
    ∧ transcribeRetry (2 : Nat)
        (fun n => (.error ("timeout " ++ toString n) : Except String (Response Unit)))
        sampleUnmarshal
      = ⟨none, some (.connection "timeout 2"), 3⟩ :=
  have h := transport_errors_end_in_connection_error 2
    (fun n => (.error ("timeout " ++ toString n) : Except String (Response Unit)))
    sampleUnmarshal "timeout 2" (fun _ _ => ⟨_, rfl⟩) rfl
  ⟨h.1, h.2.1⟩

/-- C15: retry count 3 and the answers 429, 429, 200 with the body `{"a":7}`.
The loop of `UploadFile` sends three requests and returns 7; `UploadDocument`
sends one request and returns the API error of the first answer. -/
theorem uploadDocument_does_not_retry :
    uploadFileRetry (3 : Nat) sampleTransport sampleUnmarshal = ⟨some 7, none, 3⟩
    ∧ uploadDocumentSend sampleTransport sampleUnmarshal
        = ⟨none, some (.api [] 429 ()), 1⟩ := by
  constructor
  · rw [uploadFileRetry,
      uploadFileRetryLoop_retries ((3 : Nat) : Int) sampleTransport sampleUnmarshal 2 0 none 0
        (by decide)
        (fun i hi => ⟨⟨429, (), .ok []⟩, by simp [sampleTransport, hi], by decide⟩),
      uploadFileRetryLoop_final ((3 : Nat) : Int) sampleTransport sampleUnmarshal 2 none 2
        ⟨200, (), .ok (utf8 "\x7b\"a\":7\x7d")⟩ (by decide) rfl (Or.inl (by decide))]
    rfl
  · rfl

/-! ## Local validation of the resource operations -/

section ValidationClaims

variable {M T H : Type}

/-- C16: each of `FIM`, `FIMStream`, `CreateLibrary`, `UpdateLibrary`,
`UpdateDocument`, `UpdateModel`, `StartConversation`, `CreateMistralAgent`,
`UpdateMistralAgent` and `UpdateOrCreateLibraryAccess`, called with a nil
request pointer, returns a nil result and a non-nil error and makes no call to
the dispatch routine, whatever the dispatch routine would answer. -/
theorem nil_request_is_rejected_locally {α : Type} [Inhabited α]
    (request : RequestDescriptor → Except (CallError H) (DispatchValue M))
    (marshal : M → Except String Bytes) (unmarshal : Bytes → Except String T)
    (unmarshalChunk : Bytes → Except String α) (libraryID documentID modelID agentID : String) :
    (FIM request marshal unmarshal none).1
        = ⟨.returned none (some (.plain "params cannot be nil")), []⟩
    ∧ (FIMStream request unmarshalChunk none).1
        = ⟨.returned none (some (.plain "params cannot be nil")), []⟩
    ∧ CreateLibrary request marshal unmarshal none
        = ⟨.returned none (some (.plain "request cannot be nil")), []⟩
    ∧ UpdateLibrary request marshal unmarshal libraryID none
        = ⟨.returned none (some (.plain "request cannot be nil")), []⟩
    ∧ UpdateDocument request marshal unmarshal libraryID documentID none
        = ⟨.returned none (some (.plain "request cannot be nil")), []⟩
    ∧ UpdateModel request marshal unmarshal modelID none
        = ⟨.returned none (some (.plain "update request cannot be nil")), []⟩
    ∧ StartConversation request marshal unmarshal none
        = ⟨.returned none (some (.plain "request cannot be nil")), []⟩
    ∧ CreateMistralAgent request marshal unmarshal none
        = ⟨.returned none (some (.plain "request cannot be nil")), []⟩
    ∧ UpdateMistralAgent request marshal unmarshal agentID none
        = ⟨.returned none (some (.plain "request cannot be nil")), []⟩
    ∧ UpdateOrCreateLibraryAccess request marshal unmarshal libraryID none
        = ⟨.returned none (some (.plain "request cannot be nil")), []⟩ :=
  ⟨rfl, rfl, rfl, rfl, rfl, rfl, rfl, rfl, rfl, rfl⟩

/-- C17: `CreateBatchJob` and `CreateFineTuningJob`, called with a nil request,
panic on the first field access; they return neither a result nor an error, and
the dispatch routine is not called. -/
theorem create_job_nil_request_panics
    (request : RequestDescriptor → Except (CallError H) (DispatchValue M))
    (marshal : M → Except String Bytes) (unmarshal : Bytes → Except String T) :
    CreateBatchJob request marshal unmarshal none = ⟨.panicked nilDereference, []⟩
    ∧ CreateFineTuningJob request marshal unmarshal none = ⟨.panicked nilDereference, []⟩ :=
  ⟨rfl, rfl⟩

/-- C18, as amended: `AgentComplete` called with nil messages and nil params
makes no local check: it calls the dispatch routine once, with the required
keys only (`messages` nil, `stream` false), leaves no params to the caller, and
returns the error of the dispatch when the dispatch fails and the projected
value with a nil error when the dispatch answers with an object that
`mapToStruct` accepts. -/
theorem agentComplete_nil_request_is_dispatched
    (request : RequestDescriptor → Except (CallError H) (DispatchValue M))
    (marshal : M → Except String Bytes) (unmarshal : Bytes → Except String T)
    (agentID : String) :
    AgentComplete request marshal unmarshal agentID none none
        = (dispatchAndProject request marshal unmarshal (agentCompleteNilDescriptor agentID),
            none)
    ∧ (AgentComplete request marshal unmarshal agentID none none).1.dispatched
        = [agentCompleteNilDescriptor agentID]
    ∧ (∀ err, request (agentCompleteNilDescriptor agentID) = .error err →
        (AgentComplete request marshal unmarshal agentID none none).1.outcome
          = .returned none (some err))
    ∧ (∀ m value, request (agentCompleteNilDescriptor agentID) = .ok (.object m) →
        mapToStruct marshal unmarshal m = .ok value →
        (AgentComplete request marshal unmarshal agentID none none).1.outcome
          = .returned (some value) none) := by
  have h : AgentComplete request marshal unmarshal agentID none none
      = (dispatchAndProject request marshal unmarshal (agentCompleteNilDescriptor agentID),
          none) := rfl
  refine ⟨h, ?_, ?_, ?_⟩
  · rw [h]; exact dispatchAndProject_dispatched request marshal unmarshal _
  · intro err herr
    rw [h]
    simp only [dispatchAndProject, herr]
  · intro m value hm hv
    rw [h]
    simp only [dispatchAndProject, hm, hv]

/-- C19, as amended: `FIM` with non-nil params whose `Model` is the empty string,
and `Chat` with an empty model string, make no local check of the field: each
calls the dispatch routine exactly once, with the empty string under the key
`model`, and returns what the dispatch and the projection yield. -/
theorem empty_model_is_dispatched
    (request : RequestDescriptor → Except (CallError H) (DispatchValue M))
    (marshal : M → Except String Bytes) (unmarshal : Bytes → Except String T)
    (p : FIMRequestParams) (messages : Option (List ChatMessage))
    (params : Option ChatRequestParams) :
    (∃ data, (FIM request marshal unmarshal (some { p with Model := "" })).1
          = dispatchAndProject request marshal unmarshal
              ⟨"POST", some data, "v1/fim/completions", false⟩
        ∧ (FIM request marshal unmarshal (some { p with Model := "" })).1.dispatched
          = [⟨"POST", some data, "v1/fim/completions", false⟩]
        ∧ data.get? "model" = some (.string ""))
    ∧ (∃ data, Chat request marshal unmarshal "" messages params
          = dispatchAndProject request marshal unmarshal
              ⟨"POST", some data, "v1/chat/completions", false⟩
        ∧ (Chat request marshal unmarshal "" messages params : OpRun T H).dispatched
          = [⟨"POST", some data, "v1/chat/completions", false⟩]
        ∧ data.get? "model" = some (.string "")) := by
  constructor
  · refine ⟨_, rfl, dispatchAndProject_dispatched request marshal unmarshal _, ?_⟩
    simp only [fimRequestData]
    rw [GoMap.get?_setIf_ne _ _ _ _ _ (by decide), GoMap.get?_setDeref_ne _ _ _ _ _ (by decide),
      GoMap.get?_setDeref_ne _ _ _ _ _ (by decide), GoMap.get?_setDeref_ne _ _ _ _ _ (by decide),
      GoMap.get?_setDeref_ne _ _ _ _ _ (by decide), GoMap.get?_setDeref_ne _ _ _ _ _ (by decide),
      GoMap.get?_setDeref_ne _ _ _ _ _ (by decide)]
    rfl
  · refine ⟨_, rfl, dispatchAndProject_dispatched request marshal unmarshal _, ?_⟩
    simp only [chatOptionalParams]
    rw [GoMap.get?_setIf_ne _ _ _ _ _ (by decide), GoMap.get?_setIf_ne _ _ _ _ _ (by decide),
      GoMap.get?_setIf_ne _ _ _ _ _ (by decide), GoMap.get?_setDeref_ne _ _ _ _ _ (by decide),
      GoMap.get?_setDeref_ne _ _ _ _ _ (by decide), GoMap.get?_setPointer_ne _ _ _ _ _ (by decide),
      GoMap.get?_setDeref_ne _ _ _ _ _ (by decide), GoMap.get?_setDeref_ne _ _ _ _ _ (by decide),
      GoMap.get?_setDeref_ne _ _ _ _ _ (by decide), GoMap.get?_setDeref_ne _ _ _ _ _ (by decide),
      GoMap.get?_setIf_ne _ _ _ _ _ (by decide), GoMap.get?_setDeref_ne _ _ _ _ _ (by decide),
      GoMap.get?_setDeref_ne _ _ _ _ _ (by decide), GoMap.get?_setDeref_ne _ _ _ _ _ (by decide),
      GoMap.get?_setDeref_ne _ _ _ _ _ (by decide), GoMap.get?_setDeref_ne _ _ _ _ _ (by decide)]
    rfl

end ValidationClaims

/-- C18, the counterexample: against a dispatch routine that answers with the
object `{"a":7}`, `AgentComplete` called with nil messages and nil params
returns the projected value and a nil error. -/
theorem agentComplete_nil_request_succeeds :
    (AgentComplete sampleDispatch Except.ok sampleUnmarshal "agent-123" none none).1
      = ⟨.returned (some 7) none, [agentCompleteNilDescriptor "agent-123"]⟩ := rfl

/-- C18 as amended, at an explicit dispatch routine: one that fails with a
connection error, as a client without network does. -/
theorem agentComplete_nil_request_is_dispatched_witness :
    (AgentComplete
        (fun _ => (.error (.connection "dial tcp: no route to host") :
          Except (CallError Unit) (DispatchValue Bytes)))
        Except.ok sampleUnmarshal "agent-123" none none).1.outcome
      = .returned none (some (.connection "dial tcp: no route to host")) :=
  (agentComplete_nil_request_is_dispatched
    (fun _ => (.error (.connection "dial tcp: no route to host") :
      Except (CallError Unit) (DispatchValue Bytes)))
    Except.ok sampleUnmarshal "agent-123").2.2.1 _ rfl

/-- C19, the counterexample: against a dispatch routine that answers with the
object `{"a":7}`, `FIM` with an empty `Model` and `Chat` with an empty model
call the dispatch routine once and return the projected value with a nil
error. -/
theorem empty_model_is_not_rejected :
    (FIM sampleDispatch Except.ok sampleUnmarshal (some sampleFIMParams)).1.outcome
      = .returned (some 7) none
    ∧ (FIM sampleDispatch Except.ok sampleUnmarshal (some sampleFIMParams)).1.dispatched.length = 1
    ∧ (Chat sampleDispatch Except.ok sampleUnmarshal "" (some [⟨"user", "hi", none, "", ""⟩])
        none).outcome = .returned (some 7) none
    ∧ (Chat sampleDispatch Except.ok sampleUnmarshal "" (some [⟨"user", "hi", none, "", ""⟩])
        none).dispatched.length = 1 :=
  ⟨rfl, rfl, rfl, rfl⟩

/-! ## Outcomes, request bodies and the life of a stream -/

section OutcomeClaims

variable {M T H α : Type} [Inhabited α]

/-- C21: whatever the dispatch routine answers, `ChatStream`, `FIMStream` and
`AgentCompleteStream` return either a channel with a nil error or a nil channel
with a non-nil error, and `Chat`, `FIM` and `AgentComplete` return either a
response with a nil error or a nil response with a non-nil error. -/
theorem every_call_has_one_outcome
    (request : RequestDescriptor → Except (CallError H) (DispatchValue M))
    (marshal : M → Except String Bytes) (unmarshal : Bytes → Except String T)
    (unmarshalChunk : Bytes → Except String α) (model agentID : String)
    (messages : Option (List ChatMessage)) (chatParams : Option ChatRequestParams)
    (fimParams : Option FIMRequestParams) (agentParams : Option AgentCompletionRequest) :
    (ChatStream request unmarshalChunk model messages chatParams).outcome.exactlyOne
    ∧ (FIMStream request unmarshalChunk fimParams).1.outcome.exactlyOne
    ∧ (AgentCompleteStream request unmarshalChunk agentID messages agentParams).1.outcome.exactlyOne
    ∧ (Chat request marshal unmarshal model messages chatParams).outcome.exactlyOne
    ∧ (FIM request marshal unmarshal fimParams).1.outcome.exactlyOne
    ∧ (AgentComplete request marshal unmarshal agentID messages agentParams).1.outcome.exactlyOne := by
  refine ⟨?_, ?_, ?_, ?_, ?_, ?_⟩
  · unfold ChatStream
    simp only
    split
    · exact Or.inr ⟨_, rfl⟩
    · split
      · exact Or.inl ⟨_, rfl⟩
      · exact Or.inr ⟨_, rfl⟩
      · exact Or.inr ⟨_, rfl⟩
  · unfold FIMStream
    split
    · exact Or.inr ⟨_, rfl⟩
    · simp only
      split
      · exact Or.inr ⟨_, rfl⟩
      · split
        · exact Or.inl ⟨_, rfl⟩
        · exact Or.inr ⟨_, rfl⟩
        · exact Or.inr ⟨_, rfl⟩
  · unfold AgentCompleteStream
    simp only
    split
    · exact Or.inr ⟨_, rfl⟩
    · split
      · exact Or.inl ⟨_, rfl⟩
      · exact Or.inr ⟨_, rfl⟩
      · exact Or.inr ⟨_, rfl⟩
  · exact dispatchAndProject_exactlyOne request marshal unmarshal _
  · unfold FIM
    split
    · exact Or.inr ⟨_, rfl⟩
    · exact dispatchAndProject_exactlyOne request marshal unmarshal _
  · exact dispatchAndProject_exactlyOne request marshal unmarshal _

/-- C28: for a body made of the newline-terminated lines `ls` and a final line
`tail` without a newline, each of the three goroutines does what it does for
the body without `tail`, however the stream ends: the unterminated line yields
no chunk and no error. -/
theorem unterminated_last_line_is_discarded (unmarshal : Bytes → Except String α)
    (ls : List Bytes) (tail : Bytes) (fin : Option String)
    (hnl : ∀ l ∈ ls, (10 : UInt8) ∉ l) (ht : (10 : UInt8) ∉ tail) :
    chatStreamGoroutine unmarshal ⟨joinLines ls ++ tail, fin⟩
        = chatStreamGoroutine unmarshal ⟨joinLines ls, fin⟩
    ∧ fimStreamGoroutine unmarshal ⟨joinLines ls ++ tail, fin⟩
        = fimStreamGoroutine unmarshal ⟨joinLines ls, fin⟩
    ∧ agentCompleteStreamGoroutine unmarshal ⟨joinLines ls ++ tail, fin⟩
        = agentCompleteStreamGoroutine unmarshal ⟨joinLines ls, fin⟩ := by
  refine ⟨?_, ?_, ?_⟩
  · rw [chatStreamGoroutine, chatStreamGoroutine,
      (chatStreamLoop_decodes unmarshal).drop_tail ls tail fin hnl ht]
  · rw [fimStreamGoroutine, fimStreamGoroutine,
      (fimStreamLoop_decodes unmarshal).drop_tail ls tail fin hnl ht]
  · rw [agentCompleteStreamGoroutine, agentCompleteStreamGoroutine,
      (agentCompleteStreamLoop_decodes unmarshal).drop_tail ls tail fin hnl ht]

end OutcomeClaims

/-- C28 at an explicit body: one terminated line `data: {"a":1}` and the
unterminated, valid line `data: {"a":2}`; only the first chunk is sent. -/
theorem unterminated_last_line_is_discarded_witness :
    (10 : UInt8) ∉ utf8 "data: \x7b\"a\":2\x7d"
    ∧ sampleUnmarshal (payloadOf (utf8 "data: \x7b\"a\":2\x7d")) = .ok 2
    ∧ chatStreamGoroutine sampleUnmarshal
        ⟨utf8 "data: \x7b\"a\":1\x7d\ndata: \x7b\"a\":2\x7d", none⟩
        = chatStreamGoroutine sampleUnmarshal ⟨utf8 "data: \x7b\"a\":1\x7d\n", none⟩
    ∧ fimStreamGoroutine sampleUnmarshal
        ⟨utf8 "data: \x7b\"a\":1\x7d\ndata: \x7b\"a\":2\x7d", none⟩
        = fimStreamGoroutine sampleUnmarshal ⟨utf8 "data: \x7b\"a\":1\x7d\n", none⟩
    ∧ agentCompleteStreamGoroutine sampleUnmarshal
        ⟨utf8 "data: \x7b\"a\":1\x7d\ndata: \x7b\"a\":2\x7d", none⟩
        = agentCompleteStreamGoroutine sampleUnmarshal ⟨utf8 "data: \x7b\"a\":1\x7d\n", none⟩ :=
  ⟨by decide, rfl,
    unterminated_last_line_is_discarded sampleUnmarshal [utf8 "data: \x7b\"a\":1\x7d"]
      (utf8 "data: \x7b\"a\":2\x7d") none (by decide) (by decide)⟩

/-! ## The goroutines against a consumer -/

section RunClaims

variable {α : Type} [Inhabited α]

/-- C22: the goroutines of `ChatStream`, `FIMStream` and `AgentCompleteStream`
against a consumer that receives `receives` chunks and then stops receiving.
The goroutine is left in a send exactly when its loop has more chunks to send
than the consumer receives, and the response body is closed exactly when the
consumer receives every chunk.  On the body of the spec's example, two chunks
and the sentinel, with a consumer that stops after the first chunk, each run is
the send of that chunk and nothing more: the goroutine stays in the send of the
second chunk, and neither the body nor the channel is closed. -/
theorem abandoned_stream_is_never_closed (unmarshal : Bytes → Except String α)
    (respBody : Reader) (receives : Nat) :
    (((chatStreamGoroutineRun unmarshal receives respBody).ending = .blockedInSend
          ↔ receives < (chatStreamLoop unmarshal respBody).length)
      ∧ (Event.bodyClose ∈ (chatStreamGoroutineRun unmarshal receives respBody).events
          ↔ (chatStreamLoop unmarshal respBody).length ≤ receives))
    ∧ (((fimStreamGoroutineRun unmarshal receives respBody).ending = .blockedInSend
          ↔ receives < (fimStreamLoop unmarshal respBody).length)
      ∧ (Event.bodyClose ∈ (fimStreamGoroutineRun unmarshal receives respBody).events
          ↔ (fimStreamLoop unmarshal respBody).length ≤ receives))
    ∧ (((agentCompleteStreamGoroutineRun unmarshal receives respBody).ending = .blockedInSend
          ↔ receives < (agentCompleteStreamLoop unmarshal respBody).length)
      ∧ (Event.bodyClose ∈ (agentCompleteStreamGoroutineRun unmarshal receives respBody).events
          ↔ (agentCompleteStreamLoop unmarshal respBody).length ≤ receives))
    ∧ chatStreamGoroutineRun sampleUnmarshal 1 ⟨sampleBody, none⟩
        = ⟨[Event.send ⟨1, none⟩], .blockedInSend⟩
    ∧ fimStreamGoroutineRun sampleUnmarshal 1 ⟨sampleBody, none⟩
        = ⟨[Event.send ⟨1, none⟩], .blockedInSend⟩
    ∧ agentCompleteStreamGoroutineRun sampleUnmarshal 1 ⟨sampleBody, none⟩
        = ⟨[Event.send ⟨1, none⟩], .blockedInSend⟩ := by
  refine ⟨?_, ?_, ?_, ?_, ?_, ?_⟩
  · rw [chatStreamGoroutineRun_eq]
    have h := consumed_decoderDeferred (chatStreamLoop unmarshal respBody) receives
    exact ⟨h.2.2.2, h.2.1⟩
  · rw [fimStreamGoroutineRun_eq]
    have h := consumed_decoderDeferred (fimStreamLoop unmarshal respBody) receives
    exact ⟨h.2.2.2, h.2.1⟩
  · rw [agentCompleteStreamGoroutineRun_eq]
    have h := consumed_decoderDeferred (agentCompleteStreamLoop unmarshal respBody) receives
    exact ⟨h.2.2.2, h.2.1⟩
  · rw [chatStreamGoroutineRun_eq, chatStreamLoop_sampleBody]; rfl
  · rw [fimStreamGoroutineRun_eq, fimStreamLoop_sampleBody]; rfl
  · rw [agentCompleteStreamGoroutineRun_eq, agentCompleteStreamLoop_sampleBody]; rfl

/-- C27: for every response body and every end of the stream (sentinel,
`io.EOF`, read error, decode error), each of the goroutines of `ChatStream`,
`FIMStream` and `AgentCompleteStream`, run against a consumer that receives
every chunk its loop sends, returns, and its trace is the sends followed by one
close of the response body and one close of the channel, in this order.
Against any consumer, a run that returns has closed the body exactly once and
the channel exactly once, after every send; and every trace is a run of sends,
followed or not by the two closes: no close happens twice and nothing is sent
after a close. -/
theorem decoder_closes_exactly_once (unmarshal : Bytes → Except String α) (respBody : Reader)
    (receives : Nat) :
    ((chatStreamLoop unmarshal respBody).length ≤ receives →
        (chatStreamGoroutineRun unmarshal receives respBody).ending = .returned
        ∧ (chatStreamGoroutineRun unmarshal receives respBody).events
            = (chatStreamLoop unmarshal respBody).map Event.send
              ++ [Event.bodyClose, Event.chanClose]
        ∧ closesExactlyOnce (chatStreamGoroutineRun unmarshal receives respBody).events)
    ∧ ((fimStreamLoop unmarshal respBody).length ≤ receives →
        (fimStreamGoroutineRun unmarshal receives respBody).ending = .returned
        ∧ (fimStreamGoroutineRun unmarshal receives respBody).events
            = (fimStreamLoop unmarshal respBody).map Event.send
              ++ [Event.bodyClose, Event.chanClose]
        ∧ closesExactlyOnce (fimStreamGoroutineRun unmarshal receives respBody).events)
    ∧ ((agentCompleteStreamLoop unmarshal respBody).length ≤ receives →
        (agentCompleteStreamGoroutineRun unmarshal receives respBody).ending = .returned
        ∧ (agentCompleteStreamGoroutineRun unmarshal receives respBody).events
            = (agentCompleteStreamLoop unmarshal respBody).map Event.send
              ++ [Event.bodyClose, Event.chanClose]
        ∧ closesExactlyOnce (agentCompleteStreamGoroutineRun unmarshal receives respBody).events)
    ∧ ((chatStreamGoroutineRun unmarshal receives respBody).ending = .returned →
        closesExactlyOnce (chatStreamGoroutineRun unmarshal receives respBody).events)
    ∧ ((fimStreamGoroutineRun unmarshal receives respBody).ending = .returned →
        closesExactlyOnce (fimStreamGoroutineRun unmarshal receives respBody).events)
    ∧ ((agentCompleteStreamGoroutineRun unmarshal receives respBody).ending = .returned →
        closesExactlyOnce (agentCompleteStreamGoroutineRun unmarshal receives respBody).events)
    ∧ (∃ sends : List (Event α), (∀ e ∈ sends, e.isSend = true)
        ∧ ((chatStreamGoroutineRun unmarshal receives respBody).events = sends
          ∨ (chatStreamGoroutineRun unmarshal receives respBody).events
              = sends ++ [Event.bodyClose, Event.chanClose]))
    ∧ (∃ sends : List (Event α), (∀ e ∈ sends, e.isSend = true)
        ∧ ((fimStreamGoroutineRun unmarshal receives respBody).events = sends
          ∨ (fimStreamGoroutineRun unmarshal receives respBody).events
              = sends ++ [Event.bodyClose, Event.chanClose]))
    ∧ (∃ sends : List (Event α), (∀ e ∈ sends, e.isSend = true)
        ∧ ((agentCompleteStreamGoroutineRun unmarshal receives respBody).events = sends
          ∨ (agentCompleteStreamGoroutineRun unmarshal receives respBody).events
              = sends ++ [Event.bodyClose, Event.chanClose])) := by
  refine ⟨fun h => ?_, fun h => ?_, fun h => ?_, fun h => ?_, fun h => ?_, fun h => ?_,
    ?_, ?_, ?_⟩
  · rw [chatStreamGoroutineRun_eq]
    exact consumed_closesExactlyOnce _ receives h
  · rw [fimStreamGoroutineRun_eq]
    exact consumed_closesExactlyOnce _ receives h
  · rw [agentCompleteStreamGoroutineRun_eq]
    exact consumed_closesExactlyOnce _ receives h
  · rw [chatStreamGoroutineRun_eq] at h ⊢
    exact (consumed_closesExactlyOnce _ receives
      ((consumed_decoderDeferred _ receives).1.mp h)).2.2
  · rw [fimStreamGoroutineRun_eq] at h ⊢
    exact (consumed_closesExactlyOnce _ receives
      ((consumed_decoderDeferred _ receives).1.mp h)).2.2
  · rw [agentCompleteStreamGoroutineRun_eq] at h ⊢
    exact (consumed_closesExactlyOnce _ receives
      ((consumed_decoderDeferred _ receives).1.mp h)).2.2
  · rw [chatStreamGoroutineRun_eq]
    exact consumed_shape _ receives
  · rw [fimStreamGoroutineRun_eq]
    exact consumed_shape _ receives
  · rw [agentCompleteStreamGoroutineRun_eq]
    exact consumed_shape _ receives

end RunClaims

/-- C27 at the four ends of a stream, each goroutine run against a consumer
that receives every chunk.  The sentinel: `ChatStream` on the body of the spec's
example.  `io.EOF`: `ChatStream` on one valid line.  A read error:
`AgentCompleteStream` on one valid line followed by the error
`connection reset`.  A decode error: `FIMStream` on a body that begins with a
malformed line.  Each run is its sends, the close of the body, the close of the
channel, and the return. -/
theorem decoder_closes_exactly_once_witness :
    ((chatStreamLoop sampleUnmarshal ⟨sampleBody, none⟩).length ≤ 2
      ∧ chatStreamGoroutineRun sampleUnmarshal 2 ⟨sampleBody, none⟩
        = ⟨[Event.send ⟨1, none⟩, Event.send ⟨2, none⟩, Event.bodyClose, Event.chanClose],
            .returned⟩)
    ∧ ((chatStreamLoop sampleUnmarshal ⟨utf8 "data: \x7b\"a\":1\x7d\n", none⟩).length ≤ 1
      ∧ chatStreamGoroutineRun sampleUnmarshal 1 ⟨utf8 "data: \x7b\"a\":1\x7d\n", none⟩
        = ⟨[Event.send ⟨1, none⟩, Event.bodyClose, Event.chanClose], .returned⟩)
    ∧ ((agentCompleteStreamLoop sampleUnmarshal
          ⟨utf8 "data: \x7b\"a\":1\x7d\n", some "connection reset"⟩).length ≤ 2
      ∧ agentCompleteStreamGoroutineRun sampleUnmarshal 2
          ⟨utf8 "data: \x7b\"a\":1\x7d\n", some "connection reset"⟩
        = ⟨[Event.send ⟨1, none⟩,
            Event.send ⟨0, some "error reading stream response: connection reset"⟩,
            Event.bodyClose, Event.chanClose], .returned⟩)
    ∧ ((fimStreamLoop sampleUnmarshal ⟨malformedBody, none⟩).length ≤ 1
      ∧ fimStreamGoroutineRun sampleUnmarshal 1 ⟨malformedBody, none⟩
        = ⟨[Event.send ⟨0, some "error unmarshaling stream response: invalid character"⟩,
            Event.bodyClose, Event.chanClose], .returned⟩) :=
  have hdone : (chatStreamLoop sampleUnmarshal ⟨sampleBody, none⟩).length ≤ 2 := by
    rw [chatStreamLoop_sampleBody]; decide
  have heof : (chatStreamLoop sampleUnmarshal
      ⟨utf8 "data: \x7b\"a\":1\x7d\n", none⟩).length ≤ 1 := by
    rw [chatStreamLoop_oneLine]; decide
  have hreset : (agentCompleteStreamLoop sampleUnmarshal
      ⟨utf8 "data: \x7b\"a\":1\x7d\n", some "connection reset"⟩).length ≤ 2 := by
    rw [agentCompleteStreamLoop_oneLine_reset]; decide
  have hbad : (fimStreamLoop sampleUnmarshal ⟨malformedBody, none⟩).length ≤ 1 := by
    rw [fimStreamLoop_malformedBody]; decide
  have h1 := (decoder_closes_exactly_once sampleUnmarshal ⟨sampleBody, none⟩ 2).1 hdone
  have h2 := (decoder_closes_exactly_once sampleUnmarshal
    ⟨utf8 "data: \x7b\"a\":1\x7d\n", none⟩ 1).1 heof
  have h3 := (decoder_closes_exactly_once sampleUnmarshal
    ⟨utf8 "data: \x7b\"a\":1\x7d\n", some "connection reset"⟩ 2).2.2.1 hreset
  have h4 := (decoder_closes_exactly_once sampleUnmarshal ⟨malformedBody, none⟩ 1).2.1 hbad
  ⟨⟨hdone, Run.eq_of _ _ _ (by rw [h1.2.1, chatStreamLoop_sampleBody]; rfl) h1.1⟩,
    ⟨heof, Run.eq_of _ _ _ (by rw [h2.2.1, chatStreamLoop_oneLine]; rfl) h2.1⟩,
    ⟨hreset, Run.eq_of _ _ _ (by rw [h3.2.1, agentCompleteStreamLoop_oneLine_reset]; rfl) h3.1⟩,
    ⟨hbad, Run.eq_of _ _ _ (by rw [h4.2.1, fimStreamLoop_malformedBody]; rfl) h4.1⟩⟩

/-! ## Request bodies -/

section BodyClaims

variable {M T H α : Type} [Inhabited α]

/-- C24: for every model, messages and params (nil or not) the body `ChatStream` hands to
the dispatch routine holds, under every key, what the body of `Chat` holds for
the same arguments, except for the key `stream`, which `Chat` does not set and
under which `ChatStream` stores `true`; the bodies of `FIMStream` and
`AgentCompleteStream` hold `true` under `stream` (the latter through a
pointer), those of `FIM` and `AgentComplete` hold `false`. -/
theorem stream_is_requested_in_the_body
    (request : RequestDescriptor → Except (CallError H) (DispatchValue M))
    (marshal : M → Except String Bytes) (unmarshal : Bytes → Except String T)
    (unmarshalChunk : Bytes → Except String α) (model agentID : String)
    (messages : Option (List ChatMessage)) (chatParams : Option ChatRequestParams)
    (fimParams : FIMRequestParams) (agentParams : Option AgentCompletionRequest) :
    (∃ streamBody chatBody : GoMap,
        (ChatStream request unmarshalChunk model messages chatParams).dispatched
          = [⟨"POST", some streamBody, "v1/chat/completions", true⟩]
        ∧ (Chat request marshal unmarshal model messages chatParams).dispatched
          = [⟨"POST", some chatBody, "v1/chat/completions", false⟩]
        ∧ (∀ key, streamBody.get? key
            = if key = "stream" then some (.bool true) else chatBody.get? key)
        ∧ chatBody.get? "stream" = none)
    ∧ (∃ body : GoMap,
        (FIMStream request unmarshalChunk (some fimParams)).1.dispatched
          = [⟨"POST", some body, "v1/fim/completions", true⟩]
        ∧ body.get? "stream" = some (.bool true))
    ∧ (∃ body : GoMap,
        (FIM request marshal unmarshal (some fimParams)).1.dispatched
          = [⟨"POST", some body, "v1/fim/completions", false⟩]
        ∧ body.get? "stream" = some (.bool false))
    ∧ (∃ body : GoMap,
        (AgentCompleteStream request unmarshalChunk agentID messages agentParams).1.dispatched
          = [⟨"POST", some body, "v1/agents/completions", true⟩]
        ∧ (body.get? "stream").map GoValue.deref = some (.bool true))
    ∧ (∃ body : GoMap,
        (AgentComplete request marshal unmarshal agentID messages agentParams).1.dispatched
          = [⟨"POST", some body, "v1/agents/completions", false⟩]
        ∧ (body.get? "stream").map GoValue.deref = some (.bool false)) := by
  refine ⟨?_, ?_, ?_, ?_, ?_⟩
  · refine ⟨_, _, ChatStream_dispatched request unmarshalChunk model messages chatParams,
      dispatchAndProject_dispatched request marshal unmarshal _, ?_, ?_⟩
    · intro key
      by_cases hk : key = "stream"
      · rw [if_pos hk, hk]
        simp [chatOptionalParams, GoMap.get?_setDeref, GoMap.get?_setPointer,
          GoMap.get?_setIf, GoMap.get?]
      · rw [if_neg hk]
        apply chatOptionalParams_get?_congr
        have hk' : ¬ ("stream" = key) := fun h => hk h.symm
        simp [GoMap.get?, hk']
    · simp [chatOptionalParams, GoMap.get?_setDeref, GoMap.get?_setPointer, GoMap.get?_setIf,
        GoMap.get?]
  · exact ⟨_, FIMStream_dispatched request unmarshalChunk fimParams, fimRequestData_stream _ _⟩
  · exact ⟨_, dispatchAndProject_dispatched request marshal unmarshal _,
      fimRequestData_stream _ _⟩
  · refine ⟨_, AgentCompleteStream_dispatched request unmarshalChunk agentID messages
      agentParams, ?_⟩
    rw [agentRequestMap_stream]
    rfl
  · refine ⟨_, dispatchAndProject_dispatched request marshal unmarshal _, ?_⟩
    rw [agentRequestMap_stream]
    rfl

/-- C26: for every non-nil params, whatever `params.Stream` holds, `FIMStream`
leaves `params.Stream` pointing to `true` and sends `stream` = `true`, `FIM`
leaves it pointing to `false` and sends `stream` = `false`, and both leave
`Model`, `Prompt`, `Suffix`, `MaxTokens`, `Temperature`, `TopP`, `MinTokens`,
`RandomSeed` and `Stop` as they were. -/
theorem fim_sets_the_stream_flag
    (request : RequestDescriptor → Except (CallError H) (DispatchValue M))
    (marshal : M → Except String Bytes) (unmarshal : Bytes → Except String T)
    (unmarshalChunk : Bytes → Except String α) (params : FIMRequestParams) :
    (∃ after body,
        (FIMStream request unmarshalChunk (some params)).2 = some after
        ∧ after.Stream = some true
        ∧ (FIMStream request unmarshalChunk (some params)).1.dispatched
          = [⟨"POST", some body, "v1/fim/completions", true⟩]
        ∧ body.get? "stream" = some (.bool true)
        ∧ after.Model = params.Model ∧ after.Prompt = params.Prompt
        ∧ after.Suffix = params.Suffix ∧ after.MaxTokens = params.MaxTokens
        ∧ after.Temperature = params.Temperature ∧ after.TopP = params.TopP
        ∧ after.MinTokens = params.MinTokens ∧ after.RandomSeed = params.RandomSeed
        ∧ after.Stop = params.Stop)
    ∧ (∃ after body,
        (FIM request marshal unmarshal (some params)).2 = some after
        ∧ after.Stream = some false
        ∧ (FIM request marshal unmarshal (some params)).1.dispatched
          = [⟨"POST", some body, "v1/fim/completions", false⟩]
        ∧ body.get? "stream" = some (.bool false)
        ∧ after.Model = params.Model ∧ after.Prompt = params.Prompt
        ∧ after.Suffix = params.Suffix ∧ after.MaxTokens = params.MaxTokens
        ∧ after.Temperature = params.Temperature ∧ after.TopP = params.TopP
        ∧ after.MinTokens = params.MinTokens ∧ after.RandomSeed = params.RandomSeed
        ∧ after.Stop = params.Stop) := by
  constructor
  · exact ⟨_, _, FIMStream_params request unmarshalChunk params, rfl,
      FIMStream_dispatched request unmarshalChunk params, fimRequestData_stream _ _,
      rfl, rfl, rfl, rfl, rfl, rfl, rfl, rfl, rfl⟩
  · exact ⟨_, _, rfl, rfl, dispatchAndProject_dispatched request marshal unmarshal _,
      fimRequestData_stream _ _, rfl, rfl, rfl, rfl, rfl, rfl, rfl, rfl, rfl⟩

/-- C25: for every `ChatRequestParams` the body `Chat` hands to the dispatch
routine holds `model` and `messages`, holds each optional key exactly when its
field is set (a non-nil pointer or slice, a non-empty string) and then with the
field's value, whatever it is, and holds no other key; with nil params the
body is `model` and `messages` alone. -/
theorem chat_optional_params_only_if_set
    (request : RequestDescriptor → Except (CallError H) (DispatchValue M))
    (marshal : M → Except String Bytes) (unmarshal : Bytes → Except String T)
    (model : String) (messages : Option (List ChatMessage)) (params : ChatRequestParams) :
    (∃ body : GoMap,
        (Chat request marshal unmarshal model messages (some params)).dispatched
          = [⟨"POST", some body, "v1/chat/completions", false⟩]
        ∧ body.get? "model" = some (.string model)
        ∧ body.get? "messages" = some (sliceValue ChatMessage.toValue messages)
        ∧ body.get? "temperature" = params.Temperature.map .float64
        ∧ body.get? "top_p" = params.TopP.map .float64
        ∧ body.get? "random_seed" = params.RandomSeed.map .int
        ∧ body.get? "max_tokens" = params.MaxTokens.map .int
        ∧ body.get? "min_tokens" = params.MinTokens.map .int
        ∧ body.get? "stop" = params.Stop.map (fun s => .slice (s.map .string))
        ∧ body.get? "safe_prompt" = params.SafePrompt.map .bool
        ∧ body.get? "presence_penalty" = params.PresencePenalty.map .float64
        ∧ body.get? "frequency_penalty" = params.FrequencyPenalty.map .float64
        ∧ body.get? "n" = params.N.map .int
        ∧ body.get? "prediction" = params.Prediction.map .pointer
        ∧ body.get? "prompt_mode" = params.PromptMode.map .string
        ∧ body.get? "parallel_tool_calls" = params.ParallelToolCalls.map .bool
        ∧ body.get? "tools" = params.Tools.map .slice
        ∧ body.get? "tool_choice"
            = (if params.ToolChoice = "" then none else some (.string params.ToolChoice))
        ∧ body.get? "response_format"
            = (if params.ResponseFormat = "" then none
                else some (.object [("type", .string params.ResponseFormat)]))
        ∧ (∀ key, key ∉ ["model", "messages", "temperature", "top_p", "random_seed",
              "max_tokens", "min_tokens", "stop", "safe_prompt", "presence_penalty",
              "frequency_penalty", "n", "prediction", "prompt_mode", "parallel_tool_calls",
              "tools", "tool_choice", "response_format"] → body.get? key = none))
    ∧ (Chat request marshal unmarshal model messages none : OpRun T H).dispatched
        = [⟨"POST", some [("model", .string model),
              ("messages", sliceValue ChatMessage.toValue messages)],
            "v1/chat/completions", false⟩] := by
  refine ⟨⟨_, dispatchAndProject_dispatched request marshal unmarshal _, ?_⟩,
    dispatchAndProject_dispatched request marshal unmarshal _⟩
  simp only [chatOptionalParams, GoMap.get?_setDeref, GoMap.get?_setPointer, GoMap.get?_setIf,
    GoMap.get?]
  refine ⟨?_, ?_, ?_, ?_, ?_, ?_, ?_, ?_, ?_, ?_, ?_, ?_, ?_, ?_, ?_, ?_, ?_, ?_, ?_⟩
  · simp
  · simp
  · cases params.Temperature <;> simp
  · cases params.TopP <;> simp
  · cases params.RandomSeed <;> simp
  · cases params.MaxTokens <;> simp
  · cases params.MinTokens <;> simp
  · cases params.Stop <;> simp [sliceValue]
  · cases params.SafePrompt <;> simp
  · cases params.PresencePenalty <;> simp
  · cases params.FrequencyPenalty <;> simp
  · cases params.N <;> simp
  · cases params.Prediction <;> simp
  · cases params.PromptMode <;> simp
  · cases params.ParallelToolCalls <;> simp
  · cases params.Tools <;> simp [sliceValue]
  · by_cases h : params.ToolChoice = "" <;> simp [h]
  · by_cases h : params.ResponseFormat = "" <;> simp [h]
  · intro key hkey
    simp only [List.mem_cons, List.mem_singleton, List.not_mem_nil, or_false, not_or] at hkey
    obtain ⟨kModel, kMessages, kTemperature, kTopP, kSeed, kMax, kMin, kStop, kSafe, kPresence,
      kFrequency, kN, kPrediction, kMode, kParallel, kTools, kChoice, kFormat⟩ := hkey
    simp [Ne.symm kModel, Ne.symm kMessages, Ne.symm kTemperature, Ne.symm kTopP, Ne.symm kSeed,
      Ne.symm kMax, Ne.symm kMin, Ne.symm kStop, Ne.symm kSafe, Ne.symm kPresence,
      Ne.symm kFrequency, Ne.symm kN, Ne.symm kPrediction, Ne.symm kMode, Ne.symm kParallel,
      Ne.symm kTools, Ne.symm kChoice, Ne.symm kFormat]

end BodyClaims

/-- C25 at explicit params: a temperature of zero is a set pointer and is sent
with its value, and a set but empty stop list is sent as an empty list. -/
theorem chat_optional_params_only_if_set_witness :
    ∃ body : GoMap,
      (Chat sampleDispatch Except.ok sampleUnmarshal "mistral-small" none
          (some { NewChatRequestParams with Temperature := some ⟨0⟩, Stop := some [] })).dispatched
        = [⟨"POST", some body, "v1/chat/completions", false⟩]
      ∧ body.get? "temperature" = some (.float64 ⟨0⟩)
      ∧ body.get? "stop" = some (.slice [])
      ∧ body.get? "top_p" = none :=
  let ⟨body, hd, _, _, ht, hp, _, _, _, hs, _⟩ :=
    (chat_optional_params_only_if_set sampleDispatch Except.ok sampleUnmarshal "mistral-small"
      none { NewChatRequestParams with Temperature := some ⟨0⟩, Stop := some [] }).1
  ⟨body, hd, ht, hs, hp⟩

/-! ## The client constructor -/

/-- C23: the key of the client `NewMistralClient` builds is the explicit
argument when that is not empty, whatever the environment holds; with an empty
argument it is the value of `MISTRAL_API_KEY`, and the empty string when the
variable is unset. -/
theorem api_key_resolution (env : String → Option String) (Endpoint : String)
    (DefaultMaxRetries DefaultTimeout : Int) (endpoint : String) (maxRetries timeout : Int) :
    (∀ apiKey : String, apiKey ≠ "" →
        (NewMistralClient env Endpoint DefaultMaxRetries DefaultTimeout apiKey endpoint
          maxRetries timeout).apiKey = apiKey)
    ∧ (∀ value : String, env "MISTRAL_API_KEY" = some value →
        (NewMistralClient env Endpoint DefaultMaxRetries DefaultTimeout "" endpoint
          maxRetries timeout).apiKey = value)
    ∧ (env "MISTRAL_API_KEY" = none →
        (NewMistralClient env Endpoint DefaultMaxRetries DefaultTimeout "" endpoint
          maxRetries timeout).apiKey = "") := by
  refine ⟨?_, ?_, ?_⟩
  · intro apiKey h
    simp [NewMistralClient, h]
  · intro value h
    simp [NewMistralClient, osGetenv, h]
  · intro h
    simp [NewMistralClient, osGetenv, h]

/-- C23 at the environment of the tests: with `MISTRAL_API_KEY` set to
`env-key`, the explicit key `explicit-key` wins and the empty argument yields
`env-key`. -/
theorem api_key_resolution_witness :
    (NewMistralClient sampleEnv "https://api.mistral.ai" 5 120000000000 "explicit-key" "" 0
        0).apiKey = "explicit-key"
    ∧ (NewMistralClient sampleEnv "https://api.mistral.ai" 5 120000000000 "" "" 0 0).apiKey
        = "env-key" :=
  have h := api_key_resolution sampleEnv "https://api.mistral.ai" 5 120000000000 "" 0 0
  ⟨h.1 "explicit-key" (by decide), h.2.1 "env-key" rfl⟩

/-! ## The request body across attempts -/

/-- C29: retry count 3, a multipart payload of 76 bytes, a server that answers
every request with status 503 and the body `busy`.  The first attempt transmits
the payload.  The second attempt calls `client.Do` with the same request: its
body buffer is empty and its declared length is still 76.  The body of the
first response is still open, so the attempt runs on a new connection, where
the write of the request fails and nothing is transmitted; so do the third and
the fourth attempt.  `UploadFile` and `Transcribe` return a connection error
after four calls of `client.Do`, and the server has received one request.
(When the answers have no body the connection is reused, the transport rewinds
the body through `GetBody`, and the payload is transmitted again.) -/
theorem retried_attempt_transmits_no_body :
    uploadFileOverHttp 3 busyServer sampleQuotedURL samplePayload sampleUnmarshal
      = ⟨none, some (.connection
          "Post \"http://127.0.0.1:8080/v1/files\": http: ContentLength=76 with Body length 0"),
          4⟩
    ∧ transcribeOverHttp 3 busyServer sampleQuotedURL samplePayload sampleUnmarshal
      = ⟨none, some (.connection
          "Post \"http://127.0.0.1:8080/v1/files\": http: ContentLength=76 with Body length 0"),
          4⟩
    ∧ serverReceived busyServer sampleQuotedURL samplePayload 4 = [samplePayload]
    ∧ (httpStateBefore busyServer sampleQuotedURL (httpNewRequest samplePayload) 1).req
      = ⟨[], 76, samplePayload⟩
    ∧ samplePayload.length = 76
    ∧ uploadFileOverHttp 1 bodylessServer sampleQuotedURL samplePayload sampleUnmarshal
      = ⟨none, some (.api [] 503 ()), 2⟩
    ∧ serverReceived bodylessServer sampleQuotedURL samplePayload 2
      = [samplePayload, samplePayload] := by
  have hup : uploadFileOverHttp 3 busyServer sampleQuotedURL samplePayload sampleUnmarshal
      = ⟨none, some (.connection
          "Post \"http://127.0.0.1:8080/v1/files\": http: ContentLength=76 with Body length 0"),
          4⟩ := by
    have htrans : ∀ i, i < 3 →
        isTransient (httpClientDoAt busyServer sampleQuotedURL (httpNewRequest samplePayload)
          (0 + i)) = true := by
      intro i hi
      interval_cases i <;> rfl
    have h := uploadFileRetryLoop_transients (3 : Int)
      (httpClientDoAt busyServer sampleQuotedURL (httpNewRequest samplePayload))
      sampleUnmarshal 3 0 none 0 (by decide) htrans
    rw [uploadFileOverHttp, uploadFileRetry, h,
      uploadFileRetryLoop_lastError (3 : Int) _ sampleUnmarshal (0 + 3) none (0 + 3)
        "Post \"http://127.0.0.1:8080/v1/files\": http: ContentLength=76 with Body length 0"
        rfl rfl]
  have hbodyless : uploadFileOverHttp 1 bodylessServer sampleQuotedURL samplePayload
      sampleUnmarshal = ⟨none, some (.api [] 503 ()), 2⟩ := by
    rw [uploadFileOverHttp, uploadFileRetry,
      uploadFileRetryLoop_retry (1 : Int) _ sampleUnmarshal 0 none 0 ⟨503, (), .ok []⟩
        (by decide) rfl (by decide),
      uploadFileRetryLoop_final (1 : Int) _ sampleUnmarshal 1 none 1 ⟨503, (), .ok []⟩
        (by decide) rfl (Or.inr (by decide))]
    rfl
  exact ⟨hup, by rw [transcribeOverHttp, transcribeRetry_eq]; exact hup, rfl, rfl, by decide,
    hbodyless, rfl⟩

/-! ## The list operations -/

/-- C30: with nil params, and with params that set no filter, `ListFiles` hands
the dispatch routine the path `v1/files?`, with a trailing `?`, where
`ListBatchJobs` and `ListFineTuningJobs` hand it their base paths
`v1/batch/jobs` and `v1/fine_tuning/jobs`. -/
theorem listFiles_path_without_filter {M T H : Type}
    (request : RequestDescriptor → Except (CallError H) (DispatchValue M))
    (marshal : M → Except String Bytes) (unmarshal : Bytes → Except String T)
    (queryEscape : String → String) (endpoint : String) :
    (ListFiles request marshal unmarshal queryEscape endpoint none).dispatched
        = [⟨"GET", none, "v1/files?", false⟩]
    ∧ (ListFiles request marshal unmarshal queryEscape endpoint
        (some ⟨none, none, none, none, none, none⟩)).dispatched
        = [⟨"GET", none, "v1/files?", false⟩]
    ∧ (ListBatchJobs request marshal unmarshal queryEscape none).dispatched
        = [⟨"GET", none, "v1/batch/jobs", false⟩]
    ∧ (ListFineTuningJobs request marshal unmarshal queryEscape none).dispatched
        = [⟨"GET", none, "v1/fine_tuning/jobs", false⟩] :=
  ⟨dispatchAndProject_dispatched request marshal unmarshal _,
    dispatchAndProject_dispatched request marshal unmarshal _,
    dispatchAndProject_dispatched request marshal unmarshal _,
    dispatchAndProject_dispatched request marshal unmarshal _⟩

end Mistral
